import Mathlib

/-!
# Statistical obfuscation layer (package `proxy/obfuscation`)

A shallow embedding of the padding engine (`padding.go`), the timing engine
(`timing.go`), the burst shaper (`burst.go`), the configuration (`config.go`)
and the stream wrappers (`wrapper.go`), followed by theorems about them.

Conventions of the embedding:

* Go `int32` / `int64` values are integers; every arithmetic result is passed
  through `int32` / `int64`, which wrap around exactly as the machine does.
* A Go panic (here: dereferencing a nil `*big.Int`) is the result `none`.
* Everything the package takes from outside itself is explicit: the entropy
  source `crypto/rand.Reader`, the clock and the debug log live in `World`;
  the floating-point pipelines are the fields of `FloatOps`; the chunk
  capacity `buf.Size` is the parameter `Size`.
* The packet counters are Go `int`s that are only ever incremented from zero;
  they are modelled as unbounded integers.
-/

namespace Obfuscation

/-! ## Machine integers -/

/-- Conversion to Go `int32`: two's-complement wrap-around into `[-2^31, 2^31)`. -/
def int32 (x : Int) : Int := (x + 2147483648) % 4294967296 - 2147483648

/-- Conversion to Go `int64`: two's-complement wrap-around into `[-2^63, 2^63)`. -/
def int64 (x : Int) : Int :=
  (x + 9223372036854775808) % 18446744073709551616 - 9223372036854775808

/-! ## The outside world -/

/-- One line handed to `errors.LogDebug`. -/
inductive LogEntry where
  | paddingFillFailed
  | applied (packet : Int) (handshake : Bool) (originalSize finalSize : Int)
  | read (packet : Int) (size : Int)
  deriving DecidableEq, Repr

/-- The environment of the package: `rand i` is the outcome of the `i`-th read
of `crypto/rand.Reader` (`none` is a read error, `some raw` the raw entropy
delivered), `reads` counts the reads made so far, `now` is the clock in
nanoseconds and `log` collects the debug lines, oldest first. -/
structure World where
  rand : Nat → Option Nat
  reads : Nat
  now : Int
  log : List LogEntry

/-- `rand.Int(rand.Reader, big.NewInt(max))`: a value in `[0, max)` or an error.
Every value below `max` is the outcome for some raw entropy, and only those
are.  For `max = 1` the library returns 0 without touching the reader.  The
package never calls it with `max = 0`. -/
def randInt (max : Nat) (w : World) : Option Nat × World :=
  if max ≤ 1 then (some 0, w)
  else
    match w.rand w.reads with
    | none => (none, { w with reads := w.reads + 1 })
    | some raw => (some (raw % max), { w with reads := w.reads + 1 })

/-- `rand.Read(p)` for a slice of `n` bytes: `n` arbitrary bytes, or an error
that leaves the slice as it was. -/
def randRead (n : Nat) (w : World) : Option (List Nat) × World :=
  match w.rand w.reads with
  | none => (none, { w with reads := w.reads + 1 })
  | some raw =>
    (some ((List.range n).map (fun i => raw / 256 ^ i % 256)), { w with reads := w.reads + 1 })

/-- The floating-point computations of the package.  Each field is the integer
that the Go conversion at the end of the pipeline produces; the theorems hold
for every choice of these functions.

* `expPadding u` is `int32(-math.Log(x) / 0.002)` with `x = u / 1000000.0`,
  replaced by `0.000001` when it is zero (`generateHTTPSPadding`);
* `expDelayMs u meanMs` is `int64(-math.Log(x) / (1.0 / float64(meanMs)))` with
  the same `x` (`exponentialDelay`);
* `normalDelayMs u1 u2 meanMs` is `int64(z0*stdDevMs + meanMs)` of the
  Box-Muller transform in `normalDelay`. -/
structure FloatOps where
  expPadding : Nat → Int
  expDelayMs : Nat → Int → Int
  normalDelayMs : Nat → Nat → Int → Int

/-! ## `buf.Buffer`, `buf.MultiBuffer`, `buf.Writer`, `buf.Reader` -/

/-- Modelled from the spec: the data unit of the wrapped transport (type
`buf.Buffer` of package `common/buf`, which is not part of this module): a
resizable byte chunk with a known length, an extend-by-n operation and access
to the bytes just appended. -/
structure Buffer where
  bytes : List Nat
  deriving DecidableEq, Repr

/-- Modelled from the spec: `Buffer.Len` of package `common/buf`, the known
length of the chunk (an `int32`). -/
def Buffer.Len (b : Buffer) : Int := (b.bytes.length : Int)

/-- Modelled from the spec: `Buffer.Extend` of package `common/buf`, extend the
chunk by `n` bytes; the new bytes are zero until they are written. -/
def Buffer.Extend (b : Buffer) (n : Int) : Buffer :=
  { bytes := b.bytes ++ List.replicate n.toNat 0 }

/-- Modelled from the spec: writing `data` through the slice
`Buffer.BytesFrom(start)` of package `common/buf`, which aliases the bytes of
the chunk from offset `start` on. -/
def Buffer.fillFrom (b : Buffer) (start : Int) (data : List Nat) : Buffer :=
  { bytes := b.bytes.take start.toNat ++ data ++ b.bytes.drop (start.toNat + data.length) }

/-! ## padding.go -/

inductive PaddingDistribution where
  | UniformDistribution
  | HTTP3Distribution
  | HTTPSDistribution
  deriving DecidableEq, Repr

open PaddingDistribution

structure PaddingEngine where
  distribution : PaddingDistribution
  minPadding : Int
  maxPadding : Int
  deriving DecidableEq, Repr

def NewPaddingEngine (dist : PaddingDistribution) : PaddingEngine :=
  { distribution := dist, minPadding := 0, maxPadding := 1400 }

/-- Uniform random padding; a failed draw is replaced by 900 resp. 128. -/
def PaddingEngine.generateUniformPadding (_p : PaddingEngine) (isHandshake : Bool)
    (w : World) : Int × World :=
  if isHandshake then
    match randInt 500 w with
    | (none, w1) => (900, w1)
    | (some l, w1) => (int32 (int32 l + 900), w1)
  else
    match randInt 256 w with
    | (none, w1) => (128, w1)
    | (some l, w1) => (int32 l, w1)

/-- The source discards the error of every draw (`l, _ := rand.Int(..)`) and
calls `l.Int64()`; after a failed draw `l` is nil and the call panics. -/
def PaddingEngine.generateHTTP3Padding (p : PaddingEngine) (isHandshake : Bool)
    (currentSize : Int) (w : World) : Option (Int × World) :=
  if isHandshake then
    let target : Int := 1200
    if currentSize ≥ target then
      match randInt 100 w with
      | (none, _) => none
      | (some l, w1) => some (int32 l, w1)
    else
      match randInt 200 w with
      | (none, _) => none
      | (some l, w1) =>
        let padding := int32 (target - currentSize + int32 l - 100)
        let padding := if padding < 0 then 0 else padding
        let padding := if padding > p.maxPadding then p.maxPadding else padding
        some (padding, w1)
  else
    match randInt 100 w with
    | (none, _) => none
    | (some r, w1) =>
      if (r : Int) < 70 then
        let target : Int := 250
        match randInt 100 w1 with
        | (none, _) => none
        | (some l, w2) =>
          let padding := int32 (target - currentSize + int32 l - 50)
          let padding := if padding < 0 then int32 l else padding
          let padding := if padding > 300 then 300 else padding
          some (padding, w2)
      else
        let target : Int := 1200
        match randInt 400 w1 with
        | (none, _) => none
        | (some l, w2) =>
          let padding := int32 (target - currentSize + int32 l - 200)
          let padding := if padding < 0 then int32 l else padding
          let padding := if padding > p.maxPadding then p.maxPadding else padding
          some (padding, w2)

/-- As in `generateHTTP3Padding`, a failed draw leaves a nil `*big.Int` whose
`Int64()` panics. -/
def PaddingEngine.generateHTTPSPadding (fl : FloatOps) (p : PaddingEngine)
    (isHandshake : Bool) (currentSize : Int) (w : World) : Option (Int × World) :=
  if isHandshake then
    let target : Int := 250
    match randInt 100 w with
    | (none, _) => none
    | (some l, w1) =>
      let padding := int32 (target - currentSize + int32 l - 50)
      if padding < 0 then
        match randInt 100 w1 with
        | (none, _) => none
        | (some l2, w2) =>
          let padding := int32 l2
          let padding := if padding > 500 then 500 else padding
          some (padding, w2)
      else
        let padding := if padding > 500 then 500 else padding
        some (padding, w1)
  else
    match randInt 1000000 w with
    | (none, _) => none
    | (some u, w1) =>
      let padding := int32 (fl.expPadding u)
      let padding := if padding > p.maxPadding then p.maxPadding else padding
      let padding := if padding < 0 then 0 else padding
      some (padding, w1)

def PaddingEngine.GeneratePadding (fl : FloatOps) (p : PaddingEngine) (isHandshake : Bool)
    (currentSize : Int) (w : World) : Option (Int × World) :=
  match p.distribution with
  | HTTP3Distribution => p.generateHTTP3Padding isHandshake currentSize w
  | HTTPSDistribution => p.generateHTTPSPadding fl isHandshake currentSize w
  | UniformDistribution => some (p.generateUniformPadding isHandshake w)

/-- `Size` is the constant `buf.Size` of package `common/buf`, the maximum
chunk capacity of the transport. -/
def PaddingEngine.ApplyPadding (Size : Int) (_p : PaddingEngine) (b : Buffer)
    (paddingLen : Int) (w : World) : Buffer × World :=
  if paddingLen ≤ 0 then (b, w)
  else
    let maxAvailable := int32 (Size - b.Len - 21)
    let paddingLen := if paddingLen > maxAvailable then maxAvailable else paddingLen
    if paddingLen ≤ 0 then (b, w)
    else
      let paddingStart := b.Len
      let b1 := b.Extend paddingLen
      match randRead paddingLen.toNat w with
      | (none, w1) => (b1, { w1 with log := w1.log ++ [LogEntry.paddingFillFailed] })
      | (some data, w1) => (b1.fillFrom paddingStart data, w1)

/-! ## timing.go -/

inductive TimingProfile where
  | NoJitter
  | UniformJitter
  | ExponentialJitter
  | NormalJitter
  deriving DecidableEq, Repr

open TimingProfile

/-- The constant `time.Millisecond`.  A `time.Duration` is an `int64` count of
nanoseconds. -/
def Millisecond : Int := 1000000

/-- `Duration.Milliseconds`: integer division by 10^6, truncating toward zero. -/
def Milliseconds (d : Int) : Int := Int.tdiv d 1000000

/-- The three delays are `time.Duration`s (nanoseconds); `lastSendTime` is an
instant of the clock `World.now`. -/
structure TimingEngine where
  profile : TimingProfile
  minDelay : Int
  maxDelay : Int
  meanDelay : Int
  lastSendTime : Int
  deriving DecidableEq, Repr

def NewTimingEngine (profile : TimingProfile) (w : World) : TimingEngine :=
  { profile := profile
    minDelay := 0
    maxDelay := 50 * Millisecond
    meanDelay := 10 * Millisecond
    lastSendTime := w.now }

def TimingEngine.uniformDelay (t : TimingEngine) (w : World) : Int × World :=
  let rangeMs := int64 (Milliseconds t.maxDelay - Milliseconds t.minDelay)
  if rangeMs ≤ 0 then (t.minDelay, w)
  else
    match randInt rangeMs.toNat w with
    | (none, w1) => (t.meanDelay, w1)
    | (some r, w1) => (int64 (t.minDelay + int64 (int64 r * Millisecond)), w1)

def TimingEngine.exponentialDelay (fl : FloatOps) (t : TimingEngine) (w : World) :
    Int × World :=
  match randInt 1000000 w with
  | (none, w1) => (t.meanDelay, w1)
  | (some u, w1) =>
    let delayMs := int64 (fl.expDelayMs u (Milliseconds t.meanDelay))
    let delayMs := if delayMs < 0 then 0 else delayMs
    let delayMs :=
      if delayMs > Milliseconds t.maxDelay then Milliseconds t.maxDelay else delayMs
    (int64 (delayMs * Millisecond), w1)

def TimingEngine.normalDelay (fl : FloatOps) (t : TimingEngine) (w : World) :
    Int × World :=
  match randInt 1000000 w with
  | (r1, w1) =>
    match randInt 1000000 w1 with
    | (r2, w2) =>
      match r1, r2 with
      | some u1, some u2 =>
        let delayMs := int64 (fl.normalDelayMs u1 u2 (Milliseconds t.meanDelay))
        let delayMs := if delayMs < 0 then 0 else delayMs
        let delayMs :=
          if delayMs > Milliseconds t.maxDelay then Milliseconds t.maxDelay else delayMs
        (int64 (delayMs * Millisecond), w2)
      | _, _ => (t.meanDelay, w2)

def TimingEngine.calculateDelay (fl : FloatOps) (t : TimingEngine) (w : World) :
    Int × World :=
  match t.profile with
  | UniformJitter => t.uniformDelay w
  | ExponentialJitter => t.exponentialDelay fl w
  | NormalJitter => t.normalDelay fl w
  | NoJitter => (0, w)

/-- A `context.Context`, reduced to the instant at which its `Done` channel
becomes readable (`none`: it never does). -/
structure Context where
  done : Option Int
  deriving DecidableEq, Repr

/-- The `select` of `ApplyJitter`: the instant at which the wait that starts at
`now` ends, by the timer after `delay` or by cancellation, whichever is first. -/
def waitEnd (ctx : Context) (now : Int) (delay : Int) : Int :=
  match ctx.done with
  | none => now + delay
  | some c => if c ≤ now then now else if c < now + delay then c else now + delay

def TimingEngine.ApplyJitter (fl : FloatOps) (t : TimingEngine) (ctx : Context)
    (w : World) : TimingEngine × World :=
  if t.profile = NoJitter then (t, w)
  else
    match t.calculateDelay fl w with
    | (delay, w1) =>
      if delay ≤ 0 then (t, w1)
      else
        let t1 := { t with lastSendTime := w1.now }
        (t1, { w1 with now := waitEnd ctx w1.now delay })

def TimingEngine.SetDelayRange (t : TimingEngine) (min max : Int) : TimingEngine :=
  { t with minDelay := min, maxDelay := max, meanDelay := Int.tdiv (int64 (min + max)) 2 }

def TimingEngine.SetMeanDelay (t : TimingEngine) (mean : Int) : TimingEngine :=
  { t with meanDelay := mean }

/-! ## burst.go -/

inductive BurstPattern where
  | NormalPattern
  | HTTPSPattern
  | HTTP3Pattern
  | VideoStreamPattern
  deriving DecidableEq, Repr

open BurstPattern

structure BurstShaper where
  pattern : BurstPattern
  paddingEngine : PaddingEngine
  timingEngine : TimingEngine
  packetCount : Int
  burstCount : Int
  inBurst : Bool
  deriving DecidableEq, Repr

def NewBurstShaper (pattern : BurstPattern) (w : World) : BurstShaper :=
  let paddingDist :=
    match pattern with
    | HTTPSPattern => HTTPSDistribution
    | HTTP3Pattern => HTTP3Distribution
    | _ => UniformDistribution
  let timingProfile :=
    match pattern with
    | HTTPSPattern => ExponentialJitter
    | HTTP3Pattern => ExponentialJitter
    | _ => NoJitter
  { pattern := pattern
    paddingEngine := NewPaddingEngine paddingDist
    timingEngine := NewTimingEngine timingProfile w
    packetCount := 0
    burstCount := 0
    inBurst := true }

def BurstShaper.adjustHTTPSTiming (b : BurstShaper) : BurstShaper :=
  if b.inBurst then
    let t := (b.timingEngine.SetDelayRange 0 (5 * Millisecond)).SetMeanDelay (2 * Millisecond)
    let b := { b with timingEngine := t }
    if Int.tmod b.packetCount 5 = 0 then
      { b with inBurst := false, burstCount := b.burstCount + 1 }
    else b
  else
    let t := (b.timingEngine.SetDelayRange (20 * Millisecond) (50 * Millisecond)).SetMeanDelay
      (30 * Millisecond)
    let b := { b with timingEngine := t }
    if Int.tmod b.packetCount 8 = 0 then { b with inBurst := true } else b

def BurstShaper.adjustHTTP3Timing (b : BurstShaper) : BurstShaper :=
  let t := (b.timingEngine.SetDelayRange (5 * Millisecond) (15 * Millisecond)).SetMeanDelay
    (10 * Millisecond)
  { b with timingEngine := t }

def BurstShaper.adjustVideoTiming (b : BurstShaper) : BurstShaper :=
  if b.inBurst then
    let t := (b.timingEngine.SetDelayRange 0 (2 * Millisecond)).SetMeanDelay (1 * Millisecond)
    let b := { b with timingEngine := t }
    if Int.tmod b.packetCount 10 = 0 then { b with inBurst := false } else b
  else
    let t := (b.timingEngine.SetDelayRange (25 * Millisecond) (40 * Millisecond)).SetMeanDelay
      (33 * Millisecond)
    let b := { b with timingEngine := t }
    if Int.tmod b.packetCount 11 = 0 then
      { b with inBurst := true, burstCount := b.burstCount + 1 }
    else b

def BurstShaper.adjustTimingForBurst (b : BurstShaper) : BurstShaper :=
  match b.pattern with
  | HTTPSPattern => b.adjustHTTPSTiming
  | HTTP3Pattern => b.adjustHTTP3Timing
  | VideoStreamPattern => b.adjustVideoTiming
  | NormalPattern => b

/-- The buffer is changed in place and returned; the result carries the buffer,
the shaper and the world after the call. -/
def BurstShaper.ShapePacket (Size : Int) (fl : FloatOps) (b : BurstShaper) (ctx : Context)
    (buffer : Buffer) (isHandshake : Bool) (w : World) :
    Option (Buffer × BurstShaper × World) :=
  let b : BurstShaper := { b with packetCount := b.packetCount + 1 }
  let currentSize := buffer.Len
  match b.paddingEngine.GeneratePadding fl isHandshake currentSize w with
  | none => none
  | some (paddingLen, w1) =>
    let (b2, w2) :=
      if b.packetCount > 1 ∧ isHandshake = false then
        let b1 := b.adjustTimingForBurst
        let (t, w') := b1.timingEngine.ApplyJitter fl ctx w1
        ({ b1 with timingEngine := t }, w')
      else (b, w1)
    let (buffer', w3) :=
      if paddingLen > 0 then b2.paddingEngine.ApplyPadding Size buffer paddingLen w2
      else (buffer, w2)
    some (buffer', b2, w3)

def BurstShaper.Reset (b : BurstShaper) : BurstShaper :=
  { b with packetCount := 0, burstCount := 0, inBurst := true }

/-! ## config.go -/

structure Config where
  Enabled : Bool
  PaddingMode : String
  TimingMode : String
  BurstPattern : String
  MinDelayMs : Int
  MaxDelayMs : Int
  Debug : Bool
  deriving DecidableEq, Repr

def DefaultConfig : Config :=
  { Enabled := true
    PaddingMode := "http3"
    TimingMode := "exponential"
    BurstPattern := "https"
    MinDelayMs := 0
    MaxDelayMs := 50
    Debug := false }

def Config.GetPaddingDistribution (c : Config) : PaddingDistribution :=
  if c.PaddingMode = "http3" then HTTP3Distribution
  else if c.PaddingMode = "https" then HTTPSDistribution
  else UniformDistribution

def Config.GetTimingProfile (c : Config) : TimingProfile :=
  if c.TimingMode = "uniform" then UniformJitter
  else if c.TimingMode = "exponential" then ExponentialJitter
  else if c.TimingMode = "normal" then NormalJitter
  else NoJitter

def Config.GetBurstPattern (c : Config) : Obfuscation.BurstPattern :=
  if c.BurstPattern = "https" then HTTPSPattern
  else if c.BurstPattern = "http3" then HTTP3Pattern
  else if c.BurstPattern = "video" then VideoStreamPattern
  else NormalPattern

/-! ## wrapper.go -/

/-- Modelled from the spec: a batch of data units (type `buf.MultiBuffer` of
package `common/buf`), an ordered sequence of chunks, some of which may be nil. -/
abbrev MultiBuffer := List (Option Buffer)

/-- A transport-level failure, the non-nil `error` of the wrapped transport. -/
abbrev Error := String

/-- Modelled from the spec: the wrapped transport writer (interface `buf.Writer`
of package `common/buf`): a write operation that accepts a batch and returns
success (`none`) or a transport-level failure.  `received` lists the batches it
was called with, oldest first; `outcome` is its answer to the latest call, as a
function of everything it received. -/
structure Writer where
  received : List MultiBuffer
  outcome : List MultiBuffer → Option Error

/-- Modelled from the spec: one call of the write operation of the transport. -/
def Writer.WriteMultiBuffer (wr : Writer) (mb : MultiBuffer) : Writer × Option Error :=
  ({ wr with received := wr.received ++ [mb] }, wr.outcome (wr.received ++ [mb]))

/-- Modelled from the spec: the wrapped transport reader (interface `buf.Reader`
of package `common/buf`): a read operation that returns the next batch of chunks
or a transport-level failure.  `served` counts the calls made so far; `answer k`
is what the call number `k` returns. -/
structure Reader where
  served : Nat
  answer : Nat → MultiBuffer × Option Error

/-- Modelled from the spec: one call of the read operation of the transport. -/
def Reader.ReadMultiBuffer (rd : Reader) : (MultiBuffer × Option Error) × Reader :=
  (rd.answer rd.served, { rd with served := rd.served + 1 })

/-- Modelled from the spec: `MultiBuffer.IsEmpty` of package `common/buf`: no
chunk of the batch holds a byte.  Only the debug line of the reader uses it. -/
def MultiBuffer.IsEmpty (mb : MultiBuffer) : Bool :=
  mb.all (fun b => match b with
    | none => true
    | some b => decide (b.Len = 0))

/-- Modelled from the spec: `MultiBuffer.Len` of package `common/buf`: the total
number of bytes of the batch.  Only the debug line of the reader uses it. -/
def MultiBuffer.Len (mb : MultiBuffer) : Int :=
  (mb.map (fun b => match b with
    | none => 0
    | some b => b.Len)).sum

structure ObfuscationWriter where
  Writer : Writer
  config : Config
  burstShaper : Option BurstShaper
  ctx : Context
  packetCount : Int
  isHandshake : Bool

/-- A nil `config` is `none`. -/
def NewObfuscationWriter (writer : Writer) (config : Option Config) (ctx : Context)
    (w : World) : ObfuscationWriter :=
  let config := match config with
    | none => DefaultConfig
    | some c => c
  let burstShaper :=
    if config.Enabled then some (NewBurstShaper config.GetBurstPattern w) else none
  { Writer := writer
    config := config
    burstShaper := burstShaper
    ctx := ctx
    packetCount := 0
    isHandshake := true }

/-- The loop of `WriteMultiBuffer` over the units of the batch.  `obfuscatedMB`
is the batch collected so far.  `calls` is not program state: it records, in
order, the arguments (unit, isHandshake) of every `ShapePacket` call made.
`ShapePacket` changes the unit in place, so the debug line, written after the
call, reads the shaped length for `original_size` as well as for `final_size`. -/
def ObfuscationWriter.shapeUnits (Size : Int) (fl : FloatOps) :
    MultiBuffer → ObfuscationWriter → MultiBuffer → List (Buffer × Bool) → World →
    Option (ObfuscationWriter × MultiBuffer × List (Buffer × Bool) × World)
  | [], w, obfuscatedMB, calls, wd => some (w, obfuscatedMB, calls, wd)
  | none :: rest, w, obfuscatedMB, calls, wd =>
    ObfuscationWriter.shapeUnits Size fl rest w obfuscatedMB calls wd
  | some b :: rest, w, obfuscatedMB, calls, wd =>
    if b.Len = 0 then ObfuscationWriter.shapeUnits Size fl rest w obfuscatedMB calls wd
    else
      let w : ObfuscationWriter := { w with packetCount := w.packetCount + 1 }
      let isHandshake : Bool := decide (w.packetCount ≤ 8)
      match w.burstShaper with
      | none => none
      | some s =>
        match s.ShapePacket Size fl w.ctx b isHandshake wd with
        | none => none
        | some (shapedBuffer, s1, wd1) =>
          let w : ObfuscationWriter := { w with burstShaper := some s1 }
          let wd2 :=
            if w.config.Debug then
              { wd1 with log := wd1.log ++
                  [LogEntry.applied w.packetCount isHandshake shapedBuffer.Len shapedBuffer.Len] }
            else wd1
          ObfuscationWriter.shapeUnits Size fl rest w (obfuscatedMB ++ [some shapedBuffer])
            (calls ++ [(b, isHandshake)]) wd2

/-- What a call of `WriteMultiBuffer` leaves behind: the writer, the returned
error (`none` is nil), the world, and the record `calls` of `shapeUnits`. -/
structure WriteResult where
  writer : ObfuscationWriter
  err : Option Error
  world : World
  calls : List (Buffer × Bool)

def ObfuscationWriter.WriteMultiBuffer (Size : Int) (fl : FloatOps) (w : ObfuscationWriter)
    (mb : MultiBuffer) (wd : World) : Option WriteResult :=
  if w.config.Enabled = false ∨ w.burstShaper.isNone = true then
    match w.Writer.WriteMultiBuffer mb with
    | (wr, err) => some { writer := { w with Writer := wr }, err := err, world := wd, calls := [] }
  else
    match ObfuscationWriter.shapeUnits Size fl mb w [] [] wd with
    | none => none
    | some (w1, obfuscatedMB, calls, wd1) =>
      if obfuscatedMB.length = 0 then
        some { writer := w1, err := none, world := wd1, calls := calls }
      else
        match w1.Writer.WriteMultiBuffer obfuscatedMB with
        | (wr, err) =>
          some { writer := { w1 with Writer := wr }, err := err, world := wd1, calls := calls }

structure ObfuscationReader where
  Reader : Reader
  config : Config
  ctx : Context
  packetCount : Int

/-- A nil `config` is `none`. -/
def NewObfuscationReader (reader : Reader) (config : Option Config) (ctx : Context) :
    ObfuscationReader :=
  let config := match config with
    | none => DefaultConfig
    | some c => c
  { Reader := reader, config := config, ctx := ctx, packetCount := 0 }

def ObfuscationReader.ReadMultiBuffer (r : ObfuscationReader) (wd : World) :
    (MultiBuffer × Option Error) × ObfuscationReader × World :=
  let r : ObfuscationReader := { r with packetCount := r.packetCount + 1 }
  match r.Reader.ReadMultiBuffer with
  | ((mb, err), rd) =>
    let wd1 :=
      if r.config.Debug = true ∧ mb.IsEmpty = false then
        { wd with log := wd.log ++ [LogEntry.read r.packetCount mb.Len] }
      else wd
    ((mb, err), { r with Reader := rd }, wd1)

/-- The value of interface type `buf.Writer` that `WrapWriter` returns: the
writer it was given, or a new `ObfuscationWriter`. -/
inductive WrappedWriter where
  | original (writer : Writer)
  | obfuscation (w : ObfuscationWriter)

/-- The value of interface type `buf.Reader` that `WrapReader` returns. -/
inductive WrappedReader where
  | original (reader : Reader)
  | obfuscation (r : ObfuscationReader)

def WrapWriter (writer : Writer) (config : Option Config) (ctx : Context) (w : World) :
    WrappedWriter :=
  match config with
  | none => WrappedWriter.original writer
  | some c =>
    if c.Enabled = false then WrappedWriter.original writer
    else WrappedWriter.obfuscation (NewObfuscationWriter writer (some c) ctx w)

def WrapReader (reader : Reader) (config : Option Config) (ctx : Context) : WrappedReader :=
  match config with
  | none => WrappedReader.original reader
  | some c =>
    if c.Enabled = false then WrappedReader.original reader
    else WrappedReader.obfuscation (NewObfuscationReader reader (some c) ctx)

/-- A connection: the batches are written one after another through the same
writer.  The result is the writer and the world after the last batch, the
errors returned and the `ShapePacket` calls made, in order. -/
def writeBatches (Size : Int) (fl : FloatOps) :
    List MultiBuffer → ObfuscationWriter → World →
    Option (ObfuscationWriter × World × List (Option Error) × List (Buffer × Bool))
  | [], w, wd => some (w, wd, [], [])
  | mb :: rest, w, wd =>
    match w.WriteMultiBuffer Size fl mb wd with
    | none => none
    | some r =>
      match writeBatches Size fl rest r.writer r.world with
      | none => none
      | some (w1, wd1, errs, calls) => some (w1, wd1, r.err :: errs, r.calls ++ calls)

/-- The non-empty units of a batch, in order. -/
def nonEmptyUnits (mb : MultiBuffer) : List Buffer :=
  mb.filterMap (fun b => match b with
    | none => none
    | some b => if b.Len = 0 then none else some b)

/-! ## Auxiliary definitions -/

/-- The entropy source of the world delivers on every read. -/
def World.Delivers (w : World) : Prop := ∀ i, w.rand i ≠ none

/-- The world used in the examples: every read of the entropy source delivers
the raw value 7; the clock stands at 0 and the log is empty. -/
def sampleWorld : World := { rand := fun _ => some 7, reads := 0, now := 0, log := [] }

/-- The floating-point results used in the examples. -/
def sampleFloat : FloatOps :=
  { expPadding := fun _ => 500, expDelayMs := fun _ m => m, normalDelayMs := fun _ _ m => m }

/-- A world whose entropy source fails on every read. -/
def failingWorld : World := { rand := fun _ => none, reads := 0, now := 0, log := [] }

/-- The classification the wrapper is to make: of the units `us`, written after
`k` earlier non-empty units of the connection, each is paired with the flag
"its number in the connection is at most 8". -/
def expectedCalls : Int → List Buffer → List (Buffer × Bool)
  | _, [] => []
  | k, u :: us => (u, decide (k + 1 ≤ 8)) :: expectedCalls (k + 1) us

/-- Unit `o` begins with the bytes of unit `u`. -/
def BeginsWith (o u : Buffer) : Prop := o.bytes.take u.bytes.length = u.bytes

/-- The bound that every profile meets, for a delay `D` computed in world `w`. -/
def DelayWithin (t : TimingEngine) (w : World) (D : Int) : Prop :=
  0 ≤ D ∧ (D ≤ t.maxDelay ∨ D = t.meanDelay) ∧ (w.Delivers → D ≤ t.maxDelay)

/-- A transport writer used in the examples: nothing received yet, every write
succeeds. -/
def sampleInner : Writer := { received := [], outcome := fun _ => none }

/-- A context that is never cancelled. -/
def sampleCtx : Context := { done := none }

/-- A batch with two non-empty units, a nil unit and an empty unit. -/
def sampleBatch : MultiBuffer :=
  [some (Buffer.mk [1, 2, 3]), none, some (Buffer.mk []), some (Buffer.mk [4])]

/-- A batch without a non-empty unit. -/
def emptyBatch : MultiBuffer := [none, some (Buffer.mk []), none]

/-! ## Runs of a Burst Controller, and the table of the specification -/

/-- A run of one Burst Controller: `ShapePacket` is called for each packet
(unit, isHandshake) of the list in turn.  The result lists the controller as it
is after each call, and the world after the last one. -/
def shapePackets (Size : Int) (fl : FloatOps) (ctx : Context) :
    List (Buffer × Bool) → BurstShaper → World → Option (List BurstShaper × World)
  | [], _, w => some ([], w)
  | (buffer, isHandshake) :: rest, s, w =>
    match s.ShapePacket Size fl ctx buffer isHandshake w with
    | none => none
    | some (_, s1, w1) =>
      match shapePackets Size fl ctx rest s1 w1 with
      | none => none
      | some (trace, w2) => some (s1 :: trace, w2)

/-- The state of the burst state machine: packet count, burst count and the
in-burst flag (`true` is InBurst, `false` is BetweenBursts). -/
def BurstShaper.phase (s : BurstShaper) : Int × Int × Bool :=
  (s.packetCount, s.burstCount, s.inBurst)

/-- The part of `ShapePacket` that works on the controller alone: the increment
of the packet counter and, for a packet that is neither the first nor a
handshake packet, `adjustTimingForBurst`. -/
def BurstShaper.advance (b : BurstShaper) (isHandshake : Bool) : BurstShaper :=
  let b : BurstShaper := { b with packetCount := b.packetCount + 1 }
  if b.packetCount > 1 ∧ isHandshake = false then b.adjustTimingForBurst else b

/-- The controllers of a run, computed without the packets, the entropy and the
clock. -/
def advanceAll : List Bool → BurstShaper → List BurstShaper
  | [], _ => []
  | isHandshake :: rest, s => s.advance isHandshake :: advanceAll rest (s.advance isHandshake)

/-- One row of the re-tuning table of the specification: the delay range and
mean to set (minimum, maximum, mean, in nanoseconds; `none`: the Delay Engine is
left alone), the state and the burst count after the packet. -/
structure Retuning where
  delays : Option (Int × Int × Int)
  inBurst : Bool
  burstCount : Int
  deriving DecidableEq, Repr

/-- The re-tuning table as the specification words it (section 4.3), keyed by
the pattern, the state at entry (`inBurst`), the burst count at entry and the
packet count `n` after the increment. -/
def specRetuning (pattern : BurstPattern) (inBurst : Bool) (burstCount n : Int) : Retuning :=
  match pattern, inBurst with
  | HTTPSPattern, true =>
    { delays := some (0, 5000000, 2000000)
      inBurst := decide (¬ n % 5 = 0)
      burstCount := if n % 5 = 0 then burstCount + 1 else burstCount }
  | HTTPSPattern, false =>
    { delays := some (20000000, 50000000, 30000000)
      inBurst := decide (n % 8 = 0)
      burstCount := burstCount }
  | HTTP3Pattern, state =>
    { delays := some (5000000, 15000000, 10000000)
      inBurst := state
      burstCount := burstCount }
  | VideoStreamPattern, true =>
    { delays := some (0, 2000000, 1000000)
      inBurst := decide (¬ n % 10 = 0)
      burstCount := burstCount }
  | VideoStreamPattern, false =>
    { delays := some (25000000, 40000000, 33000000)
      inBurst := decide (n % 11 = 0)
      burstCount := if n % 11 = 0 then burstCount + 1 else burstCount }
  | NormalPattern, state =>
    { delays := none
      inBurst := state
      burstCount := burstCount }

/-- Five steady-state packets. -/
def steadyPackets : List (Buffer × Bool) :=
  [(Buffer.mk [1], false), (Buffer.mk [2, 2], false), (Buffer.mk [3], false),
   (Buffer.mk [4], false), (Buffer.mk [5], false)]

/-- Four steady-state packets followed by a packet flagged as handshake. -/
def mixedPackets : List (Buffer × Bool) :=
  [(Buffer.mk [1], false), (Buffer.mk [2, 2], false), (Buffer.mk [3], false),
   (Buffer.mk [4], false), (Buffer.mk [5], true)]

/-- Five steady-state packets with other units than `steadyPackets`. -/
def otherSteadyPackets : List (Buffer × Bool) :=
  [(Buffer.mk [9, 9, 9], false), (Buffer.mk [8], false), (Buffer.mk [7, 7], false),
   (Buffer.mk [6], false), (Buffer.mk [5, 5, 5, 5], false)]

/-- The range in whole milliseconds that `uniformDelay` computes first. -/
def TimingEngine.rangeMs (t : TimingEngine) : Int :=
  int64 (Milliseconds t.maxDelay - Milliseconds t.minDelay)

/-- A Burst Controller in the middle of a connection: HTTPS-like, seven packets
seen, one burst completed, BetweenBursts. -/
def usedShaper : BurstShaper :=
  { pattern := HTTPSPattern
    paddingEngine := NewPaddingEngine HTTPSDistribution
    timingEngine := TimingEngine.mk ExponentialJitter 20000000 50000000 30000000 0
    packetCount := 7
    burstCount := 1
    inBurst := false }

/-- A Delay Engine with the Uniform profile and the bounds of `NewTimingEngine`. -/
def sampleTiming : TimingEngine := TimingEngine.mk UniformJitter 0 50000000 10000000 0

/-- A Delay Engine with the Uniform profile whose range is empty (minDelay =
maxDelay = 5ms) and whose mean was set to 2ms. -/
def flatTiming : TimingEngine := TimingEngine.mk UniformJitter 5000000 5000000 2000000 0

/-- The world `w` with its clock set to `x`. -/
def World.atTime (w : World) (x : Int) : World := { w with now := x }

/-- A context that is cancelled at instant 1 of the clock. -/
def cancelledCtx : Context := { done := some 1 }

/-- The controller of a connection after `n` non-empty units have gone through
the writer, computed without the units, the entropy and the clock: starting
from `s0`, unit number `k` advances it with the flag `k ≤ 8` of the writer. -/
def connectionShaper (s0 : BurstShaper) : Nat → BurstShaper
  | 0 => s0
  | n + 1 => (connectionShaper s0 n).advance (decide ((n : Int) + 1 ≤ 8))

/-- Five batches of `sampleBatch`: ten non-empty units in all. -/
def tenUnits : List MultiBuffer :=
  [sampleBatch, sampleBatch, sampleBatch, sampleBatch, sampleBatch]

/-- Eleven steady-state packets. -/
def elevenSteadyPackets : List (Buffer × Bool) :=
  List.replicate 11 (Buffer.mk [1, 2, 3], false)

/-- The delay range and mean of a Delay Engine, in nanoseconds. -/
def TimingEngine.bounds (t : TimingEngine) : Int × Int × Int :=
  (t.minDelay, t.maxDelay, t.meanDelay)

/-! ## Basic facts -/

theorem int32_eq_self (x : Int) (h1 : -2147483648 ≤ x) (h2 : x < 2147483648) :
    int32 x = x := by
  unfold int32; omega

theorem int32_range (x : Int) : -2147483648 ≤ int32 x ∧ int32 x < 2147483648 := by
  unfold int32; omega

theorem int64_eq_self (x : Int) (h1 : -9223372036854775808 ≤ x)
    (h2 : x < 9223372036854775808) : int64 x = x := by
  unfold int64; omega

theorem randInt_lt (max : Nat) (hmax : 0 < max) (w w1 : World) (v : Nat)
    (h : randInt max w = (some v, w1)) : v < max := by
  unfold randInt at h
  split at h
  · simp only [Prod.mk.injEq, Option.some.injEq] at h
    omega
  · split at h
    · simp at h
    · simp only [Prod.mk.injEq, Option.some.injEq] at h
      rw [← h.1]
      exact Nat.mod_lt _ hmax

theorem randInt_rand (max : Nat) (w : World) :
    (randInt max w).2.rand = w.rand := by
  unfold randInt
  split
  · rfl
  · split <;> rfl

theorem randInt_delivers (max : Nat) (w : World) (h : w.Delivers) :
    ∃ v w1, randInt max w = (some v, w1) ∧ w1.Delivers := by
  unfold randInt
  split
  · exact ⟨0, w, rfl, h⟩
  · cases hr : w.rand w.reads with
    | none => exact absurd hr (h _)
    | some raw => exact ⟨_, _, rfl, h⟩

/-! ## Padding lengths -/

theorem generateUniformPadding_bounds (p : PaddingEngine) (isHandshake : Bool) (w : World) :
    0 ≤ (p.generateUniformPadding isHandshake w).1 ∧
      (p.generateUniformPadding isHandshake w).1 < 1400 := by
  unfold PaddingEngine.generateUniformPadding
  cases isHandshake
  · rcases hr : randInt 256 w with ⟨_ | l, w1⟩
    · simp
    · have hl := randInt_lt 256 (by decide) w w1 l hr
      simp only [Bool.false_eq_true, if_false]
      unfold int32; omega
  · rcases hr : randInt 500 w with ⟨_ | l, w1⟩
    · simp
    · have hl := randInt_lt 500 (by decide) w w1 l hr
      simp only [if_true]
      unfold int32; omega

theorem generateHTTP3Padding_bounds (p : PaddingEngine) (hmax : 300 ≤ p.maxPadding)
    (isHandshake : Bool) (currentSize : Int) (w w1 : World) (L : Int)
    (h : p.generateHTTP3Padding isHandshake currentSize w = some (L, w1)) :
    0 ≤ L ∧ L ≤ p.maxPadding := by
  unfold PaddingEngine.generateHTTP3Padding at h
  cases isHandshake
  · simp only [Bool.false_eq_true, if_false] at h
    rcases hr : randInt 100 w with ⟨_ | r, w2⟩
    · simp [hr] at h
    · simp only [hr] at h
      split at h
      · rcases hl : randInt 100 w2 with ⟨_ | l, w3⟩
        · simp [hl] at h
        · have hlt := randInt_lt 100 (by decide) w2 w3 l hl
          simp only [hl, Option.some.injEq, Prod.mk.injEq] at h
          rw [← h.1]
          have e : int32 (l : Int) = l := int32_eq_self _ (by omega) (by omega)
          rw [e]
          have := int32_range (250 - currentSize + (l : Int) - 50)
          split_ifs <;> omega
      · rcases hl : randInt 400 w2 with ⟨_ | l, w3⟩
        · simp [hl] at h
        · have hlt := randInt_lt 400 (by decide) w2 w3 l hl
          simp only [hl, Option.some.injEq, Prod.mk.injEq] at h
          rw [← h.1]
          have e : int32 (l : Int) = l := int32_eq_self _ (by omega) (by omega)
          rw [e]
          have := int32_range (1200 - currentSize + (l : Int) - 200)
          split_ifs <;> omega
  · simp only [if_true] at h
    split at h
    · rcases hl : randInt 100 w with ⟨_ | l, w3⟩
      · simp [hl] at h
      · have hlt := randInt_lt 100 (by decide) w w3 l hl
        simp only [hl, Option.some.injEq, Prod.mk.injEq] at h
        rw [← h.1]
        have e : int32 (l : Int) = l := int32_eq_self _ (by omega) (by omega)
        rw [e]; omega
    · rcases hl : randInt 200 w with ⟨_ | l, w3⟩
      · simp [hl] at h
      · simp only [hl, Option.some.injEq, Prod.mk.injEq] at h
        rw [← h.1]
        split_ifs <;> omega

theorem generateHTTPSPadding_bounds (fl : FloatOps) (p : PaddingEngine)
    (hmax : 500 ≤ p.maxPadding) (isHandshake : Bool) (currentSize : Int) (w w1 : World)
    (L : Int) (h : p.generateHTTPSPadding fl isHandshake currentSize w = some (L, w1)) :
    0 ≤ L ∧ L ≤ p.maxPadding := by
  unfold PaddingEngine.generateHTTPSPadding at h
  cases isHandshake
  · simp only [Bool.false_eq_true, if_false] at h
    rcases hr : randInt 1000000 w with ⟨_ | u, w2⟩
    · simp [hr] at h
    · simp only [hr, Option.some.injEq, Prod.mk.injEq] at h
      rw [← h.1]
      split_ifs <;> omega
  · simp only [if_true] at h
    rcases hr : randInt 100 w with ⟨_ | l, w2⟩
    · simp [hr] at h
    · simp only [hr] at h
      split at h
      · rcases hl : randInt 100 w2 with ⟨_ | l2, w3⟩
        · simp [hl] at h
        · have hlt := randInt_lt 100 (by decide) w2 w3 l2 hl
          simp only [hl, Option.some.injEq, Prod.mk.injEq] at h
          rw [← h.1]
          have e : int32 (l2 : Int) = l2 := int32_eq_self _ (by omega) (by omega)
          rw [e]
          split_ifs <;> omega
      · simp only [Option.some.injEq, Prod.mk.injEq] at h
        rw [← h.1]
        split_ifs <;> omega

theorem GeneratePadding_bounds (fl : FloatOps) (p : PaddingEngine)
    (hmax : 1400 ≤ p.maxPadding) (isHandshake : Bool) (currentSize : Int) (w w1 : World)
    (L : Int) (h : p.GeneratePadding fl isHandshake currentSize w = some (L, w1)) :
    0 ≤ L ∧ L ≤ p.maxPadding := by
  unfold PaddingEngine.GeneratePadding at h
  split at h
  · exact generateHTTP3Padding_bounds p (by omega) _ _ _ _ _ h
  · exact generateHTTPSPadding_bounds fl p (by omega) _ _ _ _ _ h
  · simp only [Option.some.injEq] at h
    have := generateUniformPadding_bounds p isHandshake w
    rw [h] at this
    simp only at this
    omega

theorem randInt_some_of_delivers (max : Nat) (w : World) (h : w.Delivers) :
    ∃ v, randInt max w = (some v, (randInt max w).2) := by
  obtain ⟨v, w1, hv, -⟩ := randInt_delivers max w h
  exact ⟨v, by rw [hv]⟩

theorem delivers_of_rand_eq (w w1 : World) (h : w1.rand = w.rand) (hd : w.Delivers) :
    w1.Delivers := by
  intro i
  rw [h]
  exact hd i

theorem randInt_rand_eq (max : Nat) (w w1 : World) (v : Option Nat)
    (h : randInt max w = (v, w1)) : w1.rand = w.rand := by
  have e := randInt_rand max w
  rw [h] at e
  exact e

theorem generateHTTP3Padding_rand (p : PaddingEngine) (isHandshake : Bool)
    (currentSize : Int) (w w1 : World) (L : Int)
    (h : p.generateHTTP3Padding isHandshake currentSize w = some (L, w1)) :
    w1.rand = w.rand := by
  unfold PaddingEngine.generateHTTP3Padding at h
  cases isHandshake
  · simp only [Bool.false_eq_true, if_false] at h
    rcases hr : randInt 100 w with ⟨_ | r, w2⟩
    · simp [hr] at h
    · simp only [hr] at h
      have e2 := randInt_rand_eq _ _ _ _ hr
      split at h
      · rcases hl : randInt 100 w2 with ⟨_ | l, w3⟩
        · simp [hl] at h
        · simp only [hl, Option.some.injEq, Prod.mk.injEq] at h
          rw [← h.2, randInt_rand_eq _ _ _ _ hl, e2]
      · rcases hl : randInt 400 w2 with ⟨_ | l, w3⟩
        · simp [hl] at h
        · simp only [hl, Option.some.injEq, Prod.mk.injEq] at h
          rw [← h.2, randInt_rand_eq _ _ _ _ hl, e2]
  · simp only [if_true] at h
    split at h
    · rcases hl : randInt 100 w with ⟨_ | l, w3⟩
      · simp [hl] at h
      · simp only [hl, Option.some.injEq, Prod.mk.injEq] at h
        rw [← h.2, randInt_rand_eq _ _ _ _ hl]
    · rcases hl : randInt 200 w with ⟨_ | l, w3⟩
      · simp [hl] at h
      · simp only [hl, Option.some.injEq, Prod.mk.injEq] at h
        rw [← h.2, randInt_rand_eq _ _ _ _ hl]

theorem generateHTTPSPadding_rand (fl : FloatOps) (p : PaddingEngine) (isHandshake : Bool)
    (currentSize : Int) (w w1 : World) (L : Int)
    (h : p.generateHTTPSPadding fl isHandshake currentSize w = some (L, w1)) :
    w1.rand = w.rand := by
  unfold PaddingEngine.generateHTTPSPadding at h
  cases isHandshake
  · simp only [Bool.false_eq_true, if_false] at h
    rcases hr : randInt 1000000 w with ⟨_ | u, w2⟩
    · simp [hr] at h
    · simp only [hr, Option.some.injEq, Prod.mk.injEq] at h
      rw [← h.2, randInt_rand_eq _ _ _ _ hr]
  · simp only [if_true] at h
    rcases hr : randInt 100 w with ⟨_ | l, w2⟩
    · simp [hr] at h
    · simp only [hr] at h
      have e2 := randInt_rand_eq _ _ _ _ hr
      split at h
      · rcases hl : randInt 100 w2 with ⟨_ | l2, w3⟩
        · simp [hl] at h
        · simp only [hl, Option.some.injEq, Prod.mk.injEq] at h
          rw [← h.2, randInt_rand_eq _ _ _ _ hl, e2]
      · simp only [Option.some.injEq, Prod.mk.injEq] at h
        rw [← h.2, e2]

theorem generateUniformPadding_rand (p : PaddingEngine) (isHandshake : Bool) (w : World) :
    (p.generateUniformPadding isHandshake w).2.rand = w.rand := by
  unfold PaddingEngine.generateUniformPadding
  cases isHandshake
  · rcases hr : randInt 256 w with ⟨_ | l, w1⟩ <;>
      simpa using randInt_rand_eq _ _ _ _ hr
  · rcases hr : randInt 500 w with ⟨_ | l, w1⟩ <;>
      simpa using randInt_rand_eq _ _ _ _ hr

theorem GeneratePadding_rand (fl : FloatOps) (p : PaddingEngine) (isHandshake : Bool)
    (currentSize : Int) (w w1 : World) (L : Int)
    (h : p.GeneratePadding fl isHandshake currentSize w = some (L, w1)) :
    w1.rand = w.rand := by
  unfold PaddingEngine.GeneratePadding at h
  split at h
  · exact generateHTTP3Padding_rand p _ _ _ _ _ h
  · exact generateHTTPSPadding_rand fl p _ _ _ _ _ h
  · simp only [Option.some.injEq] at h
    have := generateUniformPadding_rand p isHandshake w
    rw [h] at this
    exact this

theorem generateHTTP3Padding_isSome (p : PaddingEngine) (isHandshake : Bool)
    (currentSize : Int) (w : World) (hd : w.Delivers) :
    (p.generateHTTP3Padding isHandshake currentSize w).isSome = true := by
  unfold PaddingEngine.generateHTTP3Padding
  cases isHandshake
  · simp only [Bool.false_eq_true, if_false]
    obtain ⟨r, w2, hr, hd2⟩ := randInt_delivers 100 w hd
    simp only [hr]
    split
    · obtain ⟨l, w3, hl, -⟩ := randInt_delivers 100 w2 hd2
      simp [hl]
    · obtain ⟨l, w3, hl, -⟩ := randInt_delivers 400 w2 hd2
      simp [hl]
  · simp only [if_true]
    split
    · obtain ⟨l, w3, hl, -⟩ := randInt_delivers 100 w hd
      simp [hl]
    · obtain ⟨l, w3, hl, -⟩ := randInt_delivers 200 w hd
      simp [hl]

theorem generateHTTPSPadding_isSome (fl : FloatOps) (p : PaddingEngine) (isHandshake : Bool)
    (currentSize : Int) (w : World) (hd : w.Delivers) :
    (p.generateHTTPSPadding fl isHandshake currentSize w).isSome = true := by
  unfold PaddingEngine.generateHTTPSPadding
  cases isHandshake
  · simp only [Bool.false_eq_true, if_false]
    obtain ⟨r, w2, hr, hd2⟩ := randInt_delivers 1000000 w hd
    simp [hr]
  · simp only [if_true]
    obtain ⟨r, w2, hr, hd2⟩ := randInt_delivers 100 w hd
    simp only [hr]
    split
    · obtain ⟨l, w3, hl, -⟩ := randInt_delivers 100 w2 hd2
      simp [hl]
    · simp

/-- Padding generation returns (does not panic) when the padding is Uniform or
the entropy source delivers. -/
theorem GeneratePadding_isSome (fl : FloatOps) (p : PaddingEngine) (isHandshake : Bool)
    (currentSize : Int) (w : World)
    (hd : p.distribution = UniformDistribution ∨ w.Delivers) :
    (p.GeneratePadding fl isHandshake currentSize w).isSome = true := by
  unfold PaddingEngine.GeneratePadding
  split
  · rename_i h3
    rcases hd with hd | hd
    · rw [h3] at hd; exact absurd hd (by decide)
    · exact generateHTTP3Padding_isSome p _ _ _ hd
  · rename_i h3
    rcases hd with hd | hd
    · rw [h3] at hd; exact absurd hd (by decide)
    · exact generateHTTPSPadding_isSome fl p _ _ _ hd
  · rfl

/-- C1: for each of the three padding distributions, both values of
isHandshake, every current payload size and every outcome of the random draws
in which the entropy source delivers, GeneratePadding of an engine built by
NewPaddingEngine returns a length L with 0 ≤ L ≤ maxPadding, and maxPadding is
1400. -/
theorem C1_GeneratePadding_in_range (fl : FloatOps) (dist : PaddingDistribution)
    (isHandshake : Bool) (currentSize : Int) (w : World) (hd : w.Delivers) :
    ∃ L w1, (NewPaddingEngine dist).GeneratePadding fl isHandshake currentSize w = some (L, w1) ∧
      0 ≤ L ∧ L ≤ (NewPaddingEngine dist).maxPadding ∧
      (NewPaddingEngine dist).maxPadding = 1400 := by
  have hs := GeneratePadding_isSome fl (NewPaddingEngine dist) isHandshake currentSize w
    (Or.inr hd)
  rcases hr : (NewPaddingEngine dist).GeneratePadding fl isHandshake currentSize w with
    _ | ⟨L, w1⟩
  · rw [hr] at hs; exact absurd hs (by decide)
  · have hb := GeneratePadding_bounds fl (NewPaddingEngine dist) (by simp [NewPaddingEngine])
      isHandshake currentSize w w1 L hr
    exact ⟨L, w1, rfl, hb.1, hb.2, rfl⟩

theorem sampleWorld_delivers : sampleWorld.Delivers := by
  intro i
  simp [sampleWorld]

theorem C1_GeneratePadding_in_range_witness :
    sampleWorld.Delivers ∧
    ∃ L w1, (NewPaddingEngine HTTP3Distribution).GeneratePadding sampleFloat true 100
        sampleWorld = some (L, w1) ∧
      0 ≤ L ∧ L ≤ (NewPaddingEngine HTTP3Distribution).maxPadding ∧
      (NewPaddingEngine HTTP3Distribution).maxPadding = 1400 :=
  ⟨sampleWorld_delivers,
    C1_GeneratePadding_in_range sampleFloat HTTP3Distribution true 100 sampleWorld
      sampleWorld_delivers⟩

/-! ## Applying padding -/

theorem randRead_length (n : Nat) (w w1 : World) (data : List Nat)
    (h : randRead n w = (some data, w1)) : data.length = n := by
  unfold randRead at h
  split at h
  · simp at h
  · simp only [Prod.mk.injEq, Option.some.injEq] at h
    rw [← h.1]
    simp

theorem randRead_rand (n : Nat) (w : World) : (randRead n w).2.rand = w.rand := by
  unfold randRead
  split <;> rfl

theorem extend_fillFrom (b : Buffer) (k : Int) (data : List Nat)
    (hk : data.length = k.toNat) :
    (b.Extend k).fillFrom b.Len data = { bytes := b.bytes ++ data } := by
  simp [Buffer.Extend, Buffer.fillFrom, Buffer.Len, hk]

/-- What `ApplyPadding` does to the unit, for a capacity that fits an `int32`
and a unit within the capacity. -/
theorem ApplyPadding_unit (Size : Int) (p : PaddingEngine) (b : Buffer) (L : Int) (w : World)
    (hS : Size < 2147483648) (hn : b.Len ≤ Size) :
    (0 < L ∧ 0 < Size - b.Len - 21 →
      ∃ data, (data.length : Int) = min L (Size - b.Len - 21) ∧
        (p.ApplyPadding Size b L w).1 = { bytes := b.bytes ++ data }) ∧
    (¬ (0 < L ∧ 0 < Size - b.Len - 21) → p.ApplyPadding Size b L w = (b, w)) := by
  have h0 : 0 ≤ b.Len := by simp [Buffer.Len]
  have e : int32 (Size - b.Len - 21) = Size - b.Len - 21 :=
    int32_eq_self _ (by omega) (by omega)
  unfold PaddingEngine.ApplyPadding
  rw [e]
  constructor
  · rintro ⟨hL, hA⟩
    have hk : 0 < min L (Size - b.Len - 21) := lt_min hL hA
    have hm : (if L > Size - b.Len - 21 then Size - b.Len - 21 else L) =
        min L (Size - b.Len - 21) := by
      split_ifs with hc
      · exact (min_eq_right (le_of_lt hc)).symm
      · exact (min_eq_left (not_lt.mp hc)).symm
    simp only [hm]
    rw [if_neg (not_le.mpr hL), if_neg (not_le.mpr hk)]
    rcases hr : randRead (min L (Size - b.Len - 21)).toNat w with ⟨_ | data, w1⟩
    · refine ⟨List.replicate (min L (Size - b.Len - 21)).toNat 0, ?_, ?_⟩
      · simp only [List.length_replicate]
        omega
      · simp [Buffer.Extend]
    · have hlen := randRead_length _ _ _ _ hr
      refine ⟨data, ?_, ?_⟩
      · rw [hlen]; omega
      · simp only
        exact extend_fillFrom b _ data hlen
  · intro hneg
    by_cases h1 : L ≤ 0
    · rw [if_pos h1]
    · rw [if_neg h1]
      have hA : Size - b.Len - 21 ≤ 0 := by
        by_contra hc
        exact hneg ⟨by omega, by omega⟩
      have hm : (if L > Size - b.Len - 21 then Size - b.Len - 21 else L) ≤ 0 := by
        split_ifs <;> omega
      simp only [if_pos hm]

/-- C2 (as amended): for a capacity that fits an int32, every data unit whose
length n leaves room for the header reservation (n + 21 ≤ buf.Size) and every
requested padding length, the unit after ApplyPadding satisfies length + 21 ≤
buf.Size; a unit with n + 21 > buf.Size (and n ≤ buf.Size) is returned
unchanged, with no padding applied. -/
theorem C2_ApplyPadding_reservation (Size : Int) (p : PaddingEngine) (b : Buffer) (L : Int)
    (w : World) (hS : Size < 2147483648) (hn : b.Len ≤ Size) :
    (b.Len + 21 ≤ Size → (p.ApplyPadding Size b L w).1.Len + 21 ≤ Size) ∧
    (Size < b.Len + 21 → (p.ApplyPadding Size b L w).1 = b) := by
  have hu := ApplyPadding_unit Size p b L w hS hn
  constructor
  · intro hroom
    by_cases hc : 0 < L ∧ 0 < Size - b.Len - 21
    · obtain ⟨data, hlen, hres⟩ := hu.1 hc
      rw [hres]
      have hle : min L (Size - b.Len - 21) ≤ Size - b.Len - 21 := min_le_right _ _
      simp only [Buffer.Len, List.length_append, Nat.cast_add] at *
      omega
    · rw [hu.2 hc]
      exact hroom
  · intro hfull
    have hc : ¬ (0 < L ∧ 0 < Size - b.Len - 21) := by
      rintro ⟨-, h2⟩
      omega
    rw [hu.2 hc]

theorem C2_ApplyPadding_reservation_witness :
    (8192 : Int) < 2147483648 ∧ (Buffer.mk [1, 2, 3]).Len ≤ 8192 ∧
    (((Buffer.mk [1, 2, 3]).Len + 21 ≤ 8192 →
      ((NewPaddingEngine UniformDistribution).ApplyPadding 8192 (Buffer.mk [1, 2, 3]) 10
        sampleWorld).1.Len + 21 ≤ 8192) ∧
     (8192 < (Buffer.mk [1, 2, 3]).Len + 21 →
      ((NewPaddingEngine UniformDistribution).ApplyPadding 8192 (Buffer.mk [1, 2, 3]) 10
        sampleWorld).1 = Buffer.mk [1, 2, 3])) :=
  ⟨by decide, by decide,
    C2_ApplyPadding_reservation 8192 (NewPaddingEngine UniformDistribution) (Buffer.mk [1, 2, 3])
      10 sampleWorld (by decide) (by decide)⟩

/-- C2 (as stated) fails: with buf.Size = 8192, a full unit of 8192 bytes comes
back from ApplyPadding with its 8192 bytes, and 8192 + 21 exceeds 8192. -/
theorem C2_counterexample :
    (Buffer.mk (List.replicate 8192 0)).Len ≤ 8192 ∧
    ¬ (((NewPaddingEngine UniformDistribution).ApplyPadding 8192
        (Buffer.mk (List.replicate 8192 0)) 100 sampleWorld).1.Len + 21 ≤ 8192) := by
  have hlen : (Buffer.mk (List.replicate 8192 0)).Len = 8192 := by
    show ((List.replicate 8192 0).length : Int) = 8192
    rw [List.length_replicate]
    rfl
  have hu := (ApplyPadding_unit 8192 (NewPaddingEngine UniformDistribution)
    (Buffer.mk (List.replicate 8192 0)) 100 sampleWorld (by decide) (by rw [hlen])).2
    (by rw [hlen]; decide)
  rw [hu, hlen]
  exact ⟨le_refl _, by decide⟩

/-- C3: for a capacity that fits an int32, every data unit of length n within
the capacity and every requested length L, with L' = min(L, buf.Size - n - 21):
when L > 0 and L' > 0 the unit after ApplyPadding has length n + L'; otherwise
it is the unit it was; in both cases its first n bytes are the original bytes. -/
theorem C3_ApplyPadding_appends (Size : Int) (p : PaddingEngine) (b : Buffer) (L : Int)
    (w : World) (hS : Size < 2147483648) (hn : b.Len ≤ Size) :
    ((0 < L ∧ 0 < min L (Size - b.Len - 21)) →
      (p.ApplyPadding Size b L w).1.Len = b.Len + min L (Size - b.Len - 21)) ∧
    (¬ (0 < L ∧ 0 < min L (Size - b.Len - 21)) → (p.ApplyPadding Size b L w).1 = b) ∧
    (p.ApplyPadding Size b L w).1.bytes.take b.bytes.length = b.bytes := by
  have hu := ApplyPadding_unit Size p b L w hS hn
  have hiff : (0 < L ∧ 0 < min L (Size - b.Len - 21)) ↔ (0 < L ∧ 0 < Size - b.Len - 21) := by
    constructor
    · rintro ⟨h1, h2⟩
      exact ⟨h1, lt_of_lt_of_le h2 (min_le_right _ _)⟩
    · rintro ⟨h1, h2⟩
      exact ⟨h1, lt_min h1 h2⟩
  refine ⟨?_, ?_, ?_⟩
  · intro hc
    obtain ⟨data, hlen, hres⟩ := hu.1 (hiff.mp hc)
    rw [hres]
    simp only [Buffer.Len, List.length_append, Nat.cast_add] at *
    omega
  · intro hc
    rw [hu.2 (fun h => hc (hiff.mpr h))]
  · by_cases hc : 0 < L ∧ 0 < Size - b.Len - 21
    · obtain ⟨data, -, hres⟩ := hu.1 hc
      rw [hres]
      simp
    · rw [hu.2 hc]
      simp

theorem C3_ApplyPadding_appends_witness :
    (8192 : Int) < 2147483648 ∧ (Buffer.mk [1, 2, 3]).Len ≤ 8192 ∧
    (((0 < (10 : Int) ∧ 0 < min (10 : Int) (8192 - (Buffer.mk [1, 2, 3]).Len - 21)) →
      ((NewPaddingEngine UniformDistribution).ApplyPadding 8192 (Buffer.mk [1, 2, 3]) 10
        sampleWorld).1.Len = (Buffer.mk [1, 2, 3]).Len +
          min (10 : Int) (8192 - (Buffer.mk [1, 2, 3]).Len - 21)) ∧
     (¬ (0 < (10 : Int) ∧ 0 < min (10 : Int) (8192 - (Buffer.mk [1, 2, 3]).Len - 21)) →
      ((NewPaddingEngine UniformDistribution).ApplyPadding 8192 (Buffer.mk [1, 2, 3]) 10
        sampleWorld).1 = Buffer.mk [1, 2, 3]) ∧
     ((NewPaddingEngine UniformDistribution).ApplyPadding 8192 (Buffer.mk [1, 2, 3]) 10
        sampleWorld).1.bytes.take (Buffer.mk [1, 2, 3]).bytes.length =
          (Buffer.mk [1, 2, 3]).bytes) :=
  ⟨by decide, by decide,
    C3_ApplyPadding_appends 8192 (NewPaddingEngine UniformDistribution) (Buffer.mk [1, 2, 3])
      10 sampleWorld (by decide) (by decide)⟩

/-! ## Delays -/

theorem Milliseconds_eq (d : Int) (h : 0 ≤ d) : Milliseconds d = d / 1000000 := by
  unfold Milliseconds
  exact Int.tdiv_eq_ediv h (by decide)

theorem uniformDelay_within (t : TimingEngine) (w : World)
    (hmin : 0 ≤ t.minDelay) (hmm : t.minDelay ≤ t.maxDelay)
    (hmax : t.maxDelay < 9223372036854775808) (hmean : 0 ≤ t.meanDelay) :
    DelayWithin t w (t.uniformDelay w).1 := by
  unfold TimingEngine.uniformDelay DelayWithin
  rw [Milliseconds_eq _ (le_trans hmin hmm), Milliseconds_eq _ hmin]
  have e : int64 (t.maxDelay / 1000000 - t.minDelay / 1000000) =
      t.maxDelay / 1000000 - t.minDelay / 1000000 := int64_eq_self _ (by omega) (by omega)
  rw [e]
  simp only
  split_ifs with hr
  · exact ⟨hmin, Or.inl hmm, fun _ => hmm⟩
  · rcases hd : randInt (t.maxDelay / 1000000 - t.minDelay / 1000000).toNat w with ⟨_ | r, w1⟩
    · refine ⟨hmean, Or.inr rfl, ?_⟩
      intro hdel
      obtain ⟨v, w2, hv, -⟩ := randInt_delivers
        (t.maxDelay / 1000000 - t.minDelay / 1000000).toNat w hdel
      rw [hv] at hd
      simp at hd
    · have hlt := randInt_lt _ (by omega) w w1 r hd
      have e1 : int64 (r : Int) = r := int64_eq_self _ (by omega) (by omega)
      have e2 : int64 ((r : Int) * Millisecond) = (r : Int) * 1000000 := by
        unfold Millisecond
        exact int64_eq_self _ (by omega) (by omega)
      have e3 : int64 (t.minDelay + (r : Int) * 1000000) = t.minDelay + (r : Int) * 1000000 :=
        int64_eq_self _ (by omega) (by omega)
      simp only [e1, e2, e3]
      refine ⟨by omega, Or.inl (by omega), fun _ => by omega⟩

theorem clampMs_within (t : TimingEngine) (x : Int) (hmax0 : 0 ≤ t.maxDelay)
    (hmax : t.maxDelay < 9223372036854775808) :
    0 ≤ int64 ((if (if int64 x < 0 then 0 else int64 x) > Milliseconds t.maxDelay
        then Milliseconds t.maxDelay else (if int64 x < 0 then 0 else int64 x)) * Millisecond) ∧
    int64 ((if (if int64 x < 0 then 0 else int64 x) > Milliseconds t.maxDelay
        then Milliseconds t.maxDelay else (if int64 x < 0 then 0 else int64 x)) * Millisecond)
      ≤ t.maxDelay := by
  rw [Milliseconds_eq _ hmax0]
  unfold Millisecond
  generalize int64 x = y
  have key : ∀ z : Int, 0 ≤ z → z ≤ t.maxDelay / 1000000 →
      0 ≤ int64 (z * 1000000) ∧ int64 (z * 1000000) ≤ t.maxDelay := by
    intro z hz0 hz1
    have e : int64 (z * 1000000) = z * 1000000 := int64_eq_self _ (by omega) (by omega)
    rw [e]
    omega
  split_ifs with h1 h2 h3
  · exact key _ (by omega) (le_refl _)
  · exact key _ (le_refl _) (by omega)
  · exact key _ (by omega) (le_refl _)
  · exact key _ (by omega) (by omega)

theorem exponentialDelay_within (fl : FloatOps) (t : TimingEngine) (w : World)
    (hmax0 : 0 ≤ t.maxDelay) (hmax : t.maxDelay < 9223372036854775808)
    (hmean : 0 ≤ t.meanDelay) :
    DelayWithin t w (t.exponentialDelay fl w).1 := by
  unfold TimingEngine.exponentialDelay DelayWithin
  rcases hd : randInt 1000000 w with ⟨_ | u, w1⟩
  · refine ⟨hmean, Or.inr rfl, ?_⟩
    intro hdel
    obtain ⟨v, w2, hv, -⟩ := randInt_delivers 1000000 w hdel
    rw [hv] at hd
    simp at hd
  · have hc := clampMs_within t (fl.expDelayMs u (Milliseconds t.meanDelay)) hmax0 hmax
    exact ⟨hc.1, Or.inl hc.2, fun _ => hc.2⟩

theorem normalDelay_within (fl : FloatOps) (t : TimingEngine) (w : World)
    (hmax0 : 0 ≤ t.maxDelay) (hmax : t.maxDelay < 9223372036854775808)
    (hmean : 0 ≤ t.meanDelay) :
    DelayWithin t w (t.normalDelay fl w).1 := by
  unfold TimingEngine.normalDelay DelayWithin
  rcases hd1 : randInt 1000000 w with ⟨r1, w1⟩
  simp only
  rcases hd2 : randInt 1000000 w1 with ⟨r2, w2⟩
  simp only
  have hfail : (r1 = none ∨ r2 = none) → ¬ w.Delivers := by
    intro hn hdel
    obtain ⟨v1, w1', hv1, hdel1⟩ := randInt_delivers 1000000 w hdel
    rw [hv1] at hd1
    simp only [Prod.mk.injEq] at hd1
    rw [hd1.2] at hdel1
    obtain ⟨v2, w2', hv2, -⟩ := randInt_delivers 1000000 w1 hdel1
    rw [hv2] at hd2
    simp only [Prod.mk.injEq] at hd2
    rcases hn with hn | hn
    · rw [hn] at hd1; simp at hd1
    · rw [hn] at hd2; simp at hd2
  cases r1 with
  | none => exact ⟨hmean, Or.inr rfl, fun h => absurd h (hfail (Or.inl rfl))⟩
  | some u1 =>
    cases r2 with
    | none => exact ⟨hmean, Or.inr rfl, fun h => absurd h (hfail (Or.inr rfl))⟩
    | some u2 =>
      have hc := clampMs_within t (fl.normalDelayMs u1 u2 (Milliseconds t.meanDelay)) hmax0 hmax
      exact ⟨hc.1, Or.inl hc.2, fun _ => hc.2⟩

theorem calculateDelay_within (fl : FloatOps) (t : TimingEngine) (w : World)
    (hmin : 0 ≤ t.minDelay) (hmm : t.minDelay ≤ t.maxDelay)
    (hmax : t.maxDelay < 9223372036854775808) (hmean : 0 ≤ t.meanDelay) :
    DelayWithin t w (t.calculateDelay fl w).1 := by
  unfold TimingEngine.calculateDelay
  split
  · exact uniformDelay_within t w hmin hmm hmax hmean
  · exact exponentialDelay_within fl t w (le_trans hmin hmm) hmax hmean
  · exact normalDelay_within fl t w (le_trans hmin hmm) hmax hmean
  · exact ⟨le_refl _, Or.inl (le_trans hmin hmm), fun _ => le_trans hmin hmm⟩

/-- C4 (as amended): for every timing profile, every Delay Engine state with
0 ≤ minDelay ≤ maxDelay (an int64) and 0 ≤ meanDelay, and every outcome of the
random draws including entropy failure, the delay D returned by calculateDelay
satisfies 0 ≤ D; D ≤ maxDelay holds whenever meanDelay ≤ maxDelay or the entropy
source delivers; and in every case D ≤ maxDelay or D is the fallback meanDelay. -/
theorem C4_calculateDelay_clamped (fl : FloatOps) (t : TimingEngine) (w : World)
    (hmin : 0 ≤ t.minDelay) (hmm : t.minDelay ≤ t.maxDelay)
    (hmax : t.maxDelay < 9223372036854775808) (hmean : 0 ≤ t.meanDelay) :
    0 ≤ (t.calculateDelay fl w).1 ∧
    ((t.meanDelay ≤ t.maxDelay ∨ w.Delivers) → (t.calculateDelay fl w).1 ≤ t.maxDelay) ∧
    ((t.calculateDelay fl w).1 ≤ t.maxDelay ∨ (t.calculateDelay fl w).1 = t.meanDelay) := by
  obtain ⟨h0, h1, h2⟩ := calculateDelay_within fl t w hmin hmm hmax hmean
  refine ⟨h0, ?_, h1⟩
  rintro (hle | hdel)
  · rcases h1 with h1 | h1
    · exact h1
    · rw [h1]; exact hle
  · exact h2 hdel

theorem C4_calculateDelay_clamped_witness :
    (0 : Int) ≤ 0 ∧ (0 : Int) ≤ 50000000 ∧ (50000000 : Int) < 9223372036854775808 ∧
    (0 : Int) ≤ 100000000 ∧
    0 ≤ ((TimingEngine.mk NormalJitter 0 50000000 100000000 0).calculateDelay sampleFloat
        sampleWorld).1 ∧
    (((100000000 : Int) ≤ 50000000 ∨ sampleWorld.Delivers) →
      ((TimingEngine.mk NormalJitter 0 50000000 100000000 0).calculateDelay sampleFloat
        sampleWorld).1 ≤ 50000000) ∧
    (((TimingEngine.mk NormalJitter 0 50000000 100000000 0).calculateDelay sampleFloat
        sampleWorld).1 ≤ 50000000 ∨
      ((TimingEngine.mk NormalJitter 0 50000000 100000000 0).calculateDelay sampleFloat
        sampleWorld).1 = 100000000) :=
  ⟨by decide, by decide, by decide, by decide,
    C4_calculateDelay_clamped sampleFloat (TimingEngine.mk NormalJitter 0 50000000 100000000 0)
      sampleWorld (by decide) (by decide) (by decide) (by decide)⟩

/-- C4 (as stated) fails.  First: profile Exponential, range [0, 50ms], mean set
to 100ms, entropy failure: the delay is the mean, 100ms > 50ms.  Second: profile
Uniform with minDelay 10ms above maxDelay 5ms: the delay is minDelay, 10ms. -/
theorem C4_counterexample :
    (0 ≤ (TimingEngine.mk ExponentialJitter 0 50000000 100000000 0).meanDelay ∧
      ((TimingEngine.mk ExponentialJitter 0 50000000 100000000 0).calculateDelay sampleFloat
        failingWorld).1 = 100000000 ∧
      ¬ (((TimingEngine.mk ExponentialJitter 0 50000000 100000000 0).calculateDelay sampleFloat
        failingWorld).1 ≤ 50000000)) ∧
    (((TimingEngine.mk UniformJitter 10000000 5000000 7000000 0).calculateDelay sampleFloat
        sampleWorld).1 = 10000000 ∧
      ¬ (((TimingEngine.mk UniformJitter 10000000 5000000 7000000 0).calculateDelay sampleFloat
        sampleWorld).1 ≤ 5000000)) := by
  decide

/-! ## Shaping one packet -/

theorem ApplyPadding_cases (Size : Int) (p : PaddingEngine) (b : Buffer) (L : Int) (w : World) :
    p.ApplyPadding Size b L w = (b, w) ∨
    ∃ data, (p.ApplyPadding Size b L w).1 = { bytes := b.bytes ++ data } ∧
      0 < data.length := by
  unfold PaddingEngine.ApplyPadding
  by_cases h1 : L ≤ 0
  · left; rw [if_pos h1]
  · rw [if_neg h1]
    simp only
    generalize (if L > int32 (Size - b.Len - 21) then int32 (Size - b.Len - 21) else L) = k
    by_cases h2 : k ≤ 0
    · left; rw [if_pos h2]
    · right
      rw [if_neg h2]
      rcases hr : randRead k.toNat w with ⟨_ | data, w1⟩
      · refine ⟨List.replicate k.toNat 0, ?_, ?_⟩
        · simp [Buffer.Extend]
        · simp only [List.length_replicate]; omega
      · have hlen := randRead_length _ _ _ _ hr
        refine ⟨data, ?_, ?_⟩
        · simp only
          exact extend_fillFrom b _ data hlen
        · rw [hlen]; omega

theorem ApplyPadding_take (Size : Int) (p : PaddingEngine) (b : Buffer) (L : Int) (w : World) :
    (p.ApplyPadding Size b L w).1.bytes.take b.bytes.length = b.bytes := by
  rcases ApplyPadding_cases Size p b L w with h | ⟨data, h, -⟩
  · rw [h]; simp
  · rw [h]; simp

theorem ApplyPadding_rand (Size : Int) (p : PaddingEngine) (b : Buffer) (L : Int) (w : World) :
    (p.ApplyPadding Size b L w).2.rand = w.rand := by
  unfold PaddingEngine.ApplyPadding
  by_cases h1 : L ≤ 0
  · rw [if_pos h1]
  · rw [if_neg h1]
    simp only
    generalize (if L > int32 (Size - b.Len - 21) then int32 (Size - b.Len - 21) else L) = k
    by_cases h2 : k ≤ 0
    · rw [if_pos h2]
    · rw [if_neg h2]
      have e := randRead_rand k.toNat w
      rcases hr : randRead k.toNat w with ⟨_ | data, w1⟩
      · rw [hr] at e; exact e
      · rw [hr] at e; exact e

theorem calculateDelay_rand (fl : FloatOps) (t : TimingEngine) (w : World) :
    (t.calculateDelay fl w).2.rand = w.rand := by
  unfold TimingEngine.calculateDelay
  split
  · unfold TimingEngine.uniformDelay
    simp only
    split_ifs
    · rfl
    · split
      · rename_i hr; exact randInt_rand_eq _ _ _ _ hr
      · rename_i hr; exact randInt_rand_eq _ _ _ _ hr
  · unfold TimingEngine.exponentialDelay
    split
    · rename_i hr; exact randInt_rand_eq _ _ _ _ hr
    · rename_i hr; exact randInt_rand_eq _ _ _ _ hr
  · unfold TimingEngine.normalDelay
    rcases hd1 : randInt 1000000 w with ⟨r1, w1⟩
    simp only
    rcases hd2 : randInt 1000000 w1 with ⟨r2, w2⟩
    simp only
    have e : w2.rand = w.rand :=
      (randInt_rand_eq _ _ _ _ hd2).trans (randInt_rand_eq _ _ _ _ hd1)
    split <;> exact e
  · rfl

theorem ApplyJitter_rand (fl : FloatOps) (t : TimingEngine) (ctx : Context) (w : World) :
    (t.ApplyJitter fl ctx w).2.rand = w.rand := by
  unfold TimingEngine.ApplyJitter
  split_ifs with h1
  · rfl
  · have e := calculateDelay_rand fl t w
    rcases hc : t.calculateDelay fl w with ⟨delay, w1⟩
    rw [hc] at e
    simp only
    split_ifs
    · exact e
    · exact e

theorem adjustTimingForBurst_keeps (b : BurstShaper) :
    b.adjustTimingForBurst.paddingEngine = b.paddingEngine ∧
    b.adjustTimingForBurst.pattern = b.pattern ∧
    b.adjustTimingForBurst.packetCount = b.packetCount := by
  unfold BurstShaper.adjustTimingForBurst
  split
  · unfold BurstShaper.adjustHTTPSTiming
    simp only
    split_ifs <;> exact ⟨rfl, rfl, rfl⟩
  · exact ⟨rfl, rfl, rfl⟩
  · unfold BurstShaper.adjustVideoTiming
    simp only
    split_ifs <;> exact ⟨rfl, rfl, rfl⟩
  · exact ⟨rfl, rfl, rfl⟩

/-- What a returning `ShapePacket` call keeps and changes. -/
theorem ShapePacket_some (Size : Int) (fl : FloatOps) (s : BurstShaper) (ctx : Context)
    (buffer : Buffer) (isHandshake : Bool) (w : World) (buffer1 : Buffer) (s1 : BurstShaper)
    (w1 : World) (h : s.ShapePacket Size fl ctx buffer isHandshake w = some (buffer1, s1, w1)) :
    s1.paddingEngine = s.paddingEngine ∧ s1.pattern = s.pattern ∧
    s1.packetCount = s.packetCount + 1 ∧ w1.rand = w.rand ∧
    buffer1.bytes.take buffer.bytes.length = buffer.bytes := by
  unfold BurstShaper.ShapePacket at h
  simp only at h
  split at h
  · exact absurd h (by simp)
  · rename_i paddingLen wg hg
    have eg := GeneratePadding_rand fl _ _ _ _ _ _ hg
    simp only [Option.some.injEq, Prod.mk.injEq] at h
    obtain ⟨hb, hs, hw⟩ := h
    by_cases hc : s.packetCount + 1 > 1 ∧ isHandshake = false
    · simp only [if_pos hc] at hb hs hw
      have hk := adjustTimingForBurst_keeps { s with packetCount := s.packetCount + 1 }
      have ej := ApplyJitter_rand fl
        (BurstShaper.adjustTimingForBurst { s with packetCount := s.packetCount + 1 }).timingEngine
        ctx wg
      refine ⟨?_, ?_, ?_, ?_, ?_⟩
      · rw [← hs]; exact hk.1
      · rw [← hs]; exact hk.2.1
      · rw [← hs]; exact hk.2.2
      · rw [← hw]
        split_ifs
        · rw [ApplyPadding_rand, ej, eg]
        · rw [ej, eg]
      · rw [← hb]
        split_ifs
        · exact ApplyPadding_take _ _ _ _ _
        · simp
    · simp only [if_neg hc] at hb hs hw
      refine ⟨?_, ?_, ?_, ?_, ?_⟩
      · rw [← hs]
      · rw [← hs]
      · rw [← hs]
      · rw [← hw]
        split_ifs
        · rw [ApplyPadding_rand, eg]
        · rw [eg]
      · rw [← hb]
        split_ifs
        · exact ApplyPadding_take _ _ _ _ _
        · simp

/-- `ShapePacket` returns when the padding is Uniform or the entropy source
delivers. -/
theorem ShapePacket_isSome (Size : Int) (fl : FloatOps) (s : BurstShaper) (ctx : Context)
    (buffer : Buffer) (isHandshake : Bool) (w : World)
    (hd : s.paddingEngine.distribution = UniformDistribution ∨ w.Delivers) :
    (s.ShapePacket Size fl ctx buffer isHandshake w).isSome = true := by
  have hg := GeneratePadding_isSome fl s.paddingEngine isHandshake buffer.Len w hd
  unfold BurstShaper.ShapePacket
  simp only
  rcases hr : s.paddingEngine.GeneratePadding fl isHandshake buffer.Len w with _ | ⟨L, wg⟩
  · rw [hr] at hg; exact absurd hg (by decide)
  · rfl

/-! ## The writer -/

/-- What a returning run of the loop of `WriteMultiBuffer` keeps and changes. -/
theorem shapeUnits_some (Size : Int) (fl : FloatOps) :
    ∀ (mb : MultiBuffer) (w : ObfuscationWriter) (out : MultiBuffer)
      (calls : List (Buffer × Bool)) (wd : World) (w1 : ObfuscationWriter) (out1 : MultiBuffer)
      (calls1 : List (Buffer × Bool)) (wd1 : World),
      ObfuscationWriter.shapeUnits Size fl mb w out calls wd = some (w1, out1, calls1, wd1) →
      w1.Writer = w.Writer ∧ w1.config = w.config ∧ w1.ctx = w.ctx ∧
      w1.isHandshake = w.isHandshake ∧
      w1.packetCount = w.packetCount + (nonEmptyUnits mb).length ∧
      wd1.rand = wd.rand ∧
      (∀ s, w.burstShaper = some s → ∃ s1, w1.burstShaper = some s1 ∧
        s1.paddingEngine = s.paddingEngine ∧ s1.pattern = s.pattern ∧
        s1.packetCount = s.packetCount + (nonEmptyUnits mb).length) ∧
      (∃ shaped : List Buffer, out1 = out ++ shaped.map some ∧
        List.Forall₂ BeginsWith shaped (nonEmptyUnits mb)) ∧
      calls1 = calls ++ expectedCalls w.packetCount (nonEmptyUnits mb) := by
  intro mb
  induction mb with
  | nil =>
    intro w out calls wd w1 out1 calls1 wd1 h
    simp only [ObfuscationWriter.shapeUnits, Option.some.injEq, Prod.mk.injEq] at h
    obtain ⟨rfl, rfl, rfl, rfl⟩ := h
    refine ⟨rfl, rfl, rfl, rfl, by simp [nonEmptyUnits], rfl, ?_, ⟨[], by simp, ?_⟩, ?_⟩
    · intro s hs
      exact ⟨s, hs, rfl, rfl, by simp [nonEmptyUnits]⟩
    · simp [nonEmptyUnits]
    · simp [nonEmptyUnits, expectedCalls]
  | cons b rest ih =>
    intro w out calls wd w1 out1 calls1 wd1 h
    cases b with
    | none =>
      simp only [ObfuscationWriter.shapeUnits] at h
      have e : nonEmptyUnits (none :: rest) = nonEmptyUnits rest := by simp [nonEmptyUnits]
      rw [e]
      exact ih w out calls wd w1 out1 calls1 wd1 h
    | some b =>
      simp only [ObfuscationWriter.shapeUnits] at h
      by_cases hz : b.Len = 0
      · rw [if_pos hz] at h
        have e : nonEmptyUnits (some b :: rest) = nonEmptyUnits rest := by
          simp [nonEmptyUnits, hz]
        rw [e]
        exact ih w out calls wd w1 out1 calls1 wd1 h
      · rw [if_neg hz] at h
        have e : nonEmptyUnits (some b :: rest) = b :: nonEmptyUnits rest := by
          simp [nonEmptyUnits, hz]
        rw [e]
        cases hs : w.burstShaper with
        | none => simp [hs] at h
        | some s =>
          simp only [hs] at h
          rcases hp : s.ShapePacket Size fl w.ctx b (decide (w.packetCount + 1 ≤ 8)) wd with
            _ | ⟨shaped, s1, wdp⟩
          · simp [hp] at h
          · simp only [hp] at h
            obtain ⟨k1, k2, k3, k4, k5⟩ := ShapePacket_some Size fl s w.ctx b _ wd shaped s1 wdp hp
            obtain ⟨i1, i2, i3, i4, i5, i6, i7, ⟨sh, i8, i9⟩, i10⟩ := ih _ _ _ _ w1 out1 calls1 wd1 h
            refine ⟨i1, i2, i3, i4, ?_, ?_, ?_, ⟨shaped :: sh, ?_, ?_⟩, ?_⟩
            · rw [i5]; simp only [List.length_cons, Nat.cast_add, Nat.cast_one]; omega
            · rw [i6]; split_ifs <;> exact k4
            · intro s0 hs0
              cases hs0
              obtain ⟨s2, j1, j2, j3, j4⟩ := i7 s1 rfl
              refine ⟨s2, j1, j2.trans k1, j3.trans k2, ?_⟩
              rw [j4, k3]; simp only [List.length_cons, Nat.cast_add, Nat.cast_one]; omega
            · rw [i8]; simp
            · exact List.Forall₂.cons k5 i9
            · rw [i10]; simp [expectedCalls]

/-- The loop of `WriteMultiBuffer` returns when the padding is Uniform or the
entropy source delivers. -/
theorem shapeUnits_isSome (Size : Int) (fl : FloatOps) :
    ∀ (mb : MultiBuffer) (w : ObfuscationWriter) (out : MultiBuffer)
      (calls : List (Buffer × Bool)) (wd : World) (s : BurstShaper),
      w.burstShaper = some s →
      (s.paddingEngine.distribution = UniformDistribution ∨ wd.Delivers) →
      (ObfuscationWriter.shapeUnits Size fl mb w out calls wd).isSome = true := by
  intro mb
  induction mb with
  | nil =>
    intro w out calls wd s _ _
    simp [ObfuscationWriter.shapeUnits]
  | cons b rest ih =>
    intro w out calls wd s hs hd
    cases b with
    | none =>
      simp only [ObfuscationWriter.shapeUnits]
      exact ih w out calls wd s hs hd
    | some b =>
      simp only [ObfuscationWriter.shapeUnits]
      by_cases hz : b.Len = 0
      · rw [if_pos hz]
        exact ih w out calls wd s hs hd
      · rw [if_neg hz]
        simp only [hs]
        have hp := ShapePacket_isSome Size fl s w.ctx b (decide (w.packetCount + 1 ≤ 8)) wd hd
        rcases hr : s.ShapePacket Size fl w.ctx b (decide (w.packetCount + 1 ≤ 8)) wd with
          _ | ⟨shaped, s1, wdp⟩
        · rw [hr] at hp; exact absurd hp (by decide)
        · simp only
          obtain ⟨k1, -, -, k4, -⟩ := ShapePacket_some Size fl s w.ctx b _ wd shaped s1 wdp hr
          apply ih _ _ _ _ s1 rfl
          rcases hd with hd | hd
          · left; rw [k1]; exact hd
          · right
            apply delivers_of_rand_eq _ _ _ hd
            split_ifs <;> exact k4

theorem forall₂_length_eq {α β : Type} (R : α → β → Prop) (l1 : List α) (l2 : List β)
    (h : List.Forall₂ R l1 l2) : l1.length = l2.length := by
  induction h with
  | nil => rfl
  | cons _ _ ih => simp [ih]

/-- What a returning call of `WriteMultiBuffer` on an enabled writer keeps and
changes. -/
theorem WriteMultiBuffer_some (Size : Int) (fl : FloatOps) (w : ObfuscationWriter)
    (s : BurstShaper) (mb : MultiBuffer) (wd : World) (r : WriteResult)
    (hen : w.config.Enabled = true) (hs : w.burstShaper = some s)
    (h : w.WriteMultiBuffer Size fl mb wd = some r) :
    r.writer.config = w.config ∧ r.writer.ctx = w.ctx ∧
    r.writer.packetCount = w.packetCount + (nonEmptyUnits mb).length ∧
    r.world.rand = wd.rand ∧
    (∃ s1, r.writer.burstShaper = some s1 ∧ s1.paddingEngine = s.paddingEngine ∧
      s1.pattern = s.pattern ∧
      s1.packetCount = s.packetCount + (nonEmptyUnits mb).length) ∧
    r.calls = expectedCalls w.packetCount (nonEmptyUnits mb) ∧
    (∃ shaped : List Buffer, List.Forall₂ BeginsWith shaped (nonEmptyUnits mb) ∧
      ((nonEmptyUnits mb = [] ∧ r.writer.Writer = w.Writer ∧ r.err = none) ∨
       (nonEmptyUnits mb ≠ [] ∧
        r.writer.Writer = (w.Writer.WriteMultiBuffer (shaped.map some)).1 ∧
        r.err = (w.Writer.WriteMultiBuffer (shaped.map some)).2))) := by
  unfold ObfuscationWriter.WriteMultiBuffer at h
  have hc : ¬ (w.config.Enabled = false ∨ w.burstShaper.isNone = true) := by
    simp [hen, hs]
  rw [if_neg hc] at h
  rcases hu : ObfuscationWriter.shapeUnits Size fl mb w [] [] wd with
    _ | ⟨w1, out1, calls1, wd1⟩
  · simp [hu] at h
  · simp only [hu] at h
    obtain ⟨i1, i2, i3, -, i5, i6, i7, ⟨sh, i8, i9⟩, i10⟩ :=
      shapeUnits_some Size fl mb w [] [] wd w1 out1 calls1 wd1 hu
    simp only [List.nil_append] at i8 i10
    have hlen := forall₂_length_eq _ _ _ i9
    by_cases hz : out1.length = 0
    · rw [if_pos hz] at h
      simp only [Option.some.injEq] at h
      subst h
      have hnil : nonEmptyUnits mb = [] := by
        rw [i8, List.length_map] at hz
        rw [hz] at hlen
        exact List.length_eq_zero.mp hlen.symm
      exact ⟨i2, i3, i5, i6, i7 s hs, i10, sh, i9, Or.inl ⟨hnil, i1, rfl⟩⟩
    · rw [if_neg hz] at h
      simp only [Option.some.injEq] at h
      subst h
      have hne : nonEmptyUnits mb ≠ [] := by
        intro hnil
        rw [hnil] at hlen
        rw [i8, List.length_map, hlen] at hz
        exact hz rfl
      refine ⟨i2, i3, i5, i6, i7 s hs, i10, sh, i9, Or.inr ⟨hne, ?_, ?_⟩⟩
      · simp only [i8, i1]
      · simp only [i8, i1]

/-- `WriteMultiBuffer` on an enabled writer returns when the padding is Uniform
or the entropy source delivers. -/
theorem WriteMultiBuffer_isSome (Size : Int) (fl : FloatOps) (w : ObfuscationWriter)
    (s : BurstShaper) (mb : MultiBuffer) (wd : World) (hs : w.burstShaper = some s)
    (hd : s.paddingEngine.distribution = UniformDistribution ∨ wd.Delivers) :
    (w.WriteMultiBuffer Size fl mb wd).isSome = true := by
  unfold ObfuscationWriter.WriteMultiBuffer
  split_ifs with hc
  · rfl
  · have hu := shapeUnits_isSome Size fl mb w [] [] wd s hs hd
    rcases hr : ObfuscationWriter.shapeUnits Size fl mb w [] [] wd with
      _ | ⟨w1, out1, calls1, wd1⟩
    · rw [hr] at hu; exact absurd hu (by decide)
    · simp only
      split_ifs <;> rfl

/-- C6: for every enabled ObfuscationWriter (in any state), every batch with at
least one non-empty unit and every world in which the padding is Uniform or the
entropy source delivers, WriteMultiBuffer returns, and there is a list of
forwarded units, one per non-empty input unit and in the same order, each
beginning with the bytes of its input unit, such that the inner writer is left
as after exactly one call with that list as its batch and the returned error is
the result of that call. -/
theorem C6_WriteMultiBuffer_forwards_in_order (Size : Int) (fl : FloatOps)
    (w : ObfuscationWriter) (s : BurstShaper) (mb : MultiBuffer) (wd : World)
    (hen : w.config.Enabled = true) (hs : w.burstShaper = some s)
    (hne : nonEmptyUnits mb ≠ [])
    (hd : s.paddingEngine.distribution = UniformDistribution ∨ wd.Delivers) :
    ∃ (r : WriteResult) (shaped : List Buffer),
      w.WriteMultiBuffer Size fl mb wd = some r ∧
      shaped.length = (nonEmptyUnits mb).length ∧
      List.Forall₂ BeginsWith shaped (nonEmptyUnits mb) ∧
      r.writer.Writer = (w.Writer.WriteMultiBuffer (shaped.map some)).1 ∧
      r.writer.Writer.received = w.Writer.received ++ [shaped.map some] ∧
      r.err = (w.Writer.WriteMultiBuffer (shaped.map some)).2 := by
  have hsome := WriteMultiBuffer_isSome Size fl w s mb wd hs hd
  rcases hr : w.WriteMultiBuffer Size fl mb wd with _ | r
  · rw [hr] at hsome; exact absurd hsome (by decide)
  · obtain ⟨-, -, -, -, -, -, shaped, hf, hcase⟩ :=
      WriteMultiBuffer_some Size fl w s mb wd r hen hs hr
    rcases hcase with ⟨hnil, -, -⟩ | ⟨-, hw, he⟩
    · exact absurd hnil hne
    · exact ⟨r, shaped, rfl, forall₂_length_eq _ _ _ hf, hf, hw, by rw [hw]; rfl, he⟩

theorem C6_WriteMultiBuffer_forwards_in_order_witness :
    (NewObfuscationWriter sampleInner (some DefaultConfig) sampleCtx sampleWorld).config.Enabled
      = true ∧
    (NewObfuscationWriter sampleInner (some DefaultConfig) sampleCtx sampleWorld).burstShaper
      = some (NewBurstShaper HTTPSPattern sampleWorld) ∧
    nonEmptyUnits sampleBatch ≠ [] ∧
    ((NewBurstShaper HTTPSPattern sampleWorld).paddingEngine.distribution = UniformDistribution ∨
      sampleWorld.Delivers) ∧
    ∃ (r : WriteResult) (shaped : List Buffer),
      (NewObfuscationWriter sampleInner (some DefaultConfig) sampleCtx
        sampleWorld).WriteMultiBuffer 8192 sampleFloat sampleBatch sampleWorld = some r ∧
      shaped.length = (nonEmptyUnits sampleBatch).length ∧
      List.Forall₂ BeginsWith shaped (nonEmptyUnits sampleBatch) ∧
      r.writer.Writer = ((NewObfuscationWriter sampleInner (some DefaultConfig) sampleCtx
        sampleWorld).Writer.WriteMultiBuffer (shaped.map some)).1 ∧
      r.writer.Writer.received = (NewObfuscationWriter sampleInner (some DefaultConfig) sampleCtx
        sampleWorld).Writer.received ++ [shaped.map some] ∧
      r.err = ((NewObfuscationWriter sampleInner (some DefaultConfig) sampleCtx
        sampleWorld).Writer.WriteMultiBuffer (shaped.map some)).2 :=
  ⟨rfl, by decide, by decide, Or.inr sampleWorld_delivers,
    C6_WriteMultiBuffer_forwards_in_order 8192 sampleFloat
      (NewObfuscationWriter sampleInner (some DefaultConfig) sampleCtx sampleWorld)
      (NewBurstShaper HTTPSPattern sampleWorld) sampleBatch sampleWorld rfl (by decide)
      (by decide) (Or.inr sampleWorld_delivers)⟩

theorem shapeUnits_empty (Size : Int) (fl : FloatOps) (w : ObfuscationWriter)
    (out : MultiBuffer) (calls : List (Buffer × Bool)) (wd : World) :
    ∀ (mb : MultiBuffer), (∀ b, some b ∈ mb → b.Len = 0) →
      ObfuscationWriter.shapeUnits Size fl mb w out calls wd = some (w, out, calls, wd) := by
  intro mb
  induction mb with
  | nil => intro _; simp [ObfuscationWriter.shapeUnits]
  | cons b rest ih =>
    intro h
    have hrest : ∀ b, some b ∈ rest → b.Len = 0 := fun b hb => h b (List.mem_cons_of_mem _ hb)
    cases b with
    | none =>
      simp only [ObfuscationWriter.shapeUnits]
      exact ih hrest
    | some b =>
      simp only [ObfuscationWriter.shapeUnits]
      rw [if_pos (h b (List.mem_cons_self _ _))]
      exact ih hrest

/-- C7: for every enabled ObfuscationWriter in any state and every batch all of
whose units are nil or zero-length (the empty batch included), WriteMultiBuffer
returns success (a nil error) and leaves the whole writer as it was: the inner
transport writer has received no call, and the handshake counter and the Burst
Controller are unchanged; the world (entropy, clock, log) is untouched and no
ShapePacket call is made. -/
theorem C7_WriteMultiBuffer_empty_batch (Size : Int) (fl : FloatOps) (w : ObfuscationWriter)
    (s : BurstShaper) (mb : MultiBuffer) (wd : World)
    (hen : w.config.Enabled = true) (hs : w.burstShaper = some s)
    (hempty : ∀ b, some b ∈ mb → b.Len = 0) :
    w.WriteMultiBuffer Size fl mb wd =
      some { writer := w, err := none, world := wd, calls := [] } := by
  unfold ObfuscationWriter.WriteMultiBuffer
  have hc : ¬ (w.config.Enabled = false ∨ w.burstShaper.isNone = true) := by
    simp [hen, hs]
  rw [if_neg hc, shapeUnits_empty Size fl w [] [] wd mb hempty]
  simp

theorem C7_WriteMultiBuffer_empty_batch_witness :
    (NewObfuscationWriter sampleInner (some DefaultConfig) sampleCtx sampleWorld).config.Enabled
      = true ∧
    (NewObfuscationWriter sampleInner (some DefaultConfig) sampleCtx sampleWorld).burstShaper
      = some (NewBurstShaper HTTPSPattern sampleWorld) ∧
    (∀ b, some b ∈ emptyBatch → b.Len = 0) ∧
    (NewObfuscationWriter sampleInner (some DefaultConfig) sampleCtx
      sampleWorld).WriteMultiBuffer 8192 sampleFloat emptyBatch sampleWorld =
      some { writer := NewObfuscationWriter sampleInner (some DefaultConfig) sampleCtx sampleWorld,
             err := none, world := sampleWorld, calls := [] } :=
  ⟨rfl, by decide, by simp [emptyBatch, Buffer.Len],
    C7_WriteMultiBuffer_empty_batch 8192 sampleFloat
      (NewObfuscationWriter sampleInner (some DefaultConfig) sampleCtx sampleWorld)
      (NewBurstShaper HTTPSPattern sampleWorld) emptyBatch sampleWorld rfl (by decide)
      (by simp [emptyBatch, Buffer.Len])⟩

/-! ## A connection -/

theorem expectedCalls_append (k : Int) (us vs : List Buffer) :
    expectedCalls k (us ++ vs) = expectedCalls k us ++ expectedCalls (k + us.length) vs := by
  induction us generalizing k with
  | nil => simp [expectedCalls]
  | cons u us ih =>
    have e : k + ((us.length : Int) + 1) = k + 1 + (us.length : Int) := by omega
    have step : expectedCalls k (u :: (us ++ vs)) =
        (u, decide (k + 1 ≤ 8)) :: expectedCalls (k + 1) (us ++ vs) := rfl
    have step2 : expectedCalls k (u :: us) =
        (u, decide (k + 1 ≤ 8)) :: expectedCalls (k + 1) us := rfl
    rw [List.cons_append, step, step2, ih (k + 1)]
    simp only [List.length_cons, Nat.cast_add, Nat.cast_one, List.cons_append, e]

theorem expectedCalls_getElem? (k : Int) (us : List Buffer) (i : Nat) :
    (expectedCalls k us)[i]? = (us[i]?).map (fun u => (u, decide (k + (i : Int) + 1 ≤ 8))) := by
  induction us generalizing k i with
  | nil => simp [expectedCalls]
  | cons u us ih =>
    cases i with
    | zero => simp [expectedCalls]
    | succ i =>
      simp only [expectedCalls, List.getElem?_cons_succ, ih, Nat.cast_add, Nat.cast_one]
      have e : k + 1 + (i : Int) + 1 = k + ((i : Int) + 1) + 1 := by omega
      rw [e]

theorem writeBatches_some (Size : Int) (fl : FloatOps) :
    ∀ (batches : List MultiBuffer) (w : ObfuscationWriter) (s : BurstShaper) (wd : World)
      (w1 : ObfuscationWriter) (wd1 : World) (errs : List (Option Error))
      (calls : List (Buffer × Bool)),
      w.config.Enabled = true → w.burstShaper = some s →
      writeBatches Size fl batches w wd = some (w1, wd1, errs, calls) →
      w1.packetCount = w.packetCount + ((batches.flatMap nonEmptyUnits).length : Int) ∧
      calls = expectedCalls w.packetCount (batches.flatMap nonEmptyUnits) := by
  intro batches
  induction batches with
  | nil =>
    intro w s wd w1 wd1 errs calls _ _ h
    simp only [writeBatches, Option.some.injEq, Prod.mk.injEq] at h
    obtain ⟨rfl, -, -, rfl⟩ := h
    simp [expectedCalls]
  | cons mb rest ih =>
    intro w s wd w1 wd1 errs calls hen hs h
    simp only [writeBatches] at h
    rcases hr : w.WriteMultiBuffer Size fl mb wd with _ | r
    · simp [hr] at h
    · simp only [hr] at h
      obtain ⟨i1, -, i3, -, ⟨s1, i5, -⟩, i6, -⟩ :=
        WriteMultiBuffer_some Size fl w s mb wd r hen hs hr
      rcases hrest : writeBatches Size fl rest r.writer r.world with _ | ⟨w2, wd2, errs2, calls2⟩
      · simp [hrest] at h
      · simp only [hrest, Option.some.injEq, Prod.mk.injEq] at h
        obtain ⟨rfl, -, -, rfl⟩ := h
        obtain ⟨j1, j2⟩ := ih r.writer s1 r.world w2 wd2 errs2 calls2 (by rw [i1]; exact hen) i5
          hrest
        constructor
        · rw [j1, i3]
          simp only [List.flatMap_cons, List.length_append, Nat.cast_add]
          omega
        · rw [j2, i6, i3, List.flatMap_cons, expectedCalls_append]

theorem writeBatches_isSome (Size : Int) (fl : FloatOps) :
    ∀ (batches : List MultiBuffer) (w : ObfuscationWriter) (s : BurstShaper) (wd : World),
      w.config.Enabled = true → w.burstShaper = some s →
      (s.paddingEngine.distribution = UniformDistribution ∨ wd.Delivers) →
      (writeBatches Size fl batches w wd).isSome = true := by
  intro batches
  induction batches with
  | nil => intro w s wd _ _ _; simp [writeBatches]
  | cons mb rest ih =>
    intro w s wd hen hs hd
    simp only [writeBatches]
    have hsome := WriteMultiBuffer_isSome Size fl w s mb wd hs hd
    rcases hr : w.WriteMultiBuffer Size fl mb wd with _ | r
    · rw [hr] at hsome; exact absurd hsome (by decide)
    · simp only
      obtain ⟨i1, -, -, i4, ⟨s1, i5, i6, -⟩, -, -⟩ :=
        WriteMultiBuffer_some Size fl w s mb wd r hen hs hr
      have hnext := ih r.writer s1 r.world (by rw [i1]; exact hen) i5 (by
        rcases hd with hd | hd
        · left; rw [i6]; exact hd
        · right; exact delivers_of_rand_eq _ _ i4 hd)
      rcases hrest : writeBatches Size fl rest r.writer r.world with _ | ⟨w2, wd2, errs2, calls2⟩
      · rw [hrest] at hnext; exact absurd hnext (by decide)
      · rfl

/-- C5: take a writer made by NewObfuscationWriter from an enabled configuration
(or from no configuration) and write any sequence of batches through it.  If the
entropy source delivers, every write returns.  Whenever the writes return, the
ShapePacket calls made are exactly one per non-empty unit of the connection, in
order across the batches (nil and zero-length units make no call), the k-th of
them with isHandshake = true exactly when k ≤ 8 (k = i + 1 below), and the
counter of the writer ends at the number of non-empty units written. -/
theorem C5_handshake_classification (Size : Int) (fl : FloatOps) (inner : Writer)
    (config : Option Config) (ctx : Context) (wd0 wd : World)
    (batches : List MultiBuffer)
    (hen : (NewObfuscationWriter inner config ctx wd0).config.Enabled = true) :
    (wd.Delivers →
      (writeBatches Size fl batches (NewObfuscationWriter inner config ctx wd0) wd).isSome
        = true) ∧
    ∀ (w1 : ObfuscationWriter) (wd1 : World) (errs : List (Option Error))
      (calls : List (Buffer × Bool)),
      writeBatches Size fl batches (NewObfuscationWriter inner config ctx wd0) wd
        = some (w1, wd1, errs, calls) →
      (∀ i : Nat, calls[i]? =
        ((batches.flatMap nonEmptyUnits)[i]?).map (fun u => (u, decide ((i : Int) + 1 ≤ 8)))) ∧
      w1.packetCount = ((batches.flatMap nonEmptyUnits).length : Int) := by
  have hs : ∃ s, (NewObfuscationWriter inner config ctx wd0).burstShaper = some s := by
    unfold NewObfuscationWriter at hen ⊢
    simp only at hen ⊢
    rw [if_pos hen]
    exact ⟨_, rfl⟩
  obtain ⟨s, hs⟩ := hs
  constructor
  · intro hd
    exact writeBatches_isSome Size fl batches _ s wd hen hs (Or.inr hd)
  · intro w1 wd1 errs calls h
    obtain ⟨j1, j2⟩ := writeBatches_some Size fl batches _ s wd w1 wd1 errs calls hen hs h
    have h0 : (NewObfuscationWriter inner config ctx wd0).packetCount = 0 := rfl
    rw [h0] at j1 j2
    constructor
    · intro i
      rw [j2, expectedCalls_getElem?]
      simp
    · rw [j1]; simp

theorem C5_handshake_classification_witness :
    (NewObfuscationWriter sampleInner (some DefaultConfig) sampleCtx sampleWorld).config.Enabled
      = true ∧
    ((sampleWorld.Delivers →
      (writeBatches 8192 sampleFloat [sampleBatch, emptyBatch, sampleBatch]
        (NewObfuscationWriter sampleInner (some DefaultConfig) sampleCtx sampleWorld)
        sampleWorld).isSome = true) ∧
    ∀ (w1 : ObfuscationWriter) (wd1 : World) (errs : List (Option Error))
      (calls : List (Buffer × Bool)),
      writeBatches 8192 sampleFloat [sampleBatch, emptyBatch, sampleBatch]
        (NewObfuscationWriter sampleInner (some DefaultConfig) sampleCtx sampleWorld)
        sampleWorld = some (w1, wd1, errs, calls) →
      (∀ i : Nat, calls[i]? =
        (([sampleBatch, emptyBatch, sampleBatch].flatMap nonEmptyUnits)[i]?).map
          (fun u => (u, decide ((i : Int) + 1 ≤ 8)))) ∧
      w1.packetCount = ((([sampleBatch, emptyBatch, sampleBatch].flatMap nonEmptyUnits).length
        : Nat) : Int)) :=
  ⟨rfl,
    C5_handshake_classification 8192 sampleFloat sampleInner (some DefaultConfig) sampleCtx
      sampleWorld sampleWorld [sampleBatch, emptyBatch, sampleBatch] rfl⟩

/-! ## Pass-through -/

/-- C8: for every writer, reader and context: with a nil configuration, and
with every configuration whose Enabled flag is false, WrapWriter returns the
writer itself and WrapReader the reader itself; with every configuration whose
Enabled flag is true they return a new ObfuscationWriter resp.
ObfuscationReader whose inner writer resp. reader is the one given. -/
theorem C8_Wrap_identity_when_disabled (writer : Writer) (reader : Reader) (c : Config)
    (ctx : Context) (w : World) :
    WrapWriter writer none ctx w = WrappedWriter.original writer ∧
    WrapReader reader none ctx = WrappedReader.original reader ∧
    (c.Enabled = false →
      WrapWriter writer (some c) ctx w = WrappedWriter.original writer ∧
      WrapReader reader (some c) ctx = WrappedReader.original reader) ∧
    (c.Enabled = true →
      WrapWriter writer (some c) ctx w =
        WrappedWriter.obfuscation (NewObfuscationWriter writer (some c) ctx w) ∧
      (NewObfuscationWriter writer (some c) ctx w).Writer = writer ∧
      (NewObfuscationWriter writer (some c) ctx w).config = c ∧
      WrapReader reader (some c) ctx =
        WrappedReader.obfuscation (NewObfuscationReader reader (some c) ctx) ∧
      (NewObfuscationReader reader (some c) ctx).Reader = reader ∧
      (NewObfuscationReader reader (some c) ctx).config = c) := by
  refine ⟨rfl, rfl, ?_, ?_⟩
  · intro h
    simp [WrapWriter, WrapReader, h]
  · intro h
    simp [WrapWriter, WrapReader, h, NewObfuscationWriter, NewObfuscationReader]

theorem C8_Wrap_identity_when_disabled_witness :
    WrapWriter sampleInner none sampleCtx sampleWorld = WrappedWriter.original sampleInner ∧
    WrapReader (Reader.mk 0 (fun _ => ([], none))) none sampleCtx =
      WrappedReader.original (Reader.mk 0 (fun _ => ([], none))) ∧
    (DefaultConfig.Enabled = false →
      WrapWriter sampleInner (some DefaultConfig) sampleCtx sampleWorld =
        WrappedWriter.original sampleInner ∧
      WrapReader (Reader.mk 0 (fun _ => ([], none))) (some DefaultConfig) sampleCtx =
        WrappedReader.original (Reader.mk 0 (fun _ => ([], none)))) ∧
    (DefaultConfig.Enabled = true →
      WrapWriter sampleInner (some DefaultConfig) sampleCtx sampleWorld =
        WrappedWriter.obfuscation
          (NewObfuscationWriter sampleInner (some DefaultConfig) sampleCtx sampleWorld) ∧
      (NewObfuscationWriter sampleInner (some DefaultConfig) sampleCtx sampleWorld).Writer
        = sampleInner ∧
      (NewObfuscationWriter sampleInner (some DefaultConfig) sampleCtx sampleWorld).config
        = DefaultConfig ∧
      WrapReader (Reader.mk 0 (fun _ => ([], none))) (some DefaultConfig) sampleCtx =
        WrappedReader.obfuscation
          (NewObfuscationReader (Reader.mk 0 (fun _ => ([], none))) (some DefaultConfig)
            sampleCtx) ∧
      (NewObfuscationReader (Reader.mk 0 (fun _ => ([], none))) (some DefaultConfig)
        sampleCtx).Reader = Reader.mk 0 (fun _ => ([], none)) ∧
      (NewObfuscationReader (Reader.mk 0 (fun _ => ([], none))) (some DefaultConfig)
        sampleCtx).config = DefaultConfig) :=
  C8_Wrap_identity_when_disabled sampleInner (Reader.mk 0 (fun _ => ([], none))) DefaultConfig
    sampleCtx sampleWorld

/-- C9: an ObfuscationWriter constructed by NewObfuscationWriter from a
configuration whose Enabled flag is false owns no Burst Controller, and for
every batch (nil and empty units included) WriteMultiBuffer returns, leaves the
inner writer as after exactly one call with the batch as given, returns the
result of that call, makes no ShapePacket call, and changes nothing else of the
writer (the handshake counter in particular) nor the world. -/
theorem C9_disabled_writer_passes_through (Size : Int) (fl : FloatOps) (inner : Writer)
    (c : Config) (ctx : Context) (wd0 wd : World) (mb : MultiBuffer)
    (hdis : c.Enabled = false) :
    (NewObfuscationWriter inner (some c) ctx wd0).burstShaper = none ∧
    (NewObfuscationWriter inner (some c) ctx wd0).WriteMultiBuffer Size fl mb wd =
      some { writer := { NewObfuscationWriter inner (some c) ctx wd0 with
                         Writer := (inner.WriteMultiBuffer mb).1 }
             err := (inner.WriteMultiBuffer mb).2
             world := wd
             calls := [] } ∧
    (inner.WriteMultiBuffer mb).1.received = inner.received ++ [mb] ∧
    ({ NewObfuscationWriter inner (some c) ctx wd0 with
        Writer := (inner.WriteMultiBuffer mb).1 } : ObfuscationWriter).packetCount =
      (NewObfuscationWriter inner (some c) ctx wd0).packetCount := by
  refine ⟨?_, ?_, rfl, rfl⟩
  · simp [NewObfuscationWriter, hdis]
  · simp [ObfuscationWriter.WriteMultiBuffer, NewObfuscationWriter, hdis]

theorem C9_disabled_writer_passes_through_witness :
    ({ DefaultConfig with Enabled := false } : Config).Enabled = false ∧
    (NewObfuscationWriter sampleInner (some { DefaultConfig with Enabled := false }) sampleCtx
      sampleWorld).burstShaper = none ∧
    (NewObfuscationWriter sampleInner (some { DefaultConfig with Enabled := false }) sampleCtx
      sampleWorld).WriteMultiBuffer 8192 sampleFloat sampleBatch sampleWorld =
      some { writer := { NewObfuscationWriter sampleInner
                           (some { DefaultConfig with Enabled := false }) sampleCtx sampleWorld with
                         Writer := (sampleInner.WriteMultiBuffer sampleBatch).1 }
             err := (sampleInner.WriteMultiBuffer sampleBatch).2
             world := sampleWorld
             calls := [] } ∧
    (sampleInner.WriteMultiBuffer sampleBatch).1.received = sampleInner.received ++ [sampleBatch] ∧
    ({ NewObfuscationWriter sampleInner (some { DefaultConfig with Enabled := false }) sampleCtx
          sampleWorld with
        Writer := (sampleInner.WriteMultiBuffer sampleBatch).1 } : ObfuscationWriter).packetCount =
      (NewObfuscationWriter sampleInner (some { DefaultConfig with Enabled := false }) sampleCtx
        sampleWorld).packetCount :=
  ⟨rfl,
    C9_disabled_writer_passes_through 8192 sampleFloat sampleInner
      { DefaultConfig with Enabled := false } sampleCtx sampleWorld sampleWorld sampleBatch rfl⟩

/-- C10: for every ObfuscationReader (any configuration, debug on or off) and
every result of the inner reader, ReadMultiBuffer returns exactly the data and
the failure of one call of the inner reader; the reader afterwards is the
reader before with the inner reader advanced by that one call and the read
counter incremented by one, nothing else changed; of the world only the debug
log can change. -/
theorem C10_ReadMultiBuffer_passes_through (r : ObfuscationReader) (wd : World) :
    (r.ReadMultiBuffer wd).1 = r.Reader.ReadMultiBuffer.1 ∧
    (r.ReadMultiBuffer wd).2.1 =
      { r with Reader := r.Reader.ReadMultiBuffer.2, packetCount := r.packetCount + 1 } ∧
    r.Reader.ReadMultiBuffer.2.served = r.Reader.served + 1 ∧
    (r.ReadMultiBuffer wd).2.2.rand = wd.rand ∧
    (r.ReadMultiBuffer wd).2.2.reads = wd.reads ∧
    (r.ReadMultiBuffer wd).2.2.now = wd.now := by
  unfold ObfuscationReader.ReadMultiBuffer Reader.ReadMultiBuffer
  rcases ha : r.Reader.answer r.Reader.served with ⟨mb, err⟩
  simp only
  refine ⟨?_, ?_, ?_, ?_, ?_, ?_⟩
  · exact ha
  · trivial
  · trivial
  · split_ifs <;> rfl
  · split_ifs <;> rfl
  · split_ifs <;> rfl

/-! ## The burst state machine -/

theorem ApplyJitter_keeps (fl : FloatOps) (t : TimingEngine) (ctx : Context) (w : World) :
    (t.ApplyJitter fl ctx w).1 =
      { t with lastSendTime := (t.ApplyJitter fl ctx w).1.lastSendTime } := by
  unfold TimingEngine.ApplyJitter
  split_ifs with h1
  · rfl
  · rcases hc : t.calculateDelay fl w with ⟨delay, w1⟩
    simp only
    split_ifs <;> rfl

/-- A returning `ShapePacket` call leaves the controller as `advance` does, up
to the last-send timestamp. -/
theorem ShapePacket_advance (Size : Int) (fl : FloatOps) (s : BurstShaper) (ctx : Context)
    (buffer : Buffer) (isHandshake : Bool) (w : World) (buffer1 : Buffer) (s1 : BurstShaper)
    (w1 : World) (h : s.ShapePacket Size fl ctx buffer isHandshake w = some (buffer1, s1, w1)) :
    s1 = { s.advance isHandshake with
           timingEngine := { (s.advance isHandshake).timingEngine with
                             lastSendTime := s1.timingEngine.lastSendTime } } := by
  unfold BurstShaper.ShapePacket at h
  simp only at h
  split at h
  · exact absurd h (by simp)
  · rename_i paddingLen wg hg
    simp only [Option.some.injEq, Prod.mk.injEq] at h
    obtain ⟨-, hs, -⟩ := h
    unfold BurstShaper.advance
    simp only
    by_cases hc : s.packetCount + 1 > 1 ∧ isHandshake = false
    · simp only [if_pos hc] at hs ⊢
      have hk := ApplyJitter_keeps fl
        (BurstShaper.adjustTimingForBurst { s with packetCount := s.packetCount + 1 }).timingEngine
        ctx wg
      rw [← hs]
      simp only
      rw [hk]
    · simp only [if_neg hc] at hs ⊢
      rw [← hs]

theorem ShapePacket_phase (Size : Int) (fl : FloatOps) (s : BurstShaper) (ctx : Context)
    (buffer : Buffer) (isHandshake : Bool) (w : World) (buffer1 : Buffer) (s1 : BurstShaper)
    (w1 : World) (h : s.ShapePacket Size fl ctx buffer isHandshake w = some (buffer1, s1, w1)) :
    s1.phase = (s.advance isHandshake).phase ∧ s1.pattern = (s.advance isHandshake).pattern := by
  have e := ShapePacket_advance Size fl s ctx buffer isHandshake w buffer1 s1 w1 h
  rw [e]
  exact ⟨rfl, rfl⟩

theorem advance_pattern (s : BurstShaper) (isHandshake : Bool) :
    (s.advance isHandshake).pattern = s.pattern ∧
    (s.advance isHandshake).paddingEngine = s.paddingEngine := by
  unfold BurstShaper.advance
  simp only
  split_ifs
  · have hk := adjustTimingForBurst_keeps { s with packetCount := s.packetCount + 1 }
    exact ⟨hk.2.1, hk.1⟩
  · exact ⟨rfl, rfl⟩

/-- The state after a packet is a function of the pattern, the state before
and the isHandshake flag. -/
theorem advance_phase_congr (s s' : BurstShaper) (isHandshake : Bool)
    (hp : s.pattern = s'.pattern) (hph : s.phase = s'.phase) :
    (s.advance isHandshake).phase = (s'.advance isHandshake).phase := by
  obtain ⟨pat, pe, te, pc, bc, ib⟩ := s
  obtain ⟨pat', pe', te', pc', bc', ib'⟩ := s'
  simp only [BurstShaper.phase, Prod.mk.injEq] at hph
  obtain ⟨rfl, rfl, rfl⟩ := hph
  simp only at hp
  subst hp
  unfold BurstShaper.advance BurstShaper.adjustTimingForBurst BurstShaper.adjustHTTPSTiming
    BurstShaper.adjustHTTP3Timing BurstShaper.adjustVideoTiming
  simp only
  cases pat <;> simp only [BurstShaper.phase] <;> split_ifs <;> rfl

theorem advanceAll_phase_congr (flags : List Bool) :
    ∀ (s s' : BurstShaper), s.pattern = s'.pattern → s.phase = s'.phase →
      (advanceAll flags s).map BurstShaper.phase = (advanceAll flags s').map BurstShaper.phase := by
  induction flags with
  | nil => intro s s' _ _; rfl
  | cons f rest ih =>
    intro s s' hp hph
    simp only [advanceAll, List.map_cons]
    have h1 := advance_phase_congr s s' f hp hph
    have h2 : (s.advance f).pattern = (s'.advance f).pattern := by
      rw [(advance_pattern s f).1, (advance_pattern s' f).1, hp]
    rw [h1, ih _ _ h2 h1]

/-- The states of a returning run are those of `advanceAll` on its flags. -/
theorem shapePackets_phases (Size : Int) (fl : FloatOps) (ctx : Context) :
    ∀ (pkts : List (Buffer × Bool)) (s : BurstShaper) (w : World) (trace : List BurstShaper)
      (w1 : World),
      shapePackets Size fl ctx pkts s w = some (trace, w1) →
      trace.map BurstShaper.phase =
        (advanceAll (pkts.map Prod.snd) s).map BurstShaper.phase := by
  intro pkts
  induction pkts with
  | nil =>
    intro s w trace w1 h
    simp only [shapePackets, Option.some.injEq, Prod.mk.injEq] at h
    rw [← h.1]
    rfl
  | cons pkt rest ih =>
    intro s w trace w1 h
    obtain ⟨buffer, isHandshake⟩ := pkt
    simp only [shapePackets] at h
    rcases hp : s.ShapePacket Size fl ctx buffer isHandshake w with _ | ⟨b1, s1, wp⟩
    · simp [hp] at h
    · simp only [hp] at h
      rcases hr : shapePackets Size fl ctx rest s1 wp with _ | ⟨tr, w2⟩
      · simp [hr] at h
      · simp only [hr, Option.some.injEq, Prod.mk.injEq] at h
        rw [← h.1]
        obtain ⟨k1, k2⟩ := ShapePacket_phase Size fl s ctx buffer isHandshake w b1 s1 wp hp
        simp only [List.map_cons, advanceAll]
        rw [ih s1 wp tr w2 hr, k1, advanceAll_phase_congr _ s1 _ k2 k1]

/-- A run returns when the padding is Uniform or the entropy source delivers. -/
theorem shapePackets_isSome (Size : Int) (fl : FloatOps) (ctx : Context) :
    ∀ (pkts : List (Buffer × Bool)) (s : BurstShaper) (w : World),
      (s.paddingEngine.distribution = UniformDistribution ∨ w.Delivers) →
      (shapePackets Size fl ctx pkts s w).isSome = true := by
  intro pkts
  induction pkts with
  | nil => intro s w _; rfl
  | cons pkt rest ih =>
    intro s w hd
    obtain ⟨buffer, isHandshake⟩ := pkt
    simp only [shapePackets]
    have hp := ShapePacket_isSome Size fl s ctx buffer isHandshake w hd
    rcases hr : s.ShapePacket Size fl ctx buffer isHandshake w with _ | ⟨b1, s1, wp⟩
    · rw [hr] at hp; exact absurd hp (by decide)
    · simp only
      obtain ⟨k1, -, -, k4, -⟩ := ShapePacket_some Size fl s ctx buffer _ w b1 s1 wp hr
      have hnext := ih s1 wp (by
        rcases hd with hd | hd
        · left; rw [k1]; exact hd
        · right; exact delivers_of_rand_eq _ _ k4 hd)
      rcases hrest : shapePackets Size fl ctx rest s1 wp with _ | ⟨tr, w2⟩
      · rw [hrest] at hnext; exact absurd hnext (by decide)
      · rfl

/-- C11: with the HTTPS-like pattern, a freshly constructed Burst Controller
that shapes five steady-state packets one after another (any units, any draws):
the run returns when the entropy source delivers, and whenever it returns the
controller is InBurst with burst count 0 after each of packets 1, 2, 3 and 4
(packet counts 1 to 4) and BetweenBursts with burst count 1 and packet count 5
after packet 5. -/
theorem C11_https_first_burst (Size : Int) (fl : FloatOps) (ctx : Context) (w0 w : World)
    (b1 b2 b3 b4 b5 : Buffer) :
    (w.Delivers →
      (shapePackets Size fl ctx [(b1, false), (b2, false), (b3, false), (b4, false), (b5, false)]
        (NewBurstShaper HTTPSPattern w0) w).isSome = true) ∧
    ∀ (trace : List BurstShaper) (w1 : World),
      shapePackets Size fl ctx [(b1, false), (b2, false), (b3, false), (b4, false), (b5, false)]
        (NewBurstShaper HTTPSPattern w0) w = some (trace, w1) →
      trace.map BurstShaper.phase =
        [(1, 0, true), (2, 0, true), (3, 0, true), (4, 0, true), (5, 1, false)] := by
  constructor
  · intro hd
    exact shapePackets_isSome Size fl ctx _ _ w (Or.inr hd)
  · intro trace w1 h
    rw [shapePackets_phases Size fl ctx _ _ w trace w1 h]
    rfl

theorem C11_https_first_burst_witness :
    (sampleWorld.Delivers →
      (shapePackets 8192 sampleFloat sampleCtx
        [(Buffer.mk [1], false), (Buffer.mk [2, 2], false), (Buffer.mk [3], false),
         (Buffer.mk [4], false), (Buffer.mk [5], false)]
        (NewBurstShaper HTTPSPattern sampleWorld) sampleWorld).isSome = true) ∧
    ∀ (trace : List BurstShaper) (w1 : World),
      shapePackets 8192 sampleFloat sampleCtx
        [(Buffer.mk [1], false), (Buffer.mk [2, 2], false), (Buffer.mk [3], false),
         (Buffer.mk [4], false), (Buffer.mk [5], false)]
        (NewBurstShaper HTTPSPattern sampleWorld) sampleWorld = some (trace, w1) →
      trace.map BurstShaper.phase =
        [(1, 0, true), (2, 0, true), (3, 0, true), (4, 0, true), (5, 1, false)] :=
  C11_https_first_burst 8192 sampleFloat sampleCtx sampleWorld sampleWorld (Buffer.mk [1])
    (Buffer.mk [2, 2]) (Buffer.mk [3]) (Buffer.mk [4]) (Buffer.mk [5])

/-- The states of a run that is known to return. -/
theorem shapePackets_phases_of_delivers (Size : Int) (fl : FloatOps) (ctx : Context)
    (pkts : List (Buffer × Bool)) (s : BurstShaper) (w : World) (hd : w.Delivers) :
    (shapePackets Size fl ctx pkts s w).map (fun r => r.1.map BurstShaper.phase) =
      some ((advanceAll (pkts.map Prod.snd) s).map BurstShaper.phase) := by
  have hs := shapePackets_isSome Size fl ctx pkts s w (Or.inr hd)
  rcases hr : shapePackets Size fl ctx pkts s w with _ | ⟨trace, w1⟩
  · rw [hr] at hs; exact absurd hs (by decide)
  · simp only [Option.map_some']
    rw [shapePackets_phases Size fl ctx pkts s w trace w1 hr]

/-- C12 (as amended): for every pattern, any two runs of ShapePacket calls on
freshly constructed controllers with that pattern whose packets carry the same
sequence of isHandshake flags go through the same states (packet count, burst
count and InBurst/BetweenBursts flag after every call, so the same final state),
whatever the payloads, the contexts and the random draws; each run returns when
its entropy source delivers. -/
theorem C12_state_determined_by_flags (Size : Int) (fl : FloatOps) (ctx ctx' : Context)
    (pattern : BurstPattern) (w0 w0' w w' : World) (pkts pkts' : List (Buffer × Bool))
    (hflags : pkts.map Prod.snd = pkts'.map Prod.snd) :
    (w.Delivers →
      (shapePackets Size fl ctx pkts (NewBurstShaper pattern w0) w).isSome = true) ∧
    ∀ (trace trace' : List BurstShaper) (w1 w1' : World),
      shapePackets Size fl ctx pkts (NewBurstShaper pattern w0) w = some (trace, w1) →
      shapePackets Size fl ctx' pkts' (NewBurstShaper pattern w0') w' = some (trace', w1') →
      trace.map BurstShaper.phase = trace'.map BurstShaper.phase := by
  constructor
  · intro hd
    exact shapePackets_isSome Size fl ctx _ _ w (Or.inr hd)
  · intro trace trace' w1 w1' h h'
    rw [shapePackets_phases Size fl ctx _ _ w trace w1 h,
      shapePackets_phases Size fl ctx' _ _ w' trace' w1' h', hflags]
    exact advanceAll_phase_congr _ _ _ rfl rfl

theorem C12_state_determined_by_flags_witness :
    steadyPackets.map Prod.snd = otherSteadyPackets.map Prod.snd ∧
    ((sampleWorld.Delivers →
      (shapePackets 8192 sampleFloat sampleCtx steadyPackets
        (NewBurstShaper HTTPSPattern sampleWorld) sampleWorld).isSome = true) ∧
    ∀ (trace trace' : List BurstShaper) (w1 w1' : World),
      shapePackets 8192 sampleFloat sampleCtx steadyPackets
        (NewBurstShaper HTTPSPattern sampleWorld) sampleWorld = some (trace, w1) →
      shapePackets 8192 sampleFloat (Context.mk (some 3)) otherSteadyPackets
        (NewBurstShaper HTTPSPattern failingWorld) sampleWorld = some (trace', w1') →
      trace.map BurstShaper.phase = trace'.map BurstShaper.phase) :=
  ⟨by decide,
    C12_state_determined_by_flags 8192 sampleFloat sampleCtx (Context.mk (some 3)) HTTPSPattern
      sampleWorld failingWorld sampleWorld sampleWorld steadyPackets otherSteadyPackets
      (by decide)⟩

/-- C12 (as stated) fails: two runs of five ShapePacket calls on fresh
HTTPS-like controllers, with the same units and the same draws, the first with
five steady-state packets, the second with the fifth packet flagged as
handshake, end in (packet count 5, burst count 1, BetweenBursts) and in (packet
count 5, burst count 0, InBurst). -/
theorem C12_counterexample :
    steadyPackets.length = mixedPackets.length ∧
    steadyPackets.map Prod.fst = mixedPackets.map Prod.fst ∧
    (shapePackets 8192 sampleFloat sampleCtx steadyPackets
        (NewBurstShaper HTTPSPattern sampleWorld) sampleWorld).map
      (fun r => r.1.map BurstShaper.phase) =
      some [(1, 0, true), (2, 0, true), (3, 0, true), (4, 0, true), (5, 1, false)] ∧
    (shapePackets 8192 sampleFloat sampleCtx mixedPackets
        (NewBurstShaper HTTPSPattern sampleWorld) sampleWorld).map
      (fun r => r.1.map BurstShaper.phase) =
      some [(1, 0, true), (2, 0, true), (3, 0, true), (4, 0, true), (5, 0, true)] := by
  refine ⟨rfl, rfl, ?_, ?_⟩
  · rw [shapePackets_phases_of_delivers _ _ _ _ _ _ sampleWorld_delivers]
    rfl
  · rw [shapePackets_phases_of_delivers _ _ _ _ _ _ sampleWorld_delivers]
    rfl

/-- C13: for every Burst Controller state (so for every state reachable by a
history of ShapePacket calls, of any pattern), Reset leaves packet count 0, burst
count 0 and state InBurst and keeps the pattern; and on any subsequent packets
the controller that was Reset goes through the same states (packet count, burst
count, InBurst/BetweenBursts after every call) as a freshly constructed
controller of the same pattern given the same packets, whatever the draws. -/
theorem C13_Reset_restores_initial_state (Size : Int) (fl : FloatOps) (ctx ctx' : Context)
    (s : BurstShaper) (w0 w w' : World) (pkts : List (Buffer × Bool)) :
    s.Reset.packetCount = 0 ∧ s.Reset.burstCount = 0 ∧ s.Reset.inBurst = true ∧
    s.Reset.pattern = s.pattern ∧
    s.Reset.phase = (NewBurstShaper s.pattern w0).phase ∧
    ((s.Reset.paddingEngine.distribution = UniformDistribution ∨ w.Delivers) →
      (shapePackets Size fl ctx pkts s.Reset w).isSome = true) ∧
    ∀ (trace trace' : List BurstShaper) (w1 w1' : World),
      shapePackets Size fl ctx pkts s.Reset w = some (trace, w1) →
      shapePackets Size fl ctx' pkts (NewBurstShaper s.pattern w0) w' = some (trace', w1') →
      trace.map BurstShaper.phase = trace'.map BurstShaper.phase := by
  refine ⟨rfl, rfl, rfl, rfl, rfl, ?_, ?_⟩
  · intro hd
    exact shapePackets_isSome Size fl ctx _ _ w hd
  · intro trace trace' w1 w1' h h'
    rw [shapePackets_phases Size fl ctx _ _ w trace w1 h,
      shapePackets_phases Size fl ctx' _ _ w' trace' w1' h']
    exact advanceAll_phase_congr _ _ _ rfl rfl

theorem C13_Reset_restores_initial_state_witness :
    usedShaper.Reset.packetCount = 0 ∧ usedShaper.Reset.burstCount = 0 ∧
    usedShaper.Reset.inBurst = true ∧
    usedShaper.Reset.pattern = usedShaper.pattern ∧
    usedShaper.Reset.phase = (NewBurstShaper usedShaper.pattern sampleWorld).phase ∧
    ((usedShaper.Reset.paddingEngine.distribution = UniformDistribution ∨ sampleWorld.Delivers) →
      (shapePackets 8192 sampleFloat sampleCtx steadyPackets usedShaper.Reset
        sampleWorld).isSome = true) ∧
    ∀ (trace trace' : List BurstShaper) (w1 w1' : World),
      shapePackets 8192 sampleFloat sampleCtx steadyPackets usedShaper.Reset sampleWorld
        = some (trace, w1) →
      shapePackets 8192 sampleFloat sampleCtx steadyPackets
        (NewBurstShaper usedShaper.pattern sampleWorld) sampleWorld = some (trace', w1') →
      trace.map BurstShaper.phase = trace'.map BurstShaper.phase :=
  C13_Reset_restores_initial_state 8192 sampleFloat sampleCtx sampleCtx usedShaper sampleWorld
    sampleWorld sampleWorld steadyPackets

/-! ## Entropy failure in the padding engine -/

/-- C14 (the code at the failing input): when the entropy source fails, Uniform
padding returns the defaults 900 (handshake) and 128 (otherwise), but HTTP3-like
and HTTPS-like padding do not return at all: for either flag and every payload
size the call panics on the nil result of the failed draw. -/
theorem C14_padding_on_entropy_failure (fl : FloatOps) (isHandshake : Bool)
    (currentSize : Int) :
    ((NewPaddingEngine UniformDistribution).GeneratePadding fl true currentSize
      failingWorld).map Prod.fst = some 900 ∧
    ((NewPaddingEngine UniformDistribution).GeneratePadding fl false currentSize
      failingWorld).map Prod.fst = some 128 ∧
    (NewPaddingEngine HTTP3Distribution).GeneratePadding fl isHandshake currentSize
      failingWorld = none ∧
    (NewPaddingEngine HTTPSDistribution).GeneratePadding fl isHandshake currentSize
      failingWorld = none := by
  refine ⟨rfl, rfl, ?_, ?_⟩
  · unfold PaddingEngine.GeneratePadding PaddingEngine.generateHTTP3Padding
    cases isHandshake
    · rfl
    · simp only [NewPaddingEngine, if_true]
      split_ifs <;> rfl
  · unfold PaddingEngine.GeneratePadding PaddingEngine.generateHTTPSPadding
    cases isHandshake <;> rfl

/-! ## The Uniform timing profile -/

/-- C15 (as amended): under the Uniform timing profile, for every Delay Engine
state: if maxDelayMs - minDelayMs ≤ 0 the calculated delay is minDelay; if the
range is positive and the draw fails the delay is meanDelay; if the range is
positive and the draw yields r, then 0 ≤ r < maxDelayMs - minDelayMs and the
delay is minDelay + r milliseconds in int64 arithmetic, which for 0 ≤ minDelay
≤ maxDelay (an int64) is exactly minDelay + r·10^6 ns, a delay whose whole
milliseconds lie in [minDelayMs, maxDelayMs). -/
theorem C15_uniform_delay_cases (fl : FloatOps) (t : TimingEngine) (w : World)
    (hprof : t.profile = UniformJitter) :
    (t.rangeMs ≤ 0 → (t.calculateDelay fl w).1 = t.minDelay) ∧
    (0 < t.rangeMs →
      ((randInt t.rangeMs.toNat w).1 = none → (t.calculateDelay fl w).1 = t.meanDelay) ∧
      (∀ r : Nat, (randInt t.rangeMs.toNat w).1 = some r →
        (r : Int) < t.rangeMs ∧
        (t.calculateDelay fl w).1 = int64 (t.minDelay + int64 (int64 r * Millisecond)) ∧
        (0 ≤ t.minDelay → t.minDelay ≤ t.maxDelay → t.maxDelay < 9223372036854775808 →
          (t.calculateDelay fl w).1 = t.minDelay + (r : Int) * 1000000 ∧
          Milliseconds t.minDelay ≤ Milliseconds (t.calculateDelay fl w).1 ∧
          Milliseconds (t.calculateDelay fl w).1 < Milliseconds t.maxDelay))) := by
  have hcalc : t.calculateDelay fl w = t.uniformDelay w := by
    unfold TimingEngine.calculateDelay
    rw [hprof]
  rw [hcalc]
  unfold TimingEngine.uniformDelay
  simp only
  have hrange : int64 (Milliseconds t.maxDelay - Milliseconds t.minDelay) = t.rangeMs := rfl
  rw [hrange]
  constructor
  · intro hle
    rw [if_pos hle]
  · intro hpos
    rw [if_neg (not_le.mpr hpos)]
    rcases hd : randInt t.rangeMs.toNat w with ⟨_ | r, w1⟩
    · refine ⟨fun _ => rfl, ?_⟩
      intro r hr
      simp at hr
    · refine ⟨fun hn => by simp at hn, ?_⟩
      intro r' hr'
      simp only [Option.some.injEq] at hr'
      subst hr'
      have hlt := randInt_lt _ (by omega) w w1 r hd
      refine ⟨by omega, rfl, ?_⟩
      intro hmin hmm hmax
      have hr : t.rangeMs = t.maxDelay / 1000000 - t.minDelay / 1000000 := by
        unfold TimingEngine.rangeMs
        rw [Milliseconds_eq _ (le_trans hmin hmm), Milliseconds_eq _ hmin]
        exact int64_eq_self _ (by omega) (by omega)
      rw [hr] at hlt
      have e1 : int64 (r : Int) = r := int64_eq_self _ (by omega) (by omega)
      have e2 : int64 ((r : Int) * Millisecond) = (r : Int) * 1000000 := by
        unfold Millisecond
        exact int64_eq_self _ (by omega) (by omega)
      have e3 : int64 (t.minDelay + (r : Int) * 1000000) = t.minDelay + (r : Int) * 1000000 :=
        int64_eq_self _ (by omega) (by omega)
      simp only [e1, e2, e3]
      rw [Milliseconds_eq _ hmin, Milliseconds_eq _ (le_trans hmin hmm),
        Milliseconds_eq _ (by omega)]
      refine ⟨trivial, by omega, by omega⟩

theorem C15_uniform_delay_cases_witness :
    sampleTiming.profile = UniformJitter ∧
    ((sampleTiming.rangeMs ≤ 0 →
      (sampleTiming.calculateDelay sampleFloat sampleWorld).1 = sampleTiming.minDelay) ∧
    (0 < sampleTiming.rangeMs →
      ((randInt sampleTiming.rangeMs.toNat sampleWorld).1 = none →
        (sampleTiming.calculateDelay sampleFloat sampleWorld).1 = sampleTiming.meanDelay) ∧
      (∀ r : Nat, (randInt sampleTiming.rangeMs.toNat sampleWorld).1 = some r →
        (r : Int) < sampleTiming.rangeMs ∧
        (sampleTiming.calculateDelay sampleFloat sampleWorld).1 =
          int64 (sampleTiming.minDelay + int64 (int64 r * Millisecond)) ∧
        (0 ≤ sampleTiming.minDelay → sampleTiming.minDelay ≤ sampleTiming.maxDelay →
          sampleTiming.maxDelay < 9223372036854775808 →
          (sampleTiming.calculateDelay sampleFloat sampleWorld).1 =
            sampleTiming.minDelay + (r : Int) * 1000000 ∧
          Milliseconds sampleTiming.minDelay ≤
            Milliseconds (sampleTiming.calculateDelay sampleFloat sampleWorld).1 ∧
          Milliseconds (sampleTiming.calculateDelay sampleFloat sampleWorld).1 <
            Milliseconds sampleTiming.maxDelay)))) :=
  ⟨rfl, C15_uniform_delay_cases sampleFloat sampleTiming sampleWorld rfl⟩

/-- C15 (as stated) fails: under the Uniform profile with minDelay = maxDelay =
5ms (range 0) and mean 2ms, the calculated delay is minDelay, 5ms, not the mean. -/
theorem C15_counterexample :
    flatTiming.profile = UniformJitter ∧
    Milliseconds flatTiming.maxDelay - Milliseconds flatTiming.minDelay ≤ 0 ∧
    flatTiming.meanDelay = 2000000 ∧
    (flatTiming.calculateDelay sampleFloat sampleWorld).1 = 5000000 ∧
    (flatTiming.calculateDelay sampleFloat sampleWorld).1 ≠ flatTiming.meanDelay := by
  decide

/-! ## Configuration -/

/-- C16: the three getters are total functions of the configuration, and for
every configuration: GetPaddingDistribution is HTTP3 exactly when the
padding-mode string is "http3", HTTPS exactly when it is "https", and Uniform
for every other string; GetTimingProfile is Uniform / Exponential / Normal
exactly when the timing-mode string is "uniform" / "exponential" / "normal" and
None for every other string; GetBurstPattern is HTTPS / HTTP3 / VideoStream
exactly when the burst-pattern string is "https" / "http3" / "video" and Normal
for every other string, the empty string and "HTTPS" included. -/
theorem C16_config_resolution (c : Config) :
    ((c.GetPaddingDistribution = HTTP3Distribution ↔ c.PaddingMode = "http3") ∧
     (c.GetPaddingDistribution = HTTPSDistribution ↔ c.PaddingMode = "https") ∧
     (c.GetPaddingDistribution = UniformDistribution ↔
       (c.PaddingMode ≠ "http3" ∧ c.PaddingMode ≠ "https"))) ∧
    ((c.GetTimingProfile = UniformJitter ↔ c.TimingMode = "uniform") ∧
     (c.GetTimingProfile = ExponentialJitter ↔ c.TimingMode = "exponential") ∧
     (c.GetTimingProfile = NormalJitter ↔ c.TimingMode = "normal") ∧
     (c.GetTimingProfile = NoJitter ↔
       (c.TimingMode ≠ "uniform" ∧ c.TimingMode ≠ "exponential" ∧ c.TimingMode ≠ "normal"))) ∧
    ((c.GetBurstPattern = HTTPSPattern ↔ c.BurstPattern = "https") ∧
     (c.GetBurstPattern = HTTP3Pattern ↔ c.BurstPattern = "http3") ∧
     (c.GetBurstPattern = VideoStreamPattern ↔ c.BurstPattern = "video") ∧
     (c.GetBurstPattern = NormalPattern ↔
       (c.BurstPattern ≠ "https" ∧ c.BurstPattern ≠ "http3" ∧ c.BurstPattern ≠ "video"))) ∧
    ({ c with BurstPattern := "" } : Config).GetBurstPattern = NormalPattern ∧
    ({ c with BurstPattern := "HTTPS" } : Config).GetBurstPattern = NormalPattern ∧
    ({ c with PaddingMode := "Http3" } : Config).GetPaddingDistribution = UniformDistribution ∧
    ({ c with TimingMode := "none" } : Config).GetTimingProfile = NoJitter := by
  refine ⟨?_, ?_, ?_, rfl, rfl, rfl, rfl⟩
  · unfold Config.GetPaddingDistribution
    by_cases h1 : c.PaddingMode = "http3"
    · simp [h1]
    · by_cases h2 : c.PaddingMode = "https" <;> simp [h1, h2]
  · unfold Config.GetTimingProfile
    by_cases h1 : c.TimingMode = "uniform"
    · simp [h1]
    · by_cases h2 : c.TimingMode = "exponential"
      · simp [h2]
      · by_cases h3 : c.TimingMode = "normal" <;> simp [h1, h2, h3]
  · unfold Config.GetBurstPattern
    by_cases h1 : c.BurstPattern = "https"
    · simp [h1]
    · by_cases h2 : c.BurstPattern = "http3"
      · simp [h2]
      · by_cases h3 : c.BurstPattern = "video" <;> simp [h1, h2, h3]

/-- C17 (the code at the failing input): the Burst Controller that
NewObfuscationWriter constructs for an enabled configuration is
NewBurstShaper(c.GetBurstPattern()) whatever the padding and timing modes say.
For DefaultConfig (padding mode "http3", burst pattern "https") its
Distribution Engine is HTTPS-like although GetPaddingDistribution is HTTP3; for
DefaultConfig with timing mode "uniform" its Delay Engine is Exponential
although GetTimingProfile is Uniform. -/
theorem C17_controller_follows_pattern_only (inner : Writer) (ctx : Context) (w : World)
    (c : Config) :
    (NewObfuscationWriter inner (some { c with Enabled := true }) ctx w).burstShaper =
      some (NewBurstShaper c.GetBurstPattern w) ∧
    (NewObfuscationWriter inner (some DefaultConfig) ctx w).burstShaper.map
      (fun s => s.paddingEngine.distribution) = some HTTPSDistribution ∧
    DefaultConfig.GetPaddingDistribution = HTTP3Distribution ∧
    (NewObfuscationWriter inner (some { DefaultConfig with TimingMode := "uniform" }) ctx
      w).burstShaper.map (fun s => s.timingEngine.profile) = some ExponentialJitter ∧
    ({ DefaultConfig with TimingMode := "uniform" } : Config).GetTimingProfile =
      UniformJitter := by
  refine ⟨rfl, ?_, by decide, ?_, by decide⟩
  · have hp : DefaultConfig.GetBurstPattern = HTTPSPattern := by decide
    simp [NewObfuscationWriter, DefaultConfig, NewBurstShaper, NewPaddingEngine, hp,
      Config.GetBurstPattern]
  · simp [NewObfuscationWriter, DefaultConfig, NewBurstShaper, NewTimingEngine,
      Config.GetBurstPattern]

/-! ## HTTP3-like handshake padding -/

theorem http3_handshake_small (fl : FloatOps) (s : Int) (w : World) (hd : w.Delivers)
    (h0 : 0 ≤ s) (h1 : s ≤ 1100) :
    ∃ L w1, (NewPaddingEngine HTTP3Distribution).GeneratePadding fl true s w = some (L, w1) ∧
      1100 ≤ s + L ∧ s + L < 1300 := by
  obtain ⟨l, w1, hl, -⟩ := randInt_delivers 200 w hd
  have hlt := randInt_lt 200 (by decide) w w1 l hl
  have e1 : int32 (l : Int) = l := int32_eq_self _ (by omega) (by omega)
  have e2 : int32 (1200 - s + (l : Int) - 100) = 1200 - s + (l : Int) - 100 :=
    int32_eq_self _ (by omega) (by omega)
  refine ⟨1200 - s + (l : Int) - 100, w1, ?_, by omega, by omega⟩
  unfold PaddingEngine.GeneratePadding PaddingEngine.generateHTTP3Padding
  simp only [NewPaddingEngine, if_true]
  rw [if_neg (by omega), hl]
  simp only [e1, e2]
  rw [if_neg (by omega), if_neg (by omega)]

theorem http3_handshake_large (fl : FloatOps) (s : Int) (w : World) (hd : w.Delivers)
    (h0 : 1200 ≤ s) :
    ∃ L w1, (NewPaddingEngine HTTP3Distribution).GeneratePadding fl true s w = some (L, w1) ∧
      0 ≤ L ∧ L < 100 := by
  obtain ⟨l, w1, hl, -⟩ := randInt_delivers 100 w hd
  have hlt := randInt_lt 100 (by decide) w w1 l hl
  have e1 : int32 (l : Int) = l := int32_eq_self _ (by omega) (by omega)
  refine ⟨(l : Int), w1, ?_, by omega, by omega⟩
  unfold PaddingEngine.GeneratePadding PaddingEngine.generateHTTP3Padding
  simp only [NewPaddingEngine, if_true]
  rw [if_pos (by omega), hl]
  simp only [e1]

/-- C18: under HTTP3-like padding with isHandshake = true, whenever the entropy
source delivers (every outcome of the jitter draw) and the capacity buf.Size is
an int32 of at least 1320: for the empty unit, GeneratePadding followed by
ApplyPadding leaves a unit whose size is within [1100, 1400]; for every current
size s with 0 ≤ s ≤ 1100 the padded size s + L lies in [1100, 1300); and for
every s ≥ 1200 the padding L lies in [0, 100). -/
theorem C18_http3_handshake_sizes (Size : Int) (fl : FloatOps) (w : World) (hd : w.Delivers)
    (hS1 : 1320 ≤ Size) (hS2 : Size < 2147483648) :
    (∃ L w1, (NewPaddingEngine HTTP3Distribution).GeneratePadding fl true (Buffer.mk []).Len w
        = some (L, w1) ∧
      1100 ≤ ((NewPaddingEngine HTTP3Distribution).ApplyPadding Size (Buffer.mk []) L w1).1.Len ∧
      ((NewPaddingEngine HTTP3Distribution).ApplyPadding Size (Buffer.mk []) L w1).1.Len
        ≤ 1400) ∧
    (∀ s : Int, 0 ≤ s → s ≤ 1100 →
      ∃ L w1, (NewPaddingEngine HTTP3Distribution).GeneratePadding fl true s w = some (L, w1) ∧
        1100 ≤ s + L ∧ s + L < 1300) ∧
    (∀ s : Int, 1200 ≤ s →
      ∃ L w1, (NewPaddingEngine HTTP3Distribution).GeneratePadding fl true s w = some (L, w1) ∧
        0 ≤ L ∧ L < 100) := by
  refine ⟨?_, fun s h0 h1 => http3_handshake_small fl s w hd h0 h1,
    fun s h0 => http3_handshake_large fl s w hd h0⟩
  have hlen : (Buffer.mk []).Len = 0 := rfl
  obtain ⟨L, w1, hg, hlo, hhi⟩ := http3_handshake_small fl 0 w hd (le_refl _) (by decide)
  refine ⟨L, w1, by rw [hlen]; exact hg, ?_⟩
  obtain ⟨data, hdata, hres⟩ := (ApplyPadding_unit Size (NewPaddingEngine HTTP3Distribution)
    (Buffer.mk []) L w1 hS2 (by rw [hlen]; omega)).1 (by rw [hlen]; constructor <;> omega)
  rw [hres]
  rw [hlen] at hdata
  have hmin : min L (Size - 0 - 21) = L := min_eq_left (by omega)
  rw [hmin] at hdata
  simp only [Buffer.Len, List.nil_append]
  omega

theorem C18_http3_handshake_sizes_witness :
    sampleWorld.Delivers ∧ (1320 : Int) ≤ 8192 ∧ (8192 : Int) < 2147483648 ∧
    ((∃ L w1, (NewPaddingEngine HTTP3Distribution).GeneratePadding sampleFloat true
        (Buffer.mk []).Len sampleWorld = some (L, w1) ∧
      1100 ≤ ((NewPaddingEngine HTTP3Distribution).ApplyPadding 8192 (Buffer.mk []) L w1).1.Len ∧
      ((NewPaddingEngine HTTP3Distribution).ApplyPadding 8192 (Buffer.mk []) L w1).1.Len
        ≤ 1400) ∧
    (∀ s : Int, 0 ≤ s → s ≤ 1100 →
      ∃ L w1, (NewPaddingEngine HTTP3Distribution).GeneratePadding sampleFloat true s
          sampleWorld = some (L, w1) ∧
        1100 ≤ s + L ∧ s + L < 1300) ∧
    (∀ s : Int, 1200 ≤ s →
      ∃ L w1, (NewPaddingEngine HTTP3Distribution).GeneratePadding sampleFloat true s
          sampleWorld = some (L, w1) ∧
        0 ≤ L ∧ L < 100)) :=
  ⟨sampleWorld_delivers, by decide, by decide,
    C18_http3_handshake_sizes 8192 sampleFloat sampleWorld sampleWorld_delivers (by decide)
      (by decide)⟩

/-! ## Re-tuning against the table of the specification -/

theorem advance_matches_table (s : BurstShaper) (hn : 1 < s.packetCount + 1) :
    (s.advance false).packetCount = s.packetCount + 1 ∧
    (s.advance false).inBurst =
      (specRetuning s.pattern s.inBurst s.burstCount (s.packetCount + 1)).inBurst ∧
    (s.advance false).burstCount =
      (specRetuning s.pattern s.inBurst s.burstCount (s.packetCount + 1)).burstCount ∧
    ((s.advance false).timingEngine.minDelay, (s.advance false).timingEngine.maxDelay,
      (s.advance false).timingEngine.meanDelay) =
      (specRetuning s.pattern s.inBurst s.burstCount (s.packetCount + 1)).delays.getD
        (s.timingEngine.minDelay, s.timingEngine.maxDelay, s.timingEngine.meanDelay) ∧
    (s.advance false).timingEngine.profile = s.timingEngine.profile := by
  obtain ⟨pat, pe, te, pc, bc, ib⟩ := s
  simp only at hn
  have hmod : ∀ k : Int, 0 ≤ k → Int.tmod (pc + 1) k = (pc + 1) % k :=
    fun k hk => Int.tmod_eq_emod (by omega) hk
  unfold BurstShaper.advance
  simp only
  rw [if_pos ⟨hn, trivial⟩]
  unfold BurstShaper.adjustTimingForBurst BurstShaper.adjustHTTPSTiming
    BurstShaper.adjustHTTP3Timing BurstShaper.adjustVideoTiming
  cases pat <;> cases ib <;>
    simp only [specRetuning, TimingEngine.SetDelayRange, TimingEngine.SetMeanDelay, Millisecond,
      hmod 5 (by decide), hmod 8 (by decide), hmod 10 (by decide), hmod 11 (by decide),
      Option.getD_some, Option.getD_none, Bool.false_eq_true, if_false, if_true] <;>
    (try split_ifs) <;> simp_all

/-- C19: for every ShapePacket call with isHandshake = false that is not the
first packet of the controller (packet count n after the increment above 1), the
call returns when the padding is Uniform or the entropy source delivers, and
whenever it returns the controller has packet count n and the state, burst count
and Delay Engine range and mean of the row of the table of the specification
for (pattern, state at entry, n): HTTPS-like/InBurst [0,5ms], mean 2ms, to
BetweenBursts with burst count + 1 iff n mod 5 = 0; HTTPS-like/BetweenBursts
[20,50ms], mean 30ms, back to InBurst iff n mod 8 = 0; HTTP3-like [5,15ms], mean
10ms, no change of state or burst count; VideoStream-like/InBurst [0,2ms], mean
1ms, to BetweenBursts iff n mod 10 = 0; VideoStream-like/BetweenBursts
[25,40ms], mean 33ms, back to InBurst with burst count + 1 iff n mod 11 = 0;
Normal: bounds, state and burst count unchanged.  The profile never changes. -/
theorem C19_retuning_matches_table (Size : Int) (fl : FloatOps) (s : BurstShaper)
    (ctx : Context) (buffer : Buffer) (w : World) (hn : 1 < s.packetCount + 1) :
    ((s.paddingEngine.distribution = UniformDistribution ∨ w.Delivers) →
      (s.ShapePacket Size fl ctx buffer false w).isSome = true) ∧
    ∀ (buffer1 : Buffer) (s1 : BurstShaper) (w1 : World),
      s.ShapePacket Size fl ctx buffer false w = some (buffer1, s1, w1) →
      s1.packetCount = s.packetCount + 1 ∧ s1.pattern = s.pattern ∧
      s1.inBurst = (specRetuning s.pattern s.inBurst s.burstCount (s.packetCount + 1)).inBurst ∧
      s1.burstCount =
        (specRetuning s.pattern s.inBurst s.burstCount (s.packetCount + 1)).burstCount ∧
      (s1.timingEngine.minDelay, s1.timingEngine.maxDelay, s1.timingEngine.meanDelay) =
        (specRetuning s.pattern s.inBurst s.burstCount (s.packetCount + 1)).delays.getD
          (s.timingEngine.minDelay, s.timingEngine.maxDelay, s.timingEngine.meanDelay) ∧
      s1.timingEngine.profile = s.timingEngine.profile := by
  constructor
  · intro hd
    exact ShapePacket_isSome Size fl s ctx buffer false w hd
  · intro buffer1 s1 w1 h
    have e := ShapePacket_advance Size fl s ctx buffer false w buffer1 s1 w1 h
    obtain ⟨t1, t2, t3, t4, t5⟩ := advance_matches_table s hn
    have hp := (advance_pattern s false).1
    rw [e]
    exact ⟨t1, hp, t2, t3, t4, t5⟩

theorem C19_retuning_matches_table_witness :
    1 < usedShaper.packetCount + 1 ∧
    (((usedShaper.paddingEngine.distribution = UniformDistribution ∨ sampleWorld.Delivers) →
      (usedShaper.ShapePacket 8192 sampleFloat sampleCtx (Buffer.mk [1, 2, 3]) false
        sampleWorld).isSome = true) ∧
    ∀ (buffer1 : Buffer) (s1 : BurstShaper) (w1 : World),
      usedShaper.ShapePacket 8192 sampleFloat sampleCtx (Buffer.mk [1, 2, 3]) false sampleWorld
        = some (buffer1, s1, w1) →
      s1.packetCount = usedShaper.packetCount + 1 ∧ s1.pattern = usedShaper.pattern ∧
      s1.inBurst = (specRetuning usedShaper.pattern usedShaper.inBurst usedShaper.burstCount
        (usedShaper.packetCount + 1)).inBurst ∧
      s1.burstCount = (specRetuning usedShaper.pattern usedShaper.inBurst usedShaper.burstCount
        (usedShaper.packetCount + 1)).burstCount ∧
      (s1.timingEngine.minDelay, s1.timingEngine.maxDelay, s1.timingEngine.meanDelay) =
        (specRetuning usedShaper.pattern usedShaper.inBurst usedShaper.burstCount
          (usedShaper.packetCount + 1)).delays.getD
          (usedShaper.timingEngine.minDelay, usedShaper.timingEngine.maxDelay,
            usedShaper.timingEngine.meanDelay) ∧
      s1.timingEngine.profile = usedShaper.timingEngine.profile) :=
  ⟨by decide,
    C19_retuning_matches_table 8192 sampleFloat usedShaper sampleCtx (Buffer.mk [1, 2, 3])
      sampleWorld (by decide)⟩

/-! ## Cancellation of the jitter wait -/

theorem randRead_atTime (n : Nat) (w : World) (x : Int) :
    randRead n (w.atTime x) = ((randRead n w).1, (randRead n w).2.atTime x) := by
  unfold randRead World.atTime
  simp only
  split <;> rfl

theorem ApplyPadding_atTime (Size : Int) (p : PaddingEngine) (b : Buffer) (L : Int) (w : World)
    (x : Int) :
    p.ApplyPadding Size b L (w.atTime x) =
      ((p.ApplyPadding Size b L w).1, (p.ApplyPadding Size b L w).2.atTime x) := by
  unfold PaddingEngine.ApplyPadding
  by_cases h1 : L ≤ 0
  · rw [if_pos h1, if_pos h1]
  · rw [if_neg h1, if_neg h1]
    simp only
    generalize (if L > int32 (Size - b.Len - 21) then int32 (Size - b.Len - 21) else L) = k
    by_cases h2 : k ≤ 0
    · rw [if_pos h2, if_pos h2]
    · rw [if_neg h2, if_neg h2, randRead_atTime]
      rcases hr : randRead k.toNat w with ⟨_ | data, w1⟩ <;> rfl

/-- The context only decides when the wait ends: the Delay Engine after
`ApplyJitter` does not depend on it, and the worlds differ in the clock alone. -/
theorem ApplyJitter_ctx (fl : FloatOps) (t : TimingEngine) (ctx ctx' : Context) (w : World) :
    t.ApplyJitter fl ctx w =
      ((t.ApplyJitter fl ctx' w).1,
        (t.ApplyJitter fl ctx' w).2.atTime (t.ApplyJitter fl ctx w).2.now) := by
  unfold TimingEngine.ApplyJitter
  by_cases h1 : t.profile = NoJitter
  · simp only [if_pos h1]
    rfl
  · simp only [if_neg h1]
    rcases hc : t.calculateDelay fl w with ⟨delay, w1⟩
    simp only
    by_cases h2 : delay ≤ 0
    · simp only [if_pos h2]
      rfl
    · simp only [if_neg h2]
      rfl

/-- Two `ShapePacket` calls that differ in the context alone agree on the unit
and the controller, and their worlds differ in the clock alone. -/
theorem ShapePacket_ctx (Size : Int) (fl : FloatOps) (s : BurstShaper) (ctx ctx' : Context)
    (buffer : Buffer) (isHandshake : Bool) (w : World) :
    (s.ShapePacket Size fl ctx buffer isHandshake w).map
        (fun r => (r.1, r.2.1, r.2.2.atTime 0)) =
      (s.ShapePacket Size fl ctx' buffer isHandshake w).map
        (fun r => (r.1, r.2.1, r.2.2.atTime 0)) := by
  unfold BurstShaper.ShapePacket
  simp only
  rcases hg : s.paddingEngine.GeneratePadding fl isHandshake buffer.Len w with _ | ⟨L, wg⟩
  · rfl
  · simp only [Option.map_some', Option.some.injEq]
    by_cases hc : s.packetCount + 1 > 1 ∧ isHandshake = false
    · simp only [if_pos hc]
      have hj := ApplyJitter_ctx fl
        (BurstShaper.adjustTimingForBurst { s with packetCount := s.packetCount + 1 }).timingEngine
        ctx ctx' wg
      rw [hj]
      simp only
      by_cases hL : L > 0
      · simp only [if_pos hL, ApplyPadding_atTime]
        rfl
      · simp only [if_neg hL]
        rfl
    · simp only [if_neg hc]

/-- Two `ShapePacket` calls that differ in the context alone both return or
both panic. -/
theorem ShapePacket_ctx_cases (Size : Int) (fl : FloatOps) (s : BurstShaper)
    (ctx ctx' : Context) (buffer : Buffer) (isHandshake : Bool) (w : World) :
    (s.ShapePacket Size fl ctx buffer isHandshake w = none ∧
      s.ShapePacket Size fl ctx' buffer isHandshake w = none) ∨
    ∃ (buffer1 : Buffer) (s1 : BurstShaper) (w1 w1' : World),
      s.ShapePacket Size fl ctx buffer isHandshake w = some (buffer1, s1, w1) ∧
      s.ShapePacket Size fl ctx' buffer isHandshake w = some (buffer1, s1, w1') ∧
      w1.atTime 0 = w1'.atTime 0 := by
  have h := ShapePacket_ctx Size fl s ctx ctx' buffer isHandshake w
  rcases h1 : s.ShapePacket Size fl ctx buffer isHandshake w with _ | ⟨b1, s1, w1⟩
  · rcases h2 : s.ShapePacket Size fl ctx' buffer isHandshake w with _ | ⟨b2, s2, w2⟩
    · exact Or.inl ⟨rfl, rfl⟩
    · rw [h1, h2] at h
      simp at h
  · rcases h2 : s.ShapePacket Size fl ctx' buffer isHandshake w with _ | ⟨b2, s2, w2⟩
    · rw [h1, h2] at h
      simp at h
    · rw [h1, h2] at h
      simp only [Option.map_some', Option.some.injEq, Prod.mk.injEq] at h
      obtain ⟨rfl, rfl, hw⟩ := h
      exact Or.inr ⟨b1, s1, w1, w2, rfl, rfl, hw⟩

/-- C20: take any Burst Controller state, unit, isHandshake flag and world (so
identical random draws), and any two contexts, such as one that is never
cancelled (the wait ends by timer expiry) and one that is cancelled during the
wait.  The two ShapePacket calls both return or both panic; they return when
the padding is Uniform or the entropy source delivers; and when they return they
yield the same unit (which begins with the original bytes, so the same padding)
and the same controller (counters, state, Delay Engine bounds and last-send
timestamp), and worlds that differ in the clock alone.  Through the writer: the
two WriteMultiBuffer calls on a batch of this one unit, by writers that differ
in the context alone, hand the same batch to the inner writer and return the
same result. -/
theorem C20_cancelled_wait_like_expired (Size : Int) (fl : FloatOps) (s : BurstShaper)
    (ctx ctx' : Context) (buffer : Buffer) (isHandshake : Bool) (w : World)
    (ow : ObfuscationWriter) :
    ((s.ShapePacket Size fl ctx buffer isHandshake w).isSome =
      (s.ShapePacket Size fl ctx' buffer isHandshake w).isSome) ∧
    ((s.paddingEngine.distribution = UniformDistribution ∨ w.Delivers) →
      (s.ShapePacket Size fl ctx' buffer isHandshake w).isSome = true) ∧
    (∀ (b1 b2 : Buffer) (s1 s2 : BurstShaper) (w1 w2 : World),
      s.ShapePacket Size fl ctx buffer isHandshake w = some (b1, s1, w1) →
      s.ShapePacket Size fl ctx' buffer isHandshake w = some (b2, s2, w2) →
      b1 = b2 ∧ s1 = s2 ∧ b2.bytes.take buffer.bytes.length = buffer.bytes ∧
      w1.rand = w2.rand ∧ w1.reads = w2.reads ∧ w1.log = w2.log) ∧
    (({ ow with ctx := ctx } : ObfuscationWriter).WriteMultiBuffer Size fl [some buffer] w).map
        (fun r => (r.writer.Writer.received, r.err, r.writer.packetCount,
          r.writer.burstShaper, r.calls)) =
      (({ ow with ctx := ctx' } : ObfuscationWriter).WriteMultiBuffer Size fl [some buffer]
        w).map
        (fun r => (r.writer.Writer.received, r.err, r.writer.packetCount,
          r.writer.burstShaper, r.calls)) := by
  refine ⟨?_, ?_, ?_, ?_⟩
  · rcases ShapePacket_ctx_cases Size fl s ctx ctx' buffer isHandshake w with
      ⟨h1, h2⟩ | ⟨b1, s1, w1, w1', h1, h2, -⟩
    · rw [h1, h2]
    · rw [h1, h2]
      rfl
  · intro hd
    exact ShapePacket_isSome Size fl s ctx' buffer isHandshake w hd
  · intro b1 b2 s1 s2 w1 w2 h1 h2
    rcases ShapePacket_ctx_cases Size fl s ctx ctx' buffer isHandshake w with
      ⟨k1, -⟩ | ⟨b, s0, v1, v2, k1, k2, hw⟩
    · rw [k1] at h1
      exact absurd h1 (by simp)
    · rw [k1] at h1
      rw [k2] at h2
      simp only [Option.some.injEq, Prod.mk.injEq] at h1 h2
      obtain ⟨rfl, rfl, rfl⟩ := h1
      obtain ⟨rfl, rfl, rfl⟩ := h2
      have hk := ShapePacket_some Size fl s ctx' buffer isHandshake w _ _ _ k2
      simp only [World.atTime, World.mk.injEq] at hw
      exact ⟨rfl, rfl, hk.2.2.2.2, hw.1, hw.2.1, hw.2.2.2⟩
  · unfold ObfuscationWriter.WriteMultiBuffer
    simp only
    by_cases hc : ow.config.Enabled = false ∨ ow.burstShaper.isNone = true
    · simp only [if_pos hc]
      rfl
    · simp only [if_neg hc, ObfuscationWriter.shapeUnits]
      by_cases hz : buffer.Len = 0
      · simp only [if_pos hz]
        rfl
      · simp only [if_neg hz]
        cases hs : ow.burstShaper with
        | none => rfl
        | some s0 =>
          simp only
          rcases ShapePacket_ctx_cases Size fl s0 ctx ctx' buffer (decide (ow.packetCount + 1 ≤ 8))
            w with ⟨k1, k2⟩ | ⟨b, s1, v1, v2, k1, k2, hw⟩
          · rw [k1, k2]
          · rw [k1, k2]
            simp

theorem C20_cancelled_wait_like_expired_witness :
    ((usedShaper.ShapePacket 8192 sampleFloat sampleCtx (Buffer.mk [1, 2, 3]) false
        sampleWorld).isSome =
      (usedShaper.ShapePacket 8192 sampleFloat cancelledCtx (Buffer.mk [1, 2, 3]) false
        sampleWorld).isSome) ∧
    ((usedShaper.paddingEngine.distribution = UniformDistribution ∨ sampleWorld.Delivers) →
      (usedShaper.ShapePacket 8192 sampleFloat cancelledCtx (Buffer.mk [1, 2, 3]) false
        sampleWorld).isSome = true) ∧
    (∀ (b1 b2 : Buffer) (s1 s2 : BurstShaper) (w1 w2 : World),
      usedShaper.ShapePacket 8192 sampleFloat sampleCtx (Buffer.mk [1, 2, 3]) false sampleWorld
        = some (b1, s1, w1) →
      usedShaper.ShapePacket 8192 sampleFloat cancelledCtx (Buffer.mk [1, 2, 3]) false
        sampleWorld = some (b2, s2, w2) →
      b1 = b2 ∧ s1 = s2 ∧
      b2.bytes.take (Buffer.mk [1, 2, 3]).bytes.length = (Buffer.mk [1, 2, 3]).bytes ∧
      w1.rand = w2.rand ∧ w1.reads = w2.reads ∧ w1.log = w2.log) ∧
    (({ NewObfuscationWriter sampleInner (some DefaultConfig) sampleCtx sampleWorld with
          ctx := sampleCtx } : ObfuscationWriter).WriteMultiBuffer 8192 sampleFloat
        [some (Buffer.mk [1, 2, 3])] sampleWorld).map
        (fun r => (r.writer.Writer.received, r.err, r.writer.packetCount,
          r.writer.burstShaper, r.calls)) =
      (({ NewObfuscationWriter sampleInner (some DefaultConfig) sampleCtx sampleWorld with
          ctx := cancelledCtx } : ObfuscationWriter).WriteMultiBuffer 8192 sampleFloat
        [some (Buffer.mk [1, 2, 3])] sampleWorld).map
        (fun r => (r.writer.Writer.received, r.err, r.writer.packetCount,
          r.writer.burstShaper, r.calls)) :=
  C20_cancelled_wait_like_expired 8192 sampleFloat usedShaper sampleCtx cancelledCtx
    (Buffer.mk [1, 2, 3]) false sampleWorld
    (NewObfuscationWriter sampleInner (some DefaultConfig) sampleCtx sampleWorld)

/-- In the example of a cancelled wait the two waits do end at different
instants: the timer expires after 30ms, the cancellation comes at instant 1. -/
theorem cancelled_wait_ends_early :
    (usedShaper.ShapePacket 8192 sampleFloat sampleCtx (Buffer.mk [1, 2, 3]) false
      sampleWorld).map (fun r => r.2.2.now) = some 30000000 ∧
    (usedShaper.ShapePacket 8192 sampleFloat cancelledCtx (Buffer.mk [1, 2, 3]) false
      sampleWorld).map (fun r => r.2.2.now) = some 1 := by
  constructor <;> rfl

/-! ## The burst state machine behind the writer -/

theorem advance_packetCount (s : BurstShaper) (isHandshake : Bool) :
    (s.advance isHandshake).packetCount = s.packetCount + 1 := by
  unfold BurstShaper.advance
  simp only
  split_ifs
  · exact (adjustTimingForBurst_keeps { s with packetCount := s.packetCount + 1 }).2.2
  · rfl

theorem connectionShaper_pattern (s0 : BurstShaper) (n : Nat) :
    (connectionShaper s0 n).pattern = s0.pattern := by
  induction n with
  | zero => rfl
  | succ n ih =>
    simp only [connectionShaper]
    rw [(advance_pattern _ _).1, ih]

theorem connectionShaper_packetCount (s0 : BurstShaper) (n : Nat) :
    (connectionShaper s0 n).packetCount = s0.packetCount + (n : Int) := by
  induction n with
  | zero => simp [connectionShaper]
  | succ n ih =>
    simp only [connectionShaper]
    rw [advance_packetCount, ih]
    simp only [Nat.cast_add, Nat.cast_one]
    omega

/-- The loop of `WriteMultiBuffer` keeps the controller on the track of
`connectionShaper`: from unit count `n` to `n` plus the non-empty units of the
batch. -/
theorem shapeUnits_connection (Size : Int) (fl : FloatOps) (s0 : BurstShaper) :
    ∀ (mb : MultiBuffer) (w : ObfuscationWriter) (out : MultiBuffer)
      (calls : List (Buffer × Bool)) (wd : World) (n : Nat) (s : BurstShaper)
      (w1 : ObfuscationWriter) (out1 : MultiBuffer) (calls1 : List (Buffer × Bool))
      (wd1 : World),
      w.burstShaper = some s → w.packetCount = (n : Int) → s.pattern = s0.pattern →
      s.phase = (connectionShaper s0 n).phase →
      ObfuscationWriter.shapeUnits Size fl mb w out calls wd = some (w1, out1, calls1, wd1) →
      ∃ s1, w1.burstShaper = some s1 ∧ s1.pattern = s0.pattern ∧
        w1.packetCount = ((n + (nonEmptyUnits mb).length : Nat) : Int) ∧
        s1.phase = (connectionShaper s0 (n + (nonEmptyUnits mb).length)).phase := by
  intro mb
  induction mb with
  | nil =>
    intro w out calls wd n s w1 out1 calls1 wd1 hs hc hp hph h
    simp only [ObfuscationWriter.shapeUnits, Option.some.injEq, Prod.mk.injEq] at h
    obtain ⟨rfl, -, -, -⟩ := h
    exact ⟨s, hs, hp, by simpa [nonEmptyUnits] using hc, by simpa [nonEmptyUnits] using hph⟩
  | cons b rest ih =>
    intro w out calls wd n s w1 out1 calls1 wd1 hs hc hp hph h
    cases b with
    | none =>
      simp only [ObfuscationWriter.shapeUnits] at h
      have e : nonEmptyUnits (none :: rest) = nonEmptyUnits rest := by simp [nonEmptyUnits]
      rw [e]
      exact ih w out calls wd n s w1 out1 calls1 wd1 hs hc hp hph h
    | some b =>
      simp only [ObfuscationWriter.shapeUnits] at h
      by_cases hz : b.Len = 0
      · rw [if_pos hz] at h
        have e : nonEmptyUnits (some b :: rest) = nonEmptyUnits rest := by
          simp [nonEmptyUnits, hz]
        rw [e]
        exact ih w out calls wd n s w1 out1 calls1 wd1 hs hc hp hph h
      · rw [if_neg hz] at h
        have e : nonEmptyUnits (some b :: rest) = b :: nonEmptyUnits rest := by
          simp [nonEmptyUnits, hz]
        rw [e]
        simp only [hs] at h
        rcases hsp : s.ShapePacket Size fl w.ctx b (decide (w.packetCount + 1 ≤ 8)) wd with
          _ | ⟨shaped, s1, wdp⟩
        · simp [hsp] at h
        · simp only [hsp] at h
          obtain ⟨k1, k2⟩ := ShapePacket_phase Size fl s w.ctx b _ wd shaped s1 wdp hsp
          have hp1 : s1.pattern = s0.pattern := by
            rw [k2, (advance_pattern _ _).1, hp]
          have hph1 : s1.phase = (connectionShaper s0 (n + 1)).phase := by
            rw [k1, hc]
            simp only [connectionShaper]
            exact advance_phase_congr s (connectionShaper s0 n) _
              (by rw [hp, connectionShaper_pattern]) hph
          obtain ⟨s2, j1, j2, j3, j4⟩ := ih _ _ _ _ (n + 1) s1 w1 out1 calls1 wd1 rfl
            (by simp only [hc, Nat.cast_add, Nat.cast_one]) hp1 hph1 h
          have en : n + 1 + (nonEmptyUnits rest).length =
              n + (b :: nonEmptyUnits rest).length := by
            simp only [List.length_cons]; omega
          rw [en] at j3 j4
          exact ⟨s2, j1, j2, j3, j4⟩

theorem WriteMultiBuffer_connection (Size : Int) (fl : FloatOps) (s0 : BurstShaper)
    (w : ObfuscationWriter) (s : BurstShaper) (mb : MultiBuffer) (wd : World) (n : Nat)
    (r : WriteResult) (hen : w.config.Enabled = true) (hs : w.burstShaper = some s)
    (hc : w.packetCount = (n : Int)) (hp : s.pattern = s0.pattern)
    (hph : s.phase = (connectionShaper s0 n).phase)
    (h : w.WriteMultiBuffer Size fl mb wd = some r) :
    r.writer.config.Enabled = true ∧
    ∃ s1, r.writer.burstShaper = some s1 ∧ s1.pattern = s0.pattern ∧
      r.writer.packetCount = ((n + (nonEmptyUnits mb).length : Nat) : Int) ∧
      s1.phase = (connectionShaper s0 (n + (nonEmptyUnits mb).length)).phase := by
  have hcfg := (WriteMultiBuffer_some Size fl w s mb wd r hen hs h).1
  refine ⟨by rw [hcfg]; exact hen, ?_⟩
  unfold ObfuscationWriter.WriteMultiBuffer at h
  have hcond : ¬ (w.config.Enabled = false ∨ w.burstShaper.isNone = true) := by
    simp [hen, hs]
  rw [if_neg hcond] at h
  rcases hu : ObfuscationWriter.shapeUnits Size fl mb w [] [] wd with
    _ | ⟨w1, out1, calls1, wd1⟩
  · simp [hu] at h
  · simp only [hu] at h
    obtain ⟨s1, j1, j2, j3, j4⟩ :=
      shapeUnits_connection Size fl s0 mb w [] [] wd n s w1 out1 calls1 wd1 hs hc hp hph hu
    by_cases hz : out1.length = 0
    · rw [if_pos hz] at h
      simp only [Option.some.injEq] at h
      subst h
      exact ⟨s1, j1, j2, j3, j4⟩
    · rw [if_neg hz] at h
      simp only [Option.some.injEq] at h
      subst h
      exact ⟨s1, j1, j2, j3, j4⟩

theorem writeBatches_connection (Size : Int) (fl : FloatOps) (s0 : BurstShaper) :
    ∀ (batches : List MultiBuffer) (w : ObfuscationWriter) (s : BurstShaper) (wd : World)
      (n : Nat) (w1 : ObfuscationWriter) (wd1 : World) (errs : List (Option Error))
      (calls : List (Buffer × Bool)),
      w.config.Enabled = true → w.burstShaper = some s → w.packetCount = (n : Int) →
      s.pattern = s0.pattern → s.phase = (connectionShaper s0 n).phase →
      writeBatches Size fl batches w wd = some (w1, wd1, errs, calls) →
      w1.config.Enabled = true ∧
      ∃ s1, w1.burstShaper = some s1 ∧ s1.pattern = s0.pattern ∧
        w1.packetCount = ((n + (batches.flatMap nonEmptyUnits).length : Nat) : Int) ∧
        s1.phase = (connectionShaper s0 (n + (batches.flatMap nonEmptyUnits).length)).phase := by
  intro batches
  induction batches with
  | nil =>
    intro w s wd n w1 wd1 errs calls hen hs hc hp hph h
    simp only [writeBatches, Option.some.injEq, Prod.mk.injEq] at h
    obtain ⟨rfl, -, -, -⟩ := h
    exact ⟨hen, s, hs, hp, by simpa using hc, by simpa using hph⟩
  | cons mb rest ih =>
    intro w s wd n w1 wd1 errs calls hen hs hc hp hph h
    simp only [writeBatches] at h
    rcases hr : w.WriteMultiBuffer Size fl mb wd with _ | r
    · simp [hr] at h
    · simp only [hr] at h
      obtain ⟨i1, s1, i2, i3, i4, i5⟩ :=
        WriteMultiBuffer_connection Size fl s0 w s mb wd n r hen hs hc hp hph hr
      rcases hrest : writeBatches Size fl rest r.writer r.world with
        _ | ⟨w2, wd2, errs2, calls2⟩
      · simp [hrest] at h
      · simp only [hrest, Option.some.injEq, Prod.mk.injEq] at h
        obtain ⟨rfl, -, -, -⟩ := h
        obtain ⟨j0, s2, j1, j2, j3, j4⟩ :=
          ih r.writer s1 r.world _ w2 wd2 errs2 calls2 i1 i2 i4 i3 i5 hrest
        have en : n + (nonEmptyUnits mb).length + (rest.flatMap nonEmptyUnits).length =
            n + ((mb :: rest).flatMap nonEmptyUnits).length := by
          simp only [List.flatMap_cons, List.length_append]; omega
        rw [en] at j3 j4
        exact ⟨j0, s2, j1, j2, j3, j4⟩

/-- Behind the writer a fresh HTTPS-like controller is InBurst with burst count
0 after each of the first nine units and BetweenBursts with burst count 1 after
the tenth. -/
theorem https_connection_phase (w0 : World) (n : Nat) (hn : n ≤ 10) :
    (connectionShaper (NewBurstShaper HTTPSPattern w0) n).phase =
      if n = 10 then (10, 1, false) else ((n : Int), 0, true) := by
  interval_cases n <;> rfl

/-- The loop of `WriteMultiBuffer` over a batch is the loop over a first part of
the batch followed by the loop over the rest. -/
theorem shapeUnits_append (Size : Int) (fl : FloatOps) :
    ∀ (mb1 mb2 : MultiBuffer) (w : ObfuscationWriter) (out : MultiBuffer)
      (calls : List (Buffer × Bool)) (wd : World),
      ObfuscationWriter.shapeUnits Size fl (mb1 ++ mb2) w out calls wd =
        (ObfuscationWriter.shapeUnits Size fl mb1 w out calls wd).bind
          (fun r => ObfuscationWriter.shapeUnits Size fl mb2 r.1 r.2.1 r.2.2.1 r.2.2.2) := by
  intro mb1
  induction mb1 with
  | nil => intro mb2 w out calls wd; rfl
  | cons b rest ih =>
    intro mb2 w out calls wd
    cases b with
    | none =>
      simp only [List.cons_append, ObfuscationWriter.shapeUnits]
      exact ih mb2 w out calls wd
    | some b =>
      simp only [List.cons_append, ObfuscationWriter.shapeUnits]
      by_cases hz : b.Len = 0
      · simp only [if_pos hz]
        exact ih mb2 w out calls wd
      · simp only [if_neg hz]
        cases hs : w.burstShaper with
        | none => rfl
        | some s =>
          simp only
          rcases hsp : s.ShapePacket Size fl w.ctx b (decide (w.packetCount + 1 ≤ 8)) wd with
            _ | ⟨shaped, s1, wdp⟩
          · rfl
          · simp only
            exact ih mb2 _ _ _ _

theorem https_connection_track (w0 : World) (s : BurstShaper) (n : Nat)
    (hph : s.phase = (connectionShaper (NewBurstShaper HTTPSPattern w0) n).phase) :
    s.packetCount = (n : Int) ∧ (n ≤ 9 → s.inBurst = true ∧ s.burstCount = 0) ∧
    (n = 10 → s.inBurst = false ∧ s.burstCount = 1) := by
  have hcount : s.packetCount = (n : Int) := by
    have h1 : s.packetCount = (connectionShaper (NewBurstShaper HTTPSPattern w0) n).packetCount :=
      congrArg (fun ph => ph.1) hph
    rw [h1, connectionShaper_packetCount]
    simp [NewBurstShaper]
  refine ⟨hcount, ?_, ?_⟩
  · intro hn
    rw [https_connection_phase w0 n (by omega), if_neg (by omega)] at hph
    simp only [BurstShaper.phase, Prod.mk.injEq] at hph
    exact ⟨hph.2.2, hph.2.1⟩
  · intro hn
    rw [https_connection_phase w0 n (by omega), if_pos hn] at hph
    simp only [BurstShaper.phase, Prod.mk.injEq] at hph
    exact ⟨hph.2.2, hph.2.1⟩

/-- C21: take a writer made by NewObfuscationWriter from an enabled
configuration whose burst pattern is HTTPS-like (DefaultConfig, or no
configuration) and write any sequence of batches through it; the writes return
when the entropy source delivers.  Whenever they return, with n the number of
non-empty units written: the counter of the writer and the packet counter of the
Burst Controller are both n; the controller is InBurst with burst count 0 if n ≤
9 (so after the 5th unit too) and BetweenBursts with burst count 1 if n = 10.
The same holds inside a write, for the state of the loop of WriteMultiBuffer
after any units `mb` of a further batch have been processed, with n counting them
as well. -/
theorem C21_wrapper_delays_first_burst (Size : Int) (fl : FloatOps) (inner : Writer)
    (config : Option Config) (ctx : Context) (wd0 wd : World) (batches : List MultiBuffer)
    (mb : MultiBuffer)
    (hen : (NewObfuscationWriter inner config ctx wd0).config.Enabled = true)
    (hpat : (NewObfuscationWriter inner config ctx wd0).config.GetBurstPattern = HTTPSPattern) :
    (wd.Delivers →
      (writeBatches Size fl batches (NewObfuscationWriter inner config ctx wd0) wd).isSome
        = true) ∧
    ∀ (w1 : ObfuscationWriter) (wd1 : World) (errs : List (Option Error))
      (calls : List (Buffer × Bool)),
      writeBatches Size fl batches (NewObfuscationWriter inner config ctx wd0) wd
        = some (w1, wd1, errs, calls) →
      (∃ s1, w1.burstShaper = some s1 ∧ s1.packetCount = w1.packetCount ∧
        w1.packetCount = ((batches.flatMap nonEmptyUnits).length : Int) ∧
        ((batches.flatMap nonEmptyUnits).length ≤ 9 → s1.inBurst = true ∧ s1.burstCount = 0) ∧
        ((batches.flatMap nonEmptyUnits).length = 10 →
          s1.inBurst = false ∧ s1.burstCount = 1)) ∧
      ∀ (w2 : ObfuscationWriter) (out : MultiBuffer) (calls2 : List (Buffer × Bool))
        (wd2 : World),
        ObfuscationWriter.shapeUnits Size fl mb w1 [] [] wd1 = some (w2, out, calls2, wd2) →
        ∃ s2, w2.burstShaper = some s2 ∧ s2.packetCount = w2.packetCount ∧
          w2.packetCount =
            (((batches.flatMap nonEmptyUnits).length + (nonEmptyUnits mb).length : Nat) : Int) ∧
          ((batches.flatMap nonEmptyUnits).length + (nonEmptyUnits mb).length ≤ 9 →
            s2.inBurst = true ∧ s2.burstCount = 0) ∧
          ((batches.flatMap nonEmptyUnits).length + (nonEmptyUnits mb).length = 10 →
            s2.inBurst = false ∧ s2.burstCount = 1) := by
  have hs : (NewObfuscationWriter inner config ctx wd0).burstShaper =
      some (NewBurstShaper HTTPSPattern wd0) := by
    unfold NewObfuscationWriter at hen hpat ⊢
    simp only at hen hpat ⊢
    rw [if_pos hen, hpat]
  constructor
  · intro hd
    exact writeBatches_isSome Size fl batches _ _ wd hen hs (Or.inr hd)
  · intro w1 wd1 errs calls h
    obtain ⟨j0, s1, j1, j2, j3, j4⟩ := writeBatches_connection Size fl
      (NewBurstShaper HTTPSPattern wd0) batches _ _ wd 0 w1 wd1 errs calls hen hs rfl rfl rfl h
    rw [Nat.zero_add] at j3 j4
    obtain ⟨t1, t2, t3⟩ := https_connection_track wd0 s1 _ j4
    refine ⟨⟨s1, j1, by rw [t1, j3], j3, t2, t3⟩, ?_⟩
    intro w2 out calls2 wd2 hu
    obtain ⟨s2, k1, k2, k3, k4⟩ := shapeUnits_connection Size fl
      (NewBurstShaper HTTPSPattern wd0) mb w1 [] [] wd1 _ s1 w2 out calls2 wd2 j1 j3 j2 j4 hu
    obtain ⟨u1, u2, u3⟩ := https_connection_track wd0 s2 _ k4
    exact ⟨s2, k1, by rw [u1, k3], k3, u2, u3⟩

theorem C21_wrapper_delays_first_burst_witness :
    (NewObfuscationWriter sampleInner (some DefaultConfig) sampleCtx sampleWorld).config.Enabled
      = true ∧
    (NewObfuscationWriter sampleInner (some DefaultConfig) sampleCtx
      sampleWorld).config.GetBurstPattern = HTTPSPattern ∧
    ((sampleWorld.Delivers →
      (writeBatches 8192 sampleFloat tenUnits
        (NewObfuscationWriter sampleInner (some DefaultConfig) sampleCtx sampleWorld)
        sampleWorld).isSome = true) ∧
    ∀ (w1 : ObfuscationWriter) (wd1 : World) (errs : List (Option Error))
      (calls : List (Buffer × Bool)),
      writeBatches 8192 sampleFloat tenUnits
        (NewObfuscationWriter sampleInner (some DefaultConfig) sampleCtx sampleWorld)
        sampleWorld = some (w1, wd1, errs, calls) →
      (∃ s1, w1.burstShaper = some s1 ∧ s1.packetCount = w1.packetCount ∧
        w1.packetCount = ((tenUnits.flatMap nonEmptyUnits).length : Int) ∧
        ((tenUnits.flatMap nonEmptyUnits).length ≤ 9 → s1.inBurst = true ∧ s1.burstCount = 0) ∧
        ((tenUnits.flatMap nonEmptyUnits).length = 10 →
          s1.inBurst = false ∧ s1.burstCount = 1)) ∧
      ∀ (w2 : ObfuscationWriter) (out : MultiBuffer) (calls2 : List (Buffer × Bool))
        (wd2 : World),
        ObfuscationWriter.shapeUnits 8192 sampleFloat emptyBatch w1 [] [] wd1
          = some (w2, out, calls2, wd2) →
        ∃ s2, w2.burstShaper = some s2 ∧ s2.packetCount = w2.packetCount ∧
          w2.packetCount =
            (((tenUnits.flatMap nonEmptyUnits).length + (nonEmptyUnits emptyBatch).length
              : Nat) : Int) ∧
          ((tenUnits.flatMap nonEmptyUnits).length + (nonEmptyUnits emptyBatch).length ≤ 9 →
            s2.inBurst = true ∧ s2.burstCount = 0) ∧
          ((tenUnits.flatMap nonEmptyUnits).length + (nonEmptyUnits emptyBatch).length = 10 →
            s2.inBurst = false ∧ s2.burstCount = 1)) :=
  ⟨rfl, by decide,
    C21_wrapper_delays_first_burst 8192 sampleFloat sampleInner (some DefaultConfig) sampleCtx
      sampleWorld sampleWorld tenUnits emptyBatch rfl (by decide)⟩

/-- The connection of the example: after ten non-empty units through a writer
with DefaultConfig both counters are 10 and the controller is BetweenBursts with
burst count 1; after five units it is still InBurst with burst count 0. -/
theorem ten_units_first_transition :
    (tenUnits.flatMap nonEmptyUnits).length = 10 ∧
    (writeBatches 8192 sampleFloat tenUnits
      (NewObfuscationWriter sampleInner (some DefaultConfig) sampleCtx sampleWorld)
      sampleWorld).map
      (fun r => (r.1.packetCount, r.1.burstShaper.map BurstShaper.phase)) =
      some (10, some (10, 1, false)) ∧
    (writeBatches 8192 sampleFloat [sampleBatch, sampleBatch, [some (Buffer.mk [5])]]
      (NewObfuscationWriter sampleInner (some DefaultConfig) sampleCtx sampleWorld)
      sampleWorld).map
      (fun r => (r.1.packetCount, r.1.burstShaper.map BurstShaper.phase)) =
      some (5, some (5, 0, true)) := by
  refine ⟨by decide, ?_, ?_⟩ <;> rfl

/-! ## Patterns without jitter -/

theorem randInt_now (max : Nat) (w : World) : (randInt max w).2.now = w.now := by
  unfold randInt
  split
  · rfl
  · split <;> rfl

theorem generateUniformPadding_now (p : PaddingEngine) (isHandshake : Bool) (w : World) :
    (p.generateUniformPadding isHandshake w).2.now = w.now := by
  unfold PaddingEngine.generateUniformPadding
  cases isHandshake
  · have e := randInt_now 256 w
    rcases hr : randInt 256 w with ⟨_ | l, w1⟩ <;> rw [hr] at e <;> exact e
  · have e := randInt_now 500 w
    rcases hr : randInt 500 w with ⟨_ | l, w1⟩ <;> rw [hr] at e <;> exact e

theorem ApplyPadding_now (Size : Int) (p : PaddingEngine) (b : Buffer) (L : Int) (w : World) :
    (p.ApplyPadding Size b L w).2.now = w.now := by
  have e := ApplyPadding_atTime Size p b L w w.now
  have hw : w.atTime w.now = w := rfl
  rw [hw] at e
  have h2 := congrArg (fun r => r.2.now) e
  simp only [World.atTime] at h2
  exact h2

/-- With the profile None, `ApplyJitter` returns at once: no draw, no wait, no
new last-send timestamp. -/
theorem ApplyJitter_noJitter (fl : FloatOps) (t : TimingEngine) (ctx : Context) (w : World)
    (h : t.profile = NoJitter) : t.ApplyJitter fl ctx w = (t, w) := by
  unfold TimingEngine.ApplyJitter
  rw [if_pos h]

theorem adjustTimingForBurst_timing (b : BurstShaper) :
    b.adjustTimingForBurst.timingEngine.profile = b.timingEngine.profile ∧
    b.adjustTimingForBurst.timingEngine.lastSendTime = b.timingEngine.lastSendTime := by
  unfold BurstShaper.adjustTimingForBurst
  split
  · unfold BurstShaper.adjustHTTPSTiming
    simp only
    split_ifs <;> exact ⟨rfl, rfl⟩
  · exact ⟨rfl, rfl⟩
  · unfold BurstShaper.adjustVideoTiming
    simp only
    split_ifs <;> exact ⟨rfl, rfl⟩
  · exact ⟨rfl, rfl⟩

theorem advance_timing (s : BurstShaper) (isHandshake : Bool) :
    (s.advance isHandshake).timingEngine.profile = s.timingEngine.profile ∧
    (s.advance isHandshake).timingEngine.lastSendTime = s.timingEngine.lastSendTime := by
  unfold BurstShaper.advance
  simp only
  split_ifs
  · exact adjustTimingForBurst_timing { s with packetCount := s.packetCount + 1 }
  · exact ⟨rfl, rfl⟩

/-- No `ShapePacket` call changes the timing profile. -/
theorem ShapePacket_profile (Size : Int) (fl : FloatOps) (s : BurstShaper) (ctx : Context)
    (buffer : Buffer) (isHandshake : Bool) (w : World) (buffer1 : Buffer) (s1 : BurstShaper)
    (w1 : World) (h : s.ShapePacket Size fl ctx buffer isHandshake w = some (buffer1, s1, w1)) :
    s1.timingEngine.profile = s.timingEngine.profile := by
  have e := ShapePacket_advance Size fl s ctx buffer isHandshake w buffer1 s1 w1 h
  rw [e]
  exact (advance_timing s isHandshake).1

/-- A controller with the profile None and Uniform padding: `ShapePacket`
always returns, leaves the controller exactly as `advance` does, and the clock
where it was. -/
theorem ShapePacket_noJitter (Size : Int) (fl : FloatOps) (s : BurstShaper) (ctx : Context)
    (buffer : Buffer) (isHandshake : Bool) (w : World)
    (hprof : s.timingEngine.profile = NoJitter)
    (hdist : s.paddingEngine.distribution = UniformDistribution) :
    ∃ (buffer1 : Buffer) (w1 : World),
      s.ShapePacket Size fl ctx buffer isHandshake w = some (buffer1, s.advance isHandshake, w1) ∧
      w1.now = w.now := by
  have hg : s.paddingEngine.GeneratePadding fl isHandshake buffer.Len w =
      some (s.paddingEngine.generateUniformPadding isHandshake w) := by
    unfold PaddingEngine.GeneratePadding
    rw [hdist]
  have hnow := generateUniformPadding_now s.paddingEngine isHandshake w
  rcases hu : s.paddingEngine.generateUniformPadding isHandshake w with ⟨L, wg⟩
  rw [hu] at hg hnow
  simp only at hnow
  unfold BurstShaper.ShapePacket BurstShaper.advance
  simp only [hg]
  by_cases hc : s.packetCount + 1 > 1 ∧ isHandshake = false
  · simp only [if_pos hc]
    have hp : (BurstShaper.adjustTimingForBurst
        { s with packetCount := s.packetCount + 1 }).timingEngine.profile = NoJitter := by
      rw [(adjustTimingForBurst_timing _).1]
      exact hprof
    rw [ApplyJitter_noJitter fl _ ctx wg hp]
    simp only
    by_cases hL : L > 0
    · simp only [if_pos hL]
      exact ⟨_, _, rfl, by rw [ApplyPadding_now]; exact hnow⟩
    · simp only [if_neg hL]
      exact ⟨_, _, rfl, hnow⟩
  · simp only [if_neg hc]
    by_cases hL : L > 0
    · simp only [if_pos hL]
      exact ⟨_, _, rfl, by rw [ApplyPadding_now]; exact hnow⟩
    · simp only [if_neg hL]
      exact ⟨_, _, rfl, hnow⟩

theorem advanceAll_timing (flags : List Bool) :
    ∀ (s : BurstShaper), ∀ s1 ∈ advanceAll flags s,
      s1.timingEngine.profile = s.timingEngine.profile ∧
      s1.timingEngine.lastSendTime = s.timingEngine.lastSendTime := by
  induction flags with
  | nil => intro s s1 h; simp [advanceAll] at h
  | cons f rest ih =>
    intro s s1 h
    simp only [advanceAll, List.mem_cons] at h
    obtain ⟨a1, a2⟩ := advance_timing s f
    rcases h with h | h
    · rw [h]; exact ⟨a1, a2⟩
    · obtain ⟨i1, i2⟩ := ih _ s1 h
      exact ⟨i1.trans a1, i2.trans a2⟩

theorem advanceAll_length (flags : List Bool) :
    ∀ (s : BurstShaper), (advanceAll flags s).length = flags.length := by
  induction flags with
  | nil => intro s; rfl
  | cons f rest ih => intro s; simp [advanceAll, ih]

/-- A run of a controller with the profile None and Uniform padding always
returns, its controllers are those of `advanceAll`, and the clock stays where it
was. -/
theorem shapePackets_noJitter (Size : Int) (fl : FloatOps) (ctx : Context) :
    ∀ (pkts : List (Buffer × Bool)) (s : BurstShaper) (w : World),
      s.timingEngine.profile = NoJitter →
      s.paddingEngine.distribution = UniformDistribution →
      ∃ w1, shapePackets Size fl ctx pkts s w = some (advanceAll (pkts.map Prod.snd) s, w1) ∧
        w1.now = w.now := by
  intro pkts
  induction pkts with
  | nil => intro s w _ _; exact ⟨w, rfl, rfl⟩
  | cons pkt rest ih =>
    intro s w hprof hdist
    obtain ⟨buffer, isHandshake⟩ := pkt
    obtain ⟨b1, wp, hsp, hnow⟩ :=
      ShapePacket_noJitter Size fl s ctx buffer isHandshake w hprof hdist
    obtain ⟨w1, hrest, hnow1⟩ := ih (s.advance isHandshake) wp
      (by rw [(advance_timing s isHandshake).1]; exact hprof)
      (by rw [(advance_pattern s isHandshake).2]; exact hdist)
    refine ⟨w1, ?_, hnow1.trans hnow⟩
    simp only [shapePackets, hsp, hrest, List.map_cons, advanceAll]

/-- C22: a Burst Controller constructed for the VideoStream-like pattern, like
one for the Normal pattern, has a Delay Engine with profile None and a
Distribution Engine with Uniform padding; no ShapePacket call on any controller
changes the profile; with profile None ApplyJitter returns at once, leaving the
Delay Engine and the world as they were.  Hence every sequence of ShapePacket
calls on a fresh VideoStream-like controller returns (whatever the draws), the
clock after it is the clock before it (no wait for any packet), and after every
call the profile is still None and the last-send timestamp is still the one of
construction.  All the same a ShapePacket call for a steady-state packet other
than the first re-tunes the delay range and mean of a VideoStream-like
controller: to [0,2ms], mean 1ms when InBurst at entry and to [25,40ms], mean
33ms when BetweenBursts. -/
theorem C22_video_pattern_never_waits (Size : Int) (fl : FloatOps) (ctx : Context)
    (w0 w : World) (pkts : List (Buffer × Bool)) :
    ((NewBurstShaper VideoStreamPattern w0).timingEngine.profile = NoJitter ∧
      (NewBurstShaper VideoStreamPattern w0).paddingEngine.distribution = UniformDistribution ∧
      (NewBurstShaper NormalPattern w0).timingEngine.profile = NoJitter ∧
      (NewBurstShaper NormalPattern w0).paddingEngine.distribution = UniformDistribution) ∧
    (∀ (s : BurstShaper) (buffer : Buffer) (isHandshake : Bool) (w' : World) (b1 : Buffer)
      (s1 : BurstShaper) (w1 : World),
      s.ShapePacket Size fl ctx buffer isHandshake w' = some (b1, s1, w1) →
      s1.timingEngine.profile = s.timingEngine.profile) ∧
    (∀ t : TimingEngine, t.profile = NoJitter → t.ApplyJitter fl ctx w = (t, w)) ∧
    (∃ (trace : List BurstShaper) (w1 : World),
      shapePackets Size fl ctx pkts (NewBurstShaper VideoStreamPattern w0) w = some (trace, w1) ∧
      trace.length = pkts.length ∧ w1.now = w.now ∧
      ∀ s ∈ trace, s.timingEngine.profile = NoJitter ∧
        s.timingEngine.lastSendTime =
          (NewBurstShaper VideoStreamPattern w0).timingEngine.lastSendTime) ∧
    (∀ (s : BurstShaper) (buffer : Buffer) (w' : World) (b1 : Buffer) (s1 : BurstShaper)
      (w1 : World),
      s.pattern = VideoStreamPattern → 1 < s.packetCount + 1 →
      s.ShapePacket Size fl ctx buffer false w' = some (b1, s1, w1) →
      s1.timingEngine.bounds =
        if s.inBurst = true then (0, 2000000, 1000000)
        else (25000000, 40000000, 33000000)) := by
  refine ⟨⟨rfl, rfl, rfl, rfl⟩, ?_, ?_, ?_, ?_⟩
  · intro s buffer isHandshake w' b1 s1 w1 h
    exact ShapePacket_profile Size fl s ctx buffer isHandshake w' b1 s1 w1 h
  · intro t ht
    exact ApplyJitter_noJitter fl t ctx w ht
  · obtain ⟨w1, hrun, hnow⟩ := shapePackets_noJitter Size fl ctx pkts
      (NewBurstShaper VideoStreamPattern w0) w rfl rfl
    refine ⟨_, w1, hrun, ?_, hnow, ?_⟩
    · rw [advanceAll_length, List.length_map]
    · intro s hs
      exact advanceAll_timing _ _ s hs
  · intro s buffer w' b1 s1 w1 hpat hn h
    have e := ShapePacket_advance Size fl s ctx buffer false w' b1 s1 w1 h
    obtain ⟨-, -, -, t4, -⟩ := advance_matches_table s hn
    rw [e]
    simp only [TimingEngine.bounds]
    rw [t4, hpat]
    cases hib : s.inBurst <;> simp [specRetuning]

theorem C22_video_pattern_never_waits_witness :
    ((NewBurstShaper VideoStreamPattern sampleWorld).timingEngine.profile = NoJitter ∧
      (NewBurstShaper VideoStreamPattern sampleWorld).paddingEngine.distribution
        = UniformDistribution ∧
      (NewBurstShaper NormalPattern sampleWorld).timingEngine.profile = NoJitter ∧
      (NewBurstShaper NormalPattern sampleWorld).paddingEngine.distribution
        = UniformDistribution) ∧
    (∀ (s : BurstShaper) (buffer : Buffer) (isHandshake : Bool) (w' : World) (b1 : Buffer)
      (s1 : BurstShaper) (w1 : World),
      s.ShapePacket 8192 sampleFloat sampleCtx buffer isHandshake w' = some (b1, s1, w1) →
      s1.timingEngine.profile = s.timingEngine.profile) ∧
    (∀ t : TimingEngine, t.profile = NoJitter →
      t.ApplyJitter sampleFloat sampleCtx failingWorld = (t, failingWorld)) ∧
    (∃ (trace : List BurstShaper) (w1 : World),
      shapePackets 8192 sampleFloat sampleCtx elevenSteadyPackets
        (NewBurstShaper VideoStreamPattern sampleWorld) failingWorld = some (trace, w1) ∧
      trace.length = elevenSteadyPackets.length ∧ w1.now = failingWorld.now ∧
      ∀ s ∈ trace, s.timingEngine.profile = NoJitter ∧
        s.timingEngine.lastSendTime =
          (NewBurstShaper VideoStreamPattern sampleWorld).timingEngine.lastSendTime) ∧
    (∀ (s : BurstShaper) (buffer : Buffer) (w' : World) (b1 : Buffer) (s1 : BurstShaper)
      (w1 : World),
      s.pattern = VideoStreamPattern → 1 < s.packetCount + 1 →
      s.ShapePacket 8192 sampleFloat sampleCtx buffer false w' = some (b1, s1, w1) →
      s1.timingEngine.bounds =
        if s.inBurst = true then (0, 2000000, 1000000)
        else (25000000, 40000000, 33000000)) :=
  C22_video_pattern_never_waits 8192 sampleFloat sampleCtx sampleWorld failingWorld
    elevenSteadyPackets

/-- The run of the example: eleven steady-state packets through a fresh
VideoStream-like controller.  The first packet leaves the bounds of
construction [0,50ms], mean 10ms; packets 2 to 10 set [0,2ms], mean 1ms; packet
11, which finds the controller BetweenBursts, sets [25,40ms], mean 33ms; the
clock never moves. -/
theorem video_retuned_without_waiting :
    (shapePackets 8192 sampleFloat sampleCtx elevenSteadyPackets
      (NewBurstShaper VideoStreamPattern sampleWorld) sampleWorld).map
      (fun r => (r.1.map (fun s => s.timingEngine.bounds), r.2.now)) =
      some ([(0, 50000000, 10000000), (0, 2000000, 1000000), (0, 2000000, 1000000),
        (0, 2000000, 1000000), (0, 2000000, 1000000), (0, 2000000, 1000000),
        (0, 2000000, 1000000), (0, 2000000, 1000000), (0, 2000000, 1000000),
        (0, 2000000, 1000000), (25000000, 40000000, 33000000)], 0) := by
  rfl

end Obfuscation
